import Mathlib

/-!
# rv32sim: a shallow embedding of the RV32I teaching simulator

The Go package `sim` is embedded as pure Lean functions with explicit state
passing.  Machine integers are natural numbers (`uint32`, `uint8`) or integers
(`int32`) with the wrap-around written out; a mutable receiver becomes an
argument and a returned component.  Output printed to standard output
(`[trap]`, `[warn]`, `[halt]` lines and the trace) does not influence the
machine state and is not part of the embedding.
-/

namespace Sim

/-! ## Machine integers -/

/-- Truncation to `uint32`. -/
def u32 (n : Nat) : Nat := n % 4294967296

/-- Truncation to `uint8`. -/
def u8 (n : Nat) : Nat := n % 256

/-- Conversion `int32(u)` of a `uint32` value: two's complement reading. -/
def toInt32 (u : Nat) : Int :=
  if u < 2147483648 then (u : Int) else (u : Int) - 4294967296

/-- Conversion `uint32(i)` of a signed value (also the wrap-around of `int32` sums). -/
def ofInt32 (i : Int) : Nat := (i % 4294967296).toNat

/-- Subtraction `a - b` of `uint32` values, wrapping around. -/
def sub32 (a b : Nat) : Nat :=
  if b ≤ a then a - b else u32 (a + 4294967296 - b)

/-- Conversion `int8(b)` of a `uint8` value. -/
def toInt8 (b : Nat) : Int :=
  if b < 128 then (b : Int) else (b : Int) - 256

/-! ## isa.go: opcode and funct constants -/

@[reducible] def OpLUI : Nat := 0x37
@[reducible] def opAUIPC : Nat := 0x17
@[reducible] def opJAL : Nat := 0x6F
@[reducible] def opJALR : Nat := 0x67
@[reducible] def opBRANCH : Nat := 0x63
@[reducible] def OpLOAD : Nat := 0x03
@[reducible] def opSTORE : Nat := 0x23
@[reducible] def OpOPIMM : Nat := 0x13
@[reducible] def opOP : Nat := 0x33
@[reducible] def opSYSTEM : Nat := 0x73

@[reducible] def funct7SUBSRA : Nat := 0x20

@[reducible] def F3BEQ : Nat := 0x0
@[reducible] def f3BNE : Nat := 0x1
@[reducible] def f3BLT : Nat := 0x4
@[reducible] def f3BGE : Nat := 0x5
@[reducible] def f3BLTU : Nat := 0x6
@[reducible] def f3BGEU : Nat := 0x7

@[reducible] def f3LB : Nat := 0x0
@[reducible] def F3LBU : Nat := 0x4
@[reducible] def f3LW : Nat := 0x2

@[reducible] def F3SB : Nat := 0x0
@[reducible] def f3SW : Nat := 0x2

@[reducible] def F3ADDI : Nat := 0x0
@[reducible] def f3XORI : Nat := 0x4
@[reducible] def f3ORI : Nat := 0x6
@[reducible] def f3ANDI : Nat := 0x7
@[reducible] def f3SLLI : Nat := 0x1
@[reducible] def f3SRxI : Nat := 0x5

@[reducible] def f3ADD_SUB : Nat := 0x0
@[reducible] def f3XOR : Nat := 0x4
@[reducible] def f3OR : Nat := 0x6
@[reducible] def f3AND : Nat := 0x7
@[reducible] def f3SLL : Nat := 0x1
@[reducible] def f3SRx : Nat := 0x5
@[reducible] def f3SLT : Nat := 0x2
@[reducible] def f3SLTU : Nat := 0x3

/-! ## imm.go: immediate decoders -/

/-- Go `sext(v, bits)`: `int32(v << (32 - bits)) >> (32 - bits)`, for `bits ≤ 32`
(the callers pass 12, 13 and 21). -/
def sext (v bits : Nat) : Int :=
  let shift := 32 - bits
  toInt32 (u32 (v <<< shift)) >>> shift

/-- Go `immI`. -/
def immI (inst : Nat) : Int := sext (inst >>> 20) 12

/-- Go `immU`. -/
def immU (inst : Nat) : Int := toInt32 (inst &&& 0xFFFFF000)

/-- Go `immS`. -/
def immS (inst : Nat) : Int :=
  let imm := u32 ((inst >>> 25) <<< 5) ||| ((inst >>> 7) &&& 0x1F)
  sext imm 12

/-- Go `immB`. -/
def immB (inst : Nat) : Int :=
  let u := u32 (((inst >>> 31) &&& 0x1) <<< 12) |||
    u32 (((inst >>> 25) &&& 0x3F) <<< 5) |||
    u32 (((inst >>> 8) &&& 0xF) <<< 1) |||
    u32 (((inst >>> 7) &&& 0x1) <<< 11)
  sext u 13

/-- Go `immJ`. -/
def immJ (inst : Nat) : Int :=
  let u := u32 (((inst >>> 31) &&& 0x1) <<< 20) |||
    u32 (((inst >>> 21) &&& 0x3FF) <<< 1) |||
    u32 (((inst >>> 20) &&& 0x1) <<< 11) |||
    u32 (((inst >>> 12) &&& 0xFF) <<< 12)
  sext u 21

/-! ## cpu_test.go: the instruction encoders -/

/-- Go `encU`. -/
def encU (op rd imm : Nat) : Nat :=
  (imm &&& 0xFFFFF000) ||| u32 (rd <<< 7) ||| op

/-- Go `encI`; the variadic `shiftFunct7` is the list of the extra arguments. -/
def encI (op rd f3 rs1 : Nat) (imm : Int) (shiftFunct7 : List Nat) : Nat :=
  let top :=
    if shiftFunct7.length > 0 then
      u32 (((shiftFunct7.getD 0 0) &&& 0x7F) <<< 25) ||| u32 ((ofInt32 imm &&& 0x1F) <<< 20)
    else
      u32 ((ofInt32 imm &&& 0xFFF) <<< 20)
  top ||| u32 (rs1 <<< 15) ||| u32 (f3 <<< 12) ||| u32 (rd <<< 7) ||| op

/-- Go `encR`. -/
def encR (rd f3 rs1 rs2 f7 : Nat) : Nat :=
  u32 (f7 <<< 25) ||| u32 (rs2 <<< 20) ||| u32 (rs1 <<< 15) ||| u32 (f3 <<< 12) |||
    u32 (rd <<< 7) ||| 0x33

/-- Go `encS`. -/
def encS (f3 rs1 rs2 : Nat) (imm : Int) : Nat :=
  let u := ofInt32 imm &&& 0xFFF
  let hi := (u >>> 5) &&& 0x7F
  let lo := u &&& 0x1F
  u32 (hi <<< 25) ||| u32 (rs2 <<< 20) ||| u32 (rs1 <<< 15) ||| u32 (f3 <<< 12) |||
    u32 (lo <<< 7) ||| 0x23

/-- Go `encB`. -/
def encB (f3 rs1 rs2 : Nat) (imm : Int) : Nat :=
  let i := ofInt32 imm &&& 0x1FFF
  u32 (((i >>> 12) &&& 0x1) <<< 31) |||
    u32 (((i >>> 5) &&& 0x3F) <<< 25) |||
    u32 (rs2 <<< 20) |||
    u32 (rs1 <<< 15) |||
    u32 (f3 <<< 12) |||
    u32 (((i >>> 1) &&& 0xF) <<< 8) |||
    u32 (((i >>> 11) &&& 0x1) <<< 7) |||
    0x63

/-- Go `encJ`. -/
def encJ (rd : Nat) (imm : Int) : Nat :=
  let i := ofInt32 imm &&& 0x1FFFFF
  u32 (((i >>> 20) &&& 0x1) <<< 31) |||
    u32 (((i >>> 1) &&& 0x3FF) <<< 21) |||
    u32 (((i >>> 11) &&& 0x1) <<< 20) |||
    u32 (((i >>> 12) &&& 0xFF) <<< 12) |||
    u32 (rd <<< 7) ||| 0x6F

/-! ## ram.go -/

/-- Go `RAM`: the byte buffer. -/
structure RAM where
  data : List Nat
deriving DecidableEq, Repr

/-- Go `NewRAM`: a zero-filled buffer. -/
def NewRAM (size : Nat) : RAM := { data := List.replicate size 0 }

/-- Go `RAM.Size`: `uint32(len(m.data))`. -/
def RAM.Size (m : RAM) : Nat := u32 m.data.length

/-- Go `RAM.Read8`. -/
def RAM.Read8 (m : RAM) (addr : Nat) : Nat × Bool :=
  if addr ≥ u32 m.data.length then (0, false)
  else (m.data.getD addr 0, true)

/-- Go `RAM.Write8`: the buffer after the call and the returned flag. -/
def RAM.Write8 (m : RAM) (addr v : Nat) : RAM × Bool :=
  if addr ≥ u32 m.data.length then (m, false)
  else ({ data := m.data.set addr v }, true)

/-! ## uart.go -/

def UARTSize : Nat := 0x100

/-- Go `UART`.  The sink `Out` is the sequence of bytes written to the
`io.Writer` so far, `none` for a nil writer. -/
structure UART where
  Out : Option (List Nat)
  buf : List Nat
  lineBuf : List Nat
  LineBuffered : Bool
deriving DecidableEq, Repr

/-- Go `NewUART(w)`, with `w` given by the initial sink content. -/
def NewUART (w : Option (List Nat)) : UART :=
  { Out := w, buf := [], lineBuf := [], LineBuffered := false }

/-- Go `UART.Read8`. -/
def UART.Read8 (_u : UART) (off : Nat) : Nat × Bool :=
  if off < UARTSize then (0, true) else (0, false)

/-- Go `UART.Write8`: the device after the call and the returned flag. -/
def UART.Write8 (u : UART) (off v : Nat) : UART × Bool :=
  if off ≥ UARTSize then (u, false)
  else
    let u1 : UART := { u with buf := u.buf ++ [v] }
    match u1.Out with
    | some out =>
      if u1.LineBuffered then
        let u2 : UART := { u1 with lineBuf := u1.lineBuf ++ [v] }
        if v = 10 then
          ({ u2 with Out := some (out ++ u2.lineBuf), lineBuf := [] }, true)
        else (u2, true)
      else ({ u1 with Out := some (out ++ [v]) }, true)
    | none => (u1, true)

/-- Go `UART.String`: the accumulator. -/
def UART.String (u : UART) : List Nat := u.buf

/-- Go `UART.Reset`. -/
def UART.Reset (u : UART) : UART := { u with buf := [] }

/-! ## bus.go -/

def UARTBase : Nat := 0x10000000

/-- Go `Bus`. -/
structure Bus where
  RAM : Sim.RAM
  UART : Sim.UART
deriving DecidableEq, Repr

/-- Go `NewBus`. -/
def NewBus (ram : RAM) (uart : UART) : Bus := { RAM := ram, UART := uart }

/-- Go `Bus.Read8`. -/
def Bus.Read8 (b : Bus) (addr : Nat) : Nat × Bool :=
  if addr < b.RAM.Size then b.RAM.Read8 addr
  else if addr ≥ UARTBase ∧ addr < UARTBase + UARTSize then b.UART.Read8 (sub32 addr UARTBase)
  else (0, false)

/-- Go `Bus.Write8`: the bus after the call and the returned flag. -/
def Bus.Write8 (b : Bus) (addr v : Nat) : Bus × Bool :=
  if addr < b.RAM.Size then
    let r := b.RAM.Write8 addr v
    ({ b with RAM := r.1 }, r.2)
  else if addr ≥ UARTBase ∧ addr < UARTBase + UARTSize then
    let r := b.UART.Write8 (sub32 addr UARTBase) v
    ({ b with UART := r.1 }, r.2)
  else (b, false)

/-- The address decoding of `Bus.Read8` and `Bus.Write8`: `a` lies in the RAM
region or in the UART window. -/
def Bus.mapped (b : Bus) (a : Nat) : Prop :=
  a < b.RAM.Size ∨ (a ≥ UARTBase ∧ a < UARTBase + UARTSize)

instance (b : Bus) (a : Nat) : Decidable (b.mapped a) := by
  unfold Bus.mapped; infer_instance

/-- The loop of Go `Bus.Read32`: `n` iterations remain, `i` is the loop
counter and `v` the word assembled so far. -/
def Bus.Read32Loop (b : Bus) (addr : Nat) : Nat → Nat → Nat → Nat × Bool
  | 0, _, v => (v, true)
  | n + 1, i, v =>
    let r := b.Read8 (u32 (addr + i))
    if r.2 = false then (0, false)
    else Bus.Read32Loop b addr n (i + 1) (v ||| u32 (r.1 <<< (8 * i)))

/-- Go `Bus.Read32`. -/
def Bus.Read32 (b : Bus) (addr : Nat) : Nat × Bool :=
  if addr &&& 3 ≠ 0 then (0, false)
  else Bus.Read32Loop b addr 4 0 0

/-- The loop of Go `Bus.Write32`: `n` iterations remain, `i` is the loop counter. -/
def Bus.Write32Loop (addr v : Nat) : Nat → Nat → Bus → Bus × Bool
  | 0, _, b => (b, true)
  | n + 1, i, b =>
    let r := b.Write8 (u32 (addr + i)) (u8 (v >>> (8 * i)))
    if r.2 = false then (r.1, false)
    else Bus.Write32Loop addr v n (i + 1) r.1

/-- Go `Bus.Write32`: the bus after the call and the returned flag. -/
def Bus.Write32 (b : Bus) (addr v : Nat) : Bus × Bool :=
  if addr &&& 3 ≠ 0 then (b, false)
  else Bus.Write32Loop addr v 4 0 b

/-! ## cpu.go -/

/-- Go `CPU`; the bus the CPU points to is carried in the state. -/
structure CPU where
  Reg : List Nat
  PC : Nat
  Bus : Sim.Bus
  Trace : Bool
deriving DecidableEq, Repr

/-- Go `NewCPU`: zero registers, zero PC. -/
def NewCPU (bus : Bus) : CPU :=
  { Reg := List.replicate 32 0, PC := 0, Bus := bus, Trace := false }

/-- Go `CPU.readReg`. -/
def CPU.readReg (c : CPU) (i : Nat) : Nat :=
  if i = 0 then 0 else c.Reg.getD i 0

/-- Go `CPU.writeReg`. -/
def CPU.writeReg (c : CPU) (i v : Nat) : CPU :=
  if i ≠ 0 then { c with Reg := c.Reg.set i v } else c

/-- Go `CPU.fetch`. -/
def CPU.fetch (c : CPU) : Nat × Bool := c.Bus.Read32 c.PC

/-- Go `addPC`. -/
def addPC (pc : Nat) (off : Int) : Nat := ofInt32 (toInt32 pc + off)

/-- The `opBRANCH` case of `CPU.Step`: the next PC. -/
def CPU.execBRANCH (c : CPU) (inst f3 rs1 rs2 nextPC : Nat) : Nat :=
  let a := c.readReg rs1
  let b := c.readReg rs2
  let off := ofInt32 (immB inst)
  if f3 = F3BEQ then (if a = b then u32 (c.PC + off) else nextPC)
  else if f3 = f3BNE then (if a ≠ b then u32 (c.PC + off) else nextPC)
  else if f3 = f3BLT then (if toInt32 a < toInt32 b then u32 (c.PC + off) else nextPC)
  else if f3 = f3BGE then (if toInt32 a ≥ toInt32 b then u32 (c.PC + off) else nextPC)
  else if f3 = f3BLTU then (if a < b then u32 (c.PC + off) else nextPC)
  else if f3 = f3BGEU then (if a ≥ b then u32 (c.PC + off) else nextPC)
  else nextPC

/-- The `OpLOAD` case of `CPU.Step`: the CPU afterwards and `false` on a trap. -/
def CPU.execLOAD (c : CPU) (inst f3 rd rs1 : Nat) : CPU × Bool :=
  let base := c.readReg rs1
  let addr := u32 (base + ofInt32 (immI inst))
  if f3 = f3LB then
    let r := c.Bus.Read8 addr
    if r.2 = false then (c, false)
    else (c.writeReg rd (ofInt32 (toInt8 r.1)), true)
  else if f3 = F3LBU then
    let r := c.Bus.Read8 addr
    if r.2 = false then (c, false)
    else (c.writeReg rd r.1, true)
  else if f3 = f3LW then
    let r := c.Bus.Read32 addr
    if r.2 = false then (c, false)
    else (c.writeReg rd r.1, true)
  else (c, true)

/-- The `opSTORE` case of `CPU.Step`: the CPU afterwards and `false` on a trap. -/
def CPU.execSTORE (c : CPU) (inst f3 rs1 rs2 : Nat) : CPU × Bool :=
  let base := c.readReg rs1
  let addr := u32 (base + ofInt32 (immS inst))
  if f3 = F3SB then
    let v := u8 (c.readReg rs2)
    let r := c.Bus.Write8 addr v
    ({ c with Bus := r.1 }, r.2)
  else if f3 = f3SW then
    let v := c.readReg rs2
    let r := c.Bus.Write32 addr v
    ({ c with Bus := r.1 }, r.2)
  else (c, true)

/-- The `OpOPIMM` case of `CPU.Step`. -/
def CPU.execOPIMM (c : CPU) (inst f3 f7 rd rs1 : Nat) : CPU :=
  let a := c.readReg rs1
  let imm := ofInt32 (immI inst)
  if f3 = F3ADDI then c.writeReg rd (u32 (a + ofInt32 (toInt32 imm)))
  else if f3 = f3XORI then c.writeReg rd (a ^^^ imm)
  else if f3 = f3ORI then c.writeReg rd (a ||| imm)
  else if f3 = f3ANDI then c.writeReg rd (a &&& imm)
  else if f3 = f3SLLI then
    let sh := imm &&& 0x1F
    c.writeReg rd (u32 (a <<< sh))
  else if f3 = f3SRxI then
    let sh := imm &&& 0x1F
    if f7 = funct7SUBSRA then c.writeReg rd (ofInt32 (toInt32 a >>> sh))
    else c.writeReg rd (a >>> sh)
  else c

/-- The `opOP` case of `CPU.Step`. -/
def CPU.execOP (c : CPU) (f3 f7 rd rs1 rs2 : Nat) : CPU :=
  let a := c.readReg rs1
  let b := c.readReg rs2
  if f3 = f3ADD_SUB then
    if f7 = funct7SUBSRA then c.writeReg rd (sub32 a b)
    else c.writeReg rd (u32 (a + b))
  else if f3 = f3XOR then c.writeReg rd (a ^^^ b)
  else if f3 = f3OR then c.writeReg rd (a ||| b)
  else if f3 = f3AND then c.writeReg rd (a &&& b)
  else if f3 = f3SLL then c.writeReg rd (u32 (a <<< (b &&& 0x1F)))
  else if f3 = f3SRx then
    if f7 = funct7SUBSRA then c.writeReg rd (ofInt32 (toInt32 a >>> (b &&& 0x1F)))
    else c.writeReg rd (a >>> (b &&& 0x1F))
  else if f3 = f3SLT then
    if toInt32 a < toInt32 b then c.writeReg rd 1 else c.writeReg rd 0
  else if f3 = f3SLTU then
    if a < b then c.writeReg rd 1 else c.writeReg rd 0
  else c

/-- The `switch op` of `CPU.Step` on the fetched word `inst` with its decoded
fields: the CPU after the case, the next PC, and `false` when the case
returned early (trap or halt). -/
def CPU.exec (c : CPU) (inst op rd f3 rs1 rs2 f7 : Nat) : CPU × Nat × Bool :=
  let nextPC := u32 (c.PC + 4)
  if op = OpLUI then (c.writeReg rd (ofInt32 (immU inst)), nextPC, true)
  else if op = opAUIPC then (c.writeReg rd (addPC c.PC (immU inst)), nextPC, true)
  else if op = opJAL then
    (c.writeReg rd (u32 (c.PC + 4)), addPC c.PC (immJ inst), true)
  else if op = opJALR then
    let tgt := u32 (c.readReg rs1 + ofInt32 (immI inst)) &&& 0xFFFFFFFE
    (c.writeReg rd (u32 (c.PC + 4)), tgt, true)
  else if op = opBRANCH then (c, c.execBRANCH inst f3 rs1 rs2 nextPC, true)
  else if op = OpLOAD then
    let r := c.execLOAD inst f3 rd rs1
    (r.1, nextPC, r.2)
  else if op = opSTORE then
    let r := c.execSTORE inst f3 rs1 rs2
    (r.1, nextPC, r.2)
  else if op = OpOPIMM then (c.execOPIMM inst f3 f7 rd rs1, nextPC, true)
  else if op = opOP then (c.execOP f3 f7 rd rs1 rs2, nextPC, true)
  else if op = opSYSTEM then (c, nextPC, false)
  else (c, nextPC, true)

/-- The field `op := inst & 0x7F` decoded by `CPU.Step`. -/
def fOp (inst : Nat) : Nat := inst &&& 0x7F

/-- The field `rd := (inst >> 7) & 0x1F` decoded by `CPU.Step`. -/
def fRd (inst : Nat) : Nat := (inst >>> 7) &&& 0x1F

/-- The field `f3 := (inst >> 12) & 0x7` decoded by `CPU.Step`. -/
def fF3 (inst : Nat) : Nat := (inst >>> 12) &&& 0x7

/-- The field `rs1 := (inst >> 15) & 0x1F` decoded by `CPU.Step`. -/
def fRs1 (inst : Nat) : Nat := (inst >>> 15) &&& 0x1F

/-- The field `rs2 := (inst >> 20) & 0x1F` decoded by `CPU.Step`. -/
def fRs2 (inst : Nat) : Nat := (inst >>> 20) &&& 0x1F

/-- The field `f7 := (inst >> 25) & 0x7F` decoded by `CPU.Step`. -/
def fF7 (inst : Nat) : Nat := (inst >>> 25) &&& 0x7F

/-- Go `CPU.Step`: the CPU (with its bus) after the call and the returned flag. -/
def CPU.Step (c : CPU) : CPU × Bool :=
  let r := c.fetch
  if r.2 = false then (c, false)
  else
    let inst := r.1
    let e := c.exec inst (fOp inst) (fRd inst) (fF3 inst) (fRs1 inst) (fRs2 inst) (fF7 inst)
    if e.2.2 = false then (e.1, false)
    else ({ e.1 with PC := e.2.1, Reg := e.1.Reg.set 0 0 }, true)

/-- The state after `n` consecutive calls of `Step`, whatever they return. -/
def CPU.stepN : Nat → CPU → CPU
  | 0, c => c
  | n + 1, c => CPU.stepN n (c.Step).1

/-! ## ram.go: bulk write -/

/-- How a call of Go `RAM.WriteBytes` ends: it returns `nil`, it returns the
error "write beyond RAM", or it aborts in a run-time panic (slice bounds out
of range). -/
inductive WriteBytesResult
  | nil
  | errBeyondRAM
  | abort
deriving DecidableEq, Repr

/-- Go `copy(data[addr:], buf)` for `addr ≤ len(data)`: the first
`min(len(data) - addr, len(buf))` bytes of `buf` replace the bytes of `data`
from index `addr` on. -/
def copyAt (data : List Nat) (addr : Nat) (buf : List Nat) : List Nat :=
  data.take addr ++ buf.take (data.length - addr) ++ data.drop (addr + buf.length)

/-- Go `RAM.WriteBytes`: the buffer after the call and how the call ends.  The
test adds in `uint32`; the slice expression `m.data[addr:]` panics when
`addr` exceeds `len(m.data)`. -/
def RAM.WriteBytes (m : RAM) (addr : Nat) (buf : List Nat) : RAM × WriteBytesResult :=
  if u32 (addr + u32 buf.length) > u32 m.data.length then (m, WriteBytesResult.errBeyondRAM)
  else if addr > m.data.length then (m, WriteBytesResult.abort)
  else ({ data := copyAt m.data addr buf }, WriteBytesResult.nil)

/-! ## uart.go: sequences of writes -/

/-- A caller writing the pairs (offset, byte) of `ws` one after another with
`UART.Write8`: the device afterwards and the flags the calls returned. -/
def UART.writeSeq (u : UART) : List (Nat × Nat) → UART × List Bool
  | [] => (u, [])
  | w :: ws =>
    let r := u.Write8 w.1 w.2
    let rest := UART.writeSeq r.1 ws
    (rest.1, r.2 :: rest.2)

/-! ## elf.go -/

@[reducible] def elfMAG0 : Nat := 0x7F
@[reducible] def elfMAG1 : Nat := 0x45
@[reducible] def elfMAG2 : Nat := 0x4C
@[reducible] def elfMAG3 : Nat := 0x46
@[reducible] def eiCLASS32 : Nat := 1
@[reducible] def eiDATA2LSB : Nat := 1
@[reducible] def etEXEC : Nat := 2
@[reducible] def emRISCV : Nat := 243
@[reducible] def ptLOAD : Nat := 1

/-- Go `binary.LittleEndian.Uint16` on the bytes of `raw` from `off`. -/
def le16 (raw : List Nat) (off : Nat) : Nat :=
  raw.getD off 0 ||| (raw.getD (off + 1) 0 <<< 8)

/-- Go `binary.LittleEndian.Uint32` on the bytes of `raw` from `off`. -/
def le32 (raw : List Nat) (off : Nat) : Nat :=
  raw.getD off 0 ||| (raw.getD (off + 1) 0 <<< 8) ||| (raw.getD (off + 2) 0 <<< 16) |||
    (raw.getD (off + 3) 0 <<< 24)

/-- Go `elf32Ehdr` (the field `Type` is written `Type_`). -/
structure elf32Ehdr where
  Ident : List Nat
  Type_ : Nat
  Machine : Nat
  Version : Nat
  Entry : Nat
  Phoff : Nat
  Shoff : Nat
  Flags : Nat
  Ehsize : Nat
  Phentsize : Nat
  Phnum : Nat
  Shentsize : Nat
  Shnum : Nat
  Shstrndx : Nat
deriving DecidableEq, Repr

/-- Go `elf32Phdr` (the field `Type` is written `Type_`). -/
structure elf32Phdr where
  Type_ : Nat
  Offset : Nat
  Vaddr : Nat
  Paddr : Nat
  Filesz : Nat
  Memsz : Nat
  Flags : Nat
  Align : Nat
deriving DecidableEq, Repr

/-- Go `binary.Size(hdr)`: 16 + 2 + 2 + 5 * 4 + 6 * 2 bytes. -/
@[reducible] def sizeEhdr : Nat := 52

/-- Go `binary.Size(elf32Phdr{})`: 8 * 4 bytes. -/
@[reducible] def sizePhdr : Nat := 32

/-- Go `binary.Read(r, binary.LittleEndian, &hdr)` with the reader at offset 0:
`none` when fewer than 52 bytes are there. -/
def readEhdr (raw : List Nat) : Option elf32Ehdr :=
  if raw.length < sizeEhdr then none
  else some
    { Ident := raw.take 16
      Type_ := le16 raw 16
      Machine := le16 raw 18
      Version := le32 raw 20
      Entry := le32 raw 24
      Phoff := le32 raw 28
      Shoff := le32 raw 32
      Flags := le32 raw 36
      Ehsize := le16 raw 40
      Phentsize := le16 raw 42
      Phnum := le16 raw 44
      Shentsize := le16 raw 46
      Shnum := le16 raw 48
      Shstrndx := le16 raw 50 }

/-- Go `r.Seek(off, 0)` followed by `binary.Read(r, binary.LittleEndian, &ph)`:
the seek to a non-negative offset always succeeds, the read gives `none` when
fewer than 32 bytes are there from `off` on. -/
def readPhdr (raw : List Nat) (off : Nat) : Option elf32Phdr :=
  if raw.length < off + sizePhdr then none
  else some
    { Type_ := le32 raw off
      Offset := le32 raw (off + 4)
      Vaddr := le32 raw (off + 8)
      Paddr := le32 raw (off + 12)
      Filesz := le32 raw (off + 16)
      Memsz := le32 raw (off + 20)
      Flags := le32 raw (off + 24)
      Align := le32 raw (off + 28) }

/-- The error values `LoadELF32` returns, one constructor for each `return 0, ...`
of the source, in source order. -/
inductive LoadError
  | readFile
  | readHeader
  | notELF
  | notELF32
  | notLittleEndian
  | machine (m : Nat)
  | ehsize (n : Nat)
  | phentsize (n : Nat)
  | seekPhdr
  | readPhdr
  | segExceedsFile (i : Nat)
  | segOutOfRAM (i vaddr size : Nat)
  | writeSegment (i : Nat)
  | bssTail (i : Nat)
  | zeroTail
deriving DecidableEq, Repr

/-- How a call of `LoadELF32` ends: it returns `(entry, err)` (`err = none` for
`nil`), or it aborts in a run-time panic. -/
inductive LoadResult
  | ret (entry : Nat) (err : Option LoadError)
  | abort
deriving DecidableEq, Repr

/-- The part "Copy the file part, if any" of the loop body of `LoadELF32` for
the program header `ph` of index `i`: the RAM afterwards, and the way the call
ends when this part ends it.  The sums are `uint32` sums; the slice
`raw[ph.Offset : ph.Offset+ph.Filesz]` panics when its low bound exceeds its
high bound. -/
def loadFilePart (raw : List Nat) (ram : RAM) (i : Nat) (ph : elf32Phdr) :
    RAM × Option LoadResult :=
  if ph.Filesz > 0 then
    if u32 (ph.Offset + ph.Filesz) > raw.length then
      (ram, some (LoadResult.ret 0 (some (LoadError.segExceedsFile i))))
    else if ph.Offset > u32 (ph.Offset + ph.Filesz) then (ram, some LoadResult.abort)
    else
      let seg := (raw.drop ph.Offset).take (u32 (ph.Offset + ph.Filesz) - ph.Offset)
      if u32 (ph.Vaddr + ph.Filesz) > ram.Size then
        (ram, some (LoadResult.ret 0 (some (LoadError.segOutOfRAM i ph.Vaddr ph.Filesz))))
      else
        let w := ram.WriteBytes ph.Vaddr seg
        if w.2 = WriteBytesResult.nil then (w.1, none)
        else if w.2 = WriteBytesResult.errBeyondRAM then
          (w.1, some (LoadResult.ret 0 (some (LoadError.writeSegment i))))
        else (w.1, some LoadResult.abort)
  else (ram, none)

/-- The part "Zero-fill tail" of the loop body of `LoadELF32`. -/
def loadZeroTail (ram : RAM) (i : Nat) (ph : elf32Phdr) : RAM × Option LoadResult :=
  if ph.Memsz > ph.Filesz then
    let start := u32 (ph.Vaddr + ph.Filesz)
    let n := ph.Memsz - ph.Filesz
    if u32 (start + n) > ram.Size then
      (ram, some (LoadResult.ret 0 (some (LoadError.bssTail i))))
    else
      let w := ram.WriteBytes start (List.replicate n 0)
      if w.2 = WriteBytesResult.nil then (w.1, none)
      else if w.2 = WriteBytesResult.errBeyondRAM then
        (w.1, some (LoadResult.ret 0 (some LoadError.zeroTail)))
      else (w.1, some LoadResult.abort)
  else (ram, none)

/-- The loop body of `LoadELF32` once the program header `ph` of index `i` is
read: `none` in the second component when the loop goes on. -/
def loadPhdr (raw : List Nat) (ram : RAM) (i : Nat) (ph : elf32Phdr) :
    RAM × Option LoadResult :=
  if ph.Type_ ≠ ptLOAD then (ram, none)
  else
    let r := loadFilePart raw ram i ph
    if r.2 = none then loadZeroTail r.1 i ph
    else r

/-- The loop `for i := 0; i < int(hdr.Phnum); i++` of `LoadELF32`: `n`
iterations remain, `i` is the loop counter. -/
def LoadELF32Loop (raw : List Nat) (hdr : elf32Ehdr) : Nat → Nat → RAM → RAM × LoadResult
  | 0, _, ram => (ram, LoadResult.ret hdr.Entry none)
  | n + 1, i, ram =>
    match readPhdr raw (hdr.Phoff + i * hdr.Phentsize) with
    | none => (ram, LoadResult.ret 0 (some LoadError.readPhdr))
    | some ph =>
      let r := loadPhdr raw ram i ph
      match r.2 with
      | some e => (r.1, e)
      | none => LoadELF32Loop raw hdr n (i + 1) r.1

/-- Go `LoadELF32`, with the result of `os.ReadFile(path)` as argument (`none`
when the file cannot be read): the RAM afterwards and how the call ends. -/
def LoadELF32 (file : Option (List Nat)) (ram : RAM) : RAM × LoadResult :=
  match file with
  | none => (ram, LoadResult.ret 0 (some LoadError.readFile))
  | some raw =>
    match readEhdr raw with
    | none => (ram, LoadResult.ret 0 (some LoadError.readHeader))
    | some hdr =>
      if hdr.Ident.getD 0 0 ≠ elfMAG0 ∨ hdr.Ident.getD 1 0 ≠ elfMAG1 ∨
          hdr.Ident.getD 2 0 ≠ elfMAG2 ∨ hdr.Ident.getD 3 0 ≠ elfMAG3 then
        (ram, LoadResult.ret 0 (some LoadError.notELF))
      else if hdr.Ident.getD 4 0 ≠ eiCLASS32 then
        (ram, LoadResult.ret 0 (some LoadError.notELF32))
      else if hdr.Ident.getD 5 0 ≠ eiDATA2LSB then
        (ram, LoadResult.ret 0 (some LoadError.notLittleEndian))
      else if hdr.Machine ≠ emRISCV then
        (ram, LoadResult.ret 0 (some (LoadError.machine hdr.Machine)))
      else if hdr.Ehsize ≠ sizeEhdr then
        (ram, LoadResult.ret 0 (some (LoadError.ehsize hdr.Ehsize)))
      else if hdr.Phentsize ≠ sizePhdr then
        (ram, LoadResult.ret 0 (some (LoadError.phentsize hdr.Phentsize)))
      else LoadELF32Loop raw hdr hdr.Phnum 0 ram

/-! ## elf_test.go: building an image -/

/-- Go `binary.LittleEndian.PutUint16`. -/
def putLE16 (n : Nat) : List Nat := [u8 n, u8 (n >>> 8)]

/-- Go `binary.LittleEndian.PutUint32`. -/
def putLE32 (n : Nat) : List Nat := [u8 n, u8 (n >>> 8), u8 (n >>> 16), u8 (n >>> 24)]

/-- Go `binary.Write(buf, binary.LittleEndian, &eh)` for an ELF header: the 52
bytes of its fields in order. -/
def writeEhdr (h : elf32Ehdr) : List Nat :=
  h.Ident ++ putLE16 h.Type_ ++ putLE16 h.Machine ++ putLE32 h.Version ++ putLE32 h.Entry ++
    putLE32 h.Phoff ++ putLE32 h.Shoff ++ putLE32 h.Flags ++ putLE16 h.Ehsize ++
    putLE16 h.Phentsize ++ putLE16 h.Phnum ++ putLE16 h.Shentsize ++ putLE16 h.Shnum ++
    putLE16 h.Shstrndx

/-- Go `binary.Write(buf, binary.LittleEndian, &ph)` for a program header: 32 bytes. -/
def writePhdr (p : elf32Phdr) : List Nat :=
  putLE32 p.Type_ ++ putLE32 p.Offset ++ putLE32 p.Vaddr ++ putLE32 p.Paddr ++
    putLE32 p.Filesz ++ putLE32 p.Memsz ++ putLE32 p.Flags ++ putLE32 p.Align

/-- The header `eh` of `TestLoadELF32_MinimalPTLOAD`. -/
def testEhdr : elf32Ehdr :=
  { Ident := [0x7F, 0x45, 0x4C, 0x46, 1, 1, 1, 0, 0, 0, 0, 0, 0, 0, 0, 0]
    Type_ := etEXEC, Machine := emRISCV, Version := 1, Entry := 0x200, Phoff := 52,
    Shoff := 0, Flags := 0, Ehsize := 52, Phentsize := 32, Phnum := 1, Shentsize := 0,
    Shnum := 0, Shstrndx := 0 }

/-- The program header `ph` of `TestLoadELF32_MinimalPTLOAD`. -/
def testPhdr : elf32Phdr :=
  { Type_ := ptLOAD, Offset := 0x100, Vaddr := 0x200, Paddr := 0, Filesz := 4, Memsz := 8,
    Flags := 0, Align := 4 }

/-- The file of `TestLoadELF32_MinimalPTLOAD`: header, program header, padding
up to offset 0x100, four segment bytes. -/
def testImage : List Nat :=
  writeEhdr testEhdr ++ writePhdr testPhdr ++ List.replicate (0x100 - 84) 0 ++
    [0xDE, 0xAD, 0xBE, 0xEF]

/-- A program header whose segment starts at file offset 0xFFFFFFFF and has 2
bytes: offset + file size is 2^32 + 1, far beyond any file of the image. -/
def wrapPhdr : elf32Phdr :=
  { Type_ := ptLOAD, Offset := 0xFFFFFFFF, Vaddr := 0, Paddr := 0, Filesz := 2, Memsz := 2,
    Flags := 0, Align := 4 }

/-- An 84-byte image: the test header followed by `wrapPhdr`. -/
def wrapImage : List Nat := writeEhdr testEhdr ++ writePhdr wrapPhdr

/-! ## cpu_test.go: the test programs -/

@[reducible] def x0 : Nat := 0
@[reducible] def a0 : Nat := 10
@[reducible] def a1 : Nat := 11
@[reducible] def t0 : Nat := 5

/-- The loop of Go `writeInst`: `n` iterations remain, `i` is the loop
counter; the flag is false when a byte write fails (the test then stops with
`t.Fatalf`). -/
def writeInstLoop (addr inst : Nat) : Nat → Nat → RAM → RAM × Bool
  | 0, _, ram => (ram, true)
  | n + 1, i, ram =>
    let r := ram.Write8 (u32 (addr + i)) (u8 (inst >>> (8 * i)))
    if r.2 = false then (r.1, false)
    else writeInstLoop addr inst n (i + 1) r.1

/-- Go `writeInst`: the RAM afterwards, and false when the helper failed. -/
def writeInst (ram : RAM) (addr inst : Nat) : RAM × Bool := writeInstLoop addr inst 4 0 ram

/-- The loop `for i, ins := range insts { writeInst(t, ram, pc+uint32(i*4), ins) }`
of the tests, with `i` the index of the head of the list. -/
def writeInsts (pc : Nat) : List Nat → Nat → RAM → RAM × Bool
  | [], _, ram => (ram, true)
  | ins :: rest, i, ram =>
    let r := writeInst ram (u32 (pc + u32 (i * 4))) ins
    if r.2 = false then (r.1, false)
    else writeInsts pc rest (i + 1) r.1

/-- Go `runToHalt`: the CPU after the loop and the returned flag. -/
def runToHalt : Nat → CPU → CPU × Bool
  | 0, c => (c, false)
  | n + 1, c =>
    let r := c.Step
    if r.2 = false then (r.1, true)
    else runToHalt n r.1

/-- The slice `insts` of `TestCPU_UART_Hello`. -/
def helloInsts : List Nat :=
  [encU OpLUI a0 (UARTBase &&& 0xFFFFF000),
   encI OpOPIMM a0 F3ADDI a0 (toInt32 (UARTBase &&& 0xFFF)) [],
   encI OpOPIMM a1 F3ADDI x0 0x200 [],
   encI OpLOAD t0 F3LBU a1 0 [],
   encB F3BEQ t0 x0 16,
   encS F3SB a0 t0 0,
   encI OpOPIMM a1 F3ADDI a1 1 [],
   encJ 0 (-16),
   0x00000073]

/-- The machine `TestCPU_UART_Hello` builds, for the data bytes `msg` placed
at 0x200: 64 KiB of RAM, a UART without sink, the program at address 0, and
PC = 0. -/
def helloCPU (msg : List Nat) : CPU :=
  let ram := NewRAM (64 * 1024)
  let w := ram.WriteBytes 0x200 msg
  let p := writeInsts 0 helloInsts 0 w.1
  { NewCPU (NewBus p.1 (NewUART none)) with PC := 0 }

/-- The slice `insts` of `TestCPU_Arithmetic_StoreToRAM`, with the two
immediates 5 and 7 of the test as parameters `a` and `b`. -/
def arithInsts (a b : Int) : List Nat :=
  [encI OpOPIMM 1 F3ADDI x0 a [],
   encI OpOPIMM 2 F3ADDI x0 b [],
   encR 3 f3ADD_SUB 1 2 0x00,
   encI OpOPIMM 4 F3ADDI x0 0x300 [],
   encS f3SW 4 3 0,
   0x00000073]

/-- The machine `TestCPU_Arithmetic_StoreToRAM` builds: 4096 bytes of RAM, the
program at address 0, PC = 0. -/
def arithCPU (a b : Int) : CPU :=
  let ram := NewRAM 4096
  let p := writeInsts 0 (arithInsts a b) 0 ram
  { NewCPU (NewBus p.1 (NewUART none)) with PC := 0 }

/-- The read-back loop of `TestCPU_Arithmetic_StoreToRAM`: `n` iterations
remain, `i` is the loop counter and `v` the value assembled so far; the flag
is false when a read fails. -/
def readBackLoop (ram : RAM) (addr : Nat) : Nat → Nat → Nat → Nat × Bool
  | 0, _, v => (v, true)
  | n + 1, i, v =>
    let r := ram.Read8 (u32 (addr + u32 i))
    if r.2 = false then (v, false)
    else readBackLoop ram addr n (i + 1) (v ||| u32 (r.1 <<< (8 * i)))

/-- The value `v` the test reads back from the four bytes at `addr`. -/
def readBack (ram : RAM) (addr : Nat) : Nat × Bool := readBackLoop ram addr 4 0 0

/-! ## disasm.go -/

/-- Go `abiReg`. -/
def abiReg : List String :=
  ["zero", "ra", "sp", "gp", "tp", "t0", "t1", "t2",
   "s0", "s1", "a0", "a1", "a2", "a3", "a4", "a5",
   "a6", "a7", "s2", "s3", "s4", "s5", "s6", "s7",
   "s8", "s9", "s10", "s11", "t3", "t4", "t5", "t6"]

/-- The verb `%d` of `fmt.Sprintf` on an unsigned value. -/
def fmtD (n : Nat) : String := String.mk (Nat.toDigits 10 n)

/-- The verb `%d` of `fmt.Sprintf` on an `int32`. -/
def fmtDInt (i : Int) : String :=
  if i < 0 then "-" ++ fmtD i.natAbs else fmtD i.toNat

/-- The verb `%x` of `fmt.Sprintf` on a `uint32`: lower-case hexadecimal. -/
def fmtX (n : Nat) : String := String.mk (Nat.toDigits 16 n)

/-- The verb `%08x` of `fmt.Sprintf` on a `uint32`: padded with zeros to 8 digits. -/
def fmt08X (n : Nat) : String :=
  String.mk (List.replicate (8 - (Nat.toDigits 16 n).length) '0' ++ Nat.toDigits 16 n)

/-- Go `rn`. -/
def rn (i : Nat) : String :=
  if i < u32 abiReg.length then abiReg.getD i "" else "x" ++ fmtD i

/-- The `opBRANCH` case of `Disasm`: `none` when no case of the inner switch
matches and control reaches the final `return`. -/
def disasmBRANCH (pc inst f3 rs1 rs2 : Nat) : Option String :=
  let tgt := ofInt32 (toInt32 pc + immB inst)
  if f3 = F3BEQ then some ("beq   " ++ rn rs1 ++ ", " ++ rn rs2 ++ ", 0x" ++ fmt08X tgt)
  else if f3 = f3BNE then some ("bne   " ++ rn rs1 ++ ", " ++ rn rs2 ++ ", 0x" ++ fmt08X tgt)
  else if f3 = f3BLT then some ("blt   " ++ rn rs1 ++ ", " ++ rn rs2 ++ ", 0x" ++ fmt08X tgt)
  else if f3 = f3BGE then some ("bge   " ++ rn rs1 ++ ", " ++ rn rs2 ++ ", 0x" ++ fmt08X tgt)
  else if f3 = f3BLTU then some ("bltu  " ++ rn rs1 ++ ", " ++ rn rs2 ++ ", 0x" ++ fmt08X tgt)
  else if f3 = f3BGEU then some ("bgeu  " ++ rn rs1 ++ ", " ++ rn rs2 ++ ", 0x" ++ fmt08X tgt)
  else none

/-- The `OpLOAD` case of `Disasm`. -/
def disasmLOAD (inst f3 rd rs1 : Nat) : Option String :=
  let off := immI inst
  if f3 = f3LB then some ("lb    " ++ rn rd ++ ", " ++ fmtDInt off ++ "(" ++ rn rs1 ++ ")")
  else if f3 = F3LBU then some ("lbu   " ++ rn rd ++ ", " ++ fmtDInt off ++ "(" ++ rn rs1 ++ ")")
  else if f3 = f3LW then some ("lw    " ++ rn rd ++ ", " ++ fmtDInt off ++ "(" ++ rn rs1 ++ ")")
  else none

/-- The `opSTORE` case of `Disasm`. -/
def disasmSTORE (inst f3 rs1 rs2 : Nat) : Option String :=
  let off := immS inst
  if f3 = F3SB then some ("sb    " ++ rn rs2 ++ ", " ++ fmtDInt off ++ "(" ++ rn rs1 ++ ")")
  else if f3 = f3SW then some ("sw    " ++ rn rs2 ++ ", " ++ fmtDInt off ++ "(" ++ rn rs1 ++ ")")
  else none

/-- The `OpOPIMM` case of `Disasm`. -/
def disasmOPIMM (inst f3 f7 rd rs1 : Nat) : Option String :=
  let imm := immI inst
  if f3 = F3ADDI then some ("addi  " ++ rn rd ++ ", " ++ rn rs1 ++ ", " ++ fmtDInt imm)
  else if f3 = f3XORI then some ("xori  " ++ rn rd ++ ", " ++ rn rs1 ++ ", " ++ fmtDInt imm)
  else if f3 = f3ORI then some ("ori   " ++ rn rd ++ ", " ++ rn rs1 ++ ", " ++ fmtDInt imm)
  else if f3 = f3ANDI then some ("andi  " ++ rn rd ++ ", " ++ rn rs1 ++ ", " ++ fmtDInt imm)
  else if f3 = f3SLLI then
    some ("slli  " ++ rn rd ++ ", " ++ rn rs1 ++ ", " ++ fmtD (ofInt32 imm &&& 0x1F))
  else if f3 = f3SRxI then
    if f7 = funct7SUBSRA then
      some ("srai  " ++ rn rd ++ ", " ++ rn rs1 ++ ", " ++ fmtD (ofInt32 imm &&& 0x1F))
    else some ("srli  " ++ rn rd ++ ", " ++ rn rs1 ++ ", " ++ fmtD (ofInt32 imm &&& 0x1F))
  else none

/-- The `opOP` case of `Disasm`. -/
def disasmOP (f3 f7 rd rs1 rs2 : Nat) : Option String :=
  if f3 = f3ADD_SUB then
    if f7 = funct7SUBSRA then some ("sub   " ++ rn rd ++ ", " ++ rn rs1 ++ ", " ++ rn rs2)
    else some ("add   " ++ rn rd ++ ", " ++ rn rs1 ++ ", " ++ rn rs2)
  else if f3 = f3XOR then some ("xor   " ++ rn rd ++ ", " ++ rn rs1 ++ ", " ++ rn rs2)
  else if f3 = f3OR then some ("or    " ++ rn rd ++ ", " ++ rn rs1 ++ ", " ++ rn rs2)
  else if f3 = f3AND then some ("and   " ++ rn rd ++ ", " ++ rn rs1 ++ ", " ++ rn rs2)
  else if f3 = f3SLL then some ("sll   " ++ rn rd ++ ", " ++ rn rs1 ++ ", " ++ rn rs2)
  else if f3 = f3SRx then
    if f7 = funct7SUBSRA then some ("sra   " ++ rn rd ++ ", " ++ rn rs1 ++ ", " ++ rn rs2)
    else some ("srl   " ++ rn rd ++ ", " ++ rn rs1 ++ ", " ++ rn rs2)
  else if f3 = f3SLT then some ("slt   " ++ rn rd ++ ", " ++ rn rs1 ++ ", " ++ rn rs2)
  else if f3 = f3SLTU then some ("sltu  " ++ rn rd ++ ", " ++ rn rs1 ++ ", " ++ rn rs2)
  else none

/-- The `switch op` of `Disasm` on the word `inst` with its decoded fields:
the text a case returns, `none` when control leaves the switch and reaches the
final `return`. -/
def disasmCase (pc inst op rd f3 rs1 rs2 f7 : Nat) : Option String :=
  if op = OpLUI then some ("lui   " ++ rn rd ++ ", 0x" ++ fmtX (ofInt32 (immU inst)))
  else if op = opAUIPC then some ("auipc " ++ rn rd ++ ", 0x" ++ fmtX (ofInt32 (immU inst)))
  else if op = opJAL then
    let tgt := ofInt32 (toInt32 pc + immJ inst)
    some ("jal   " ++ rn rd ++ ", 0x" ++ fmt08X tgt)
  else if op = opJALR then
    some ("jalr  " ++ rn rd ++ ", " ++ fmtDInt (immI inst) ++ "(" ++ rn rs1 ++ ")")
  else if op = opBRANCH then disasmBRANCH pc inst f3 rs1 rs2
  else if op = OpLOAD then disasmLOAD inst f3 rd rs1
  else if op = opSTORE then disasmSTORE inst f3 rs1 rs2
  else if op = OpOPIMM then disasmOPIMM inst f3 f7 rd rs1
  else if op = opOP then disasmOP f3 f7 rd rs1 rs2
  else if op = opSYSTEM then (if inst = 0x00000073 then some "ecall" else some "system")
  else none

/-- Go `Disasm`. -/
def Disasm (pc inst : Nat) : String :=
  match disasmCase pc inst (inst &&& 0x7F) ((inst >>> 7) &&& 0x1F) ((inst >>> 12) &&& 0x7)
      ((inst >>> 15) &&& 0x1F) ((inst >>> 20) &&& 0x1F) ((inst >>> 25) &&& 0x7F) with
  | some s => s
  | none => ".word 0x" ++ fmt08X inst

/-! ## cpu.go: the warnings of a step -/

/-- The `[warn]` lines of `CPU.Step`: whether the `switch op`, entered with
the decoded fields `op` and `f3`, ends in one of the `default:` cases, which
print a warning and do nothing else. -/
def CPU.warns (op f3 : Nat) : Bool :=
  if op = OpLUI then false
  else if op = opAUIPC then false
  else if op = opJAL then false
  else if op = opJALR then false
  else if op = opBRANCH then
    if f3 = F3BEQ ∨ f3 = f3BNE ∨ f3 = f3BLT ∨ f3 = f3BGE ∨ f3 = f3BLTU ∨ f3 = f3BGEU then false
    else true
  else if op = OpLOAD then
    if f3 = f3LB ∨ f3 = F3LBU ∨ f3 = f3LW then false else true
  else if op = opSTORE then
    if f3 = F3SB ∨ f3 = f3SW then false else true
  else if op = OpOPIMM then
    if f3 = F3ADDI ∨ f3 = f3XORI ∨ f3 = f3ORI ∨ f3 = f3ANDI ∨ f3 = f3SLLI ∨ f3 = f3SRxI then false
    else true
  else if op = opOP then
    if f3 = f3ADD_SUB ∨ f3 = f3XOR ∨ f3 = f3OR ∨ f3 = f3AND ∨ f3 = f3SLL ∨ f3 = f3SRx ∨
        f3 = f3SLT ∨ f3 = f3SLTU then false
    else true
  else if op = opSYSTEM then false
  else true

/-- The text of a case of `Disasm`, when there is one, starts with a character
other than the dot. -/
def startsLetter (o : Option String) : Prop :=
  ∀ s, o = some s → ∃ c, s.data.head? = some c ∧ c ≠ '.'

/-! ## Predicates and state families used in the statements -/

/-- The four bytes of a list from index `a` on are the little-endian bytes of `w`. -/
def wordAt (d : List Nat) (a w : Nat) : Prop :=
  ∀ k, k < 4 → d.getD (a + k) 0 = u8 (w >>> (8 * k))

/-- The register file and PC of the arithmetic program along its run: x1..x4
and the PC vary, all other registers are 0. -/
def arithState (x1 x2 x3 x4 pc : Nat) (bus : Bus) : CPU :=
  CPU.mk ([0, x1, x2, x3, x4] ++ List.replicate 27 0) pc bus false

/-- The register file and PC of the string program along its run: t0, a0, a1
and the PC vary, all other registers are 0. -/
def helloState (t a0v a1v pc : Nat) (bus : Bus) : CPU :=
  CPU.mk ([0, 0, 0, 0, 0, t, 0, 0, 0, 0, a0v, a1v] ++ List.replicate 20 0) pc bus false

/-! ## Concrete machine states used as instances -/

/-- A CPU about to execute `lw x1, 0(x2)` with x2 = 0x20000000, an address
outside RAM and the UART window. -/
def cpuTrapLW : CPU :=
  { Reg := [0, 0, 0x20000000] ++ List.replicate 29 0, PC := 0,
    Bus := NewBus { data := [0x83, 0x20, 0x01, 0x00] } (NewUART none), Trace := false }

/-- A CPU about to execute `sw x1, 8(x0)` in a 10-byte RAM: the word write
stores bytes 8 and 9 and fails at byte 10. -/
def cpuTrapSW : CPU :=
  { Reg := [0, 0x01020304] ++ List.replicate 30 0, PC := 0,
    Bus := NewBus { data := [0x23, 0x24, 0x10, 0x00, 0, 0, 0, 0, 0, 0] } (NewUART none),
    Trace := false }

/-- A fresh CPU whose first word is 0xFFFFFFFF (opcode 0x7F, not a supported one). -/
def cpuAllOnes : CPU := NewCPU (NewBus { data := [0xFF, 0xFF, 0xFF, 0xFF] } (NewUART none))

/-- A CPU with x1 = 5, x2 = 7 about to execute the word 0x022081B3, the RV32M
encoding of `mul x3, x1, x2` (opcode OP, funct3 0, funct7 0x01). -/
def cpuMUL : CPU :=
  { Reg := [0, 5, 7] ++ List.replicate 29 0, PC := 0,
    Bus := NewBus { data := [0xB3, 0x81, 0x20, 0x02] } (NewUART none), Trace := false }

/-- A fresh CPU whose first word is 0x00002063: opcode BRANCH with funct3 2. -/
def cpuBranch2 : CPU := NewCPU (NewBus { data := [0x63, 0x20, 0x00, 0x00] } (NewUART none))

/-- A CPU with x1 = 0x100 about to execute `jalr x1, 5(x1)` (word 0x005080E7). -/
def cpuJALR : CPU :=
  { Reg := [0, 0x100] ++ List.replicate 30 0, PC := 0,
    Bus := NewBus { data := [0xE7, 0x80, 0x50, 0x00] } (NewUART none), Trace := false }

/-- A bus as `runelf -ramkb 262145` builds it: 0x10000400 bytes of RAM, which
reach past `UARTBase`. -/
def busBigRAM : Bus := NewBus (NewRAM 0x10000400) (NewUART none)

/-! # Theorems -/

/-! ## Bit-level facts -/

theorem and_three_eq_mod (a : Nat) : a &&& 3 = a % 4 :=
  Nat.and_pow_two_sub_one_eq_mod a 2

/-! ## Register file -/

theorem writeReg_Reg_length (c : CPU) (i v : Nat) :
    (c.writeReg i v).Reg.length = c.Reg.length := by
  unfold CPU.writeReg
  split <;> simp

theorem writeReg_Reg_zero (c : CPU) (i v : Nat) :
    (c.writeReg i v).Reg[0]? = c.Reg[0]? := by
  unfold CPU.writeReg
  split
  · rename_i h
    simp [List.getElem?_set_ne h]
  · rfl

theorem writeReg_PC (c : CPU) (i v : Nat) : (c.writeReg i v).PC = c.PC := by
  unfold CPU.writeReg
  split <;> rfl

theorem writeReg_Bus (c : CPU) (i v : Nat) : (c.writeReg i v).Bus = c.Bus := by
  unfold CPU.writeReg
  split <;> rfl

theorem readReg_zero (c : CPU) : c.readReg 0 = 0 := by
  simp [CPU.readReg]

theorem execLOAD_Reg_length (c : CPU) (inst f3 rd rs1 : Nat) :
    (c.execLOAD inst f3 rd rs1).1.Reg.length = c.Reg.length := by
  unfold CPU.execLOAD
  simp only []
  split_ifs <;> simp [writeReg_Reg_length]

theorem execLOAD_Reg_zero (c : CPU) (inst f3 rd rs1 : Nat) :
    (c.execLOAD inst f3 rd rs1).1.Reg[0]? = c.Reg[0]? := by
  unfold CPU.execLOAD
  simp only []
  split_ifs <;> simp [writeReg_Reg_zero]

theorem execSTORE_Reg (c : CPU) (inst f3 rs1 rs2 : Nat) :
    (c.execSTORE inst f3 rs1 rs2).1.Reg = c.Reg := by
  unfold CPU.execSTORE
  simp only []
  split_ifs <;> rfl

theorem execOPIMM_shape (c : CPU) (inst f3 f7 rd rs1 : Nat) :
    c.execOPIMM inst f3 f7 rd rs1 = c ∨ ∃ v, c.execOPIMM inst f3 f7 rd rs1 = c.writeReg rd v := by
  unfold CPU.execOPIMM
  simp only []
  by_cases h0 : f3 = F3ADDI
  · rw [if_pos h0]; exact Or.inr ⟨_, rfl⟩
  rw [if_neg h0]
  by_cases h1 : f3 = f3XORI
  · rw [if_pos h1]; exact Or.inr ⟨_, rfl⟩
  rw [if_neg h1]
  by_cases h2 : f3 = f3ORI
  · rw [if_pos h2]; exact Or.inr ⟨_, rfl⟩
  rw [if_neg h2]
  by_cases h3 : f3 = f3ANDI
  · rw [if_pos h3]; exact Or.inr ⟨_, rfl⟩
  rw [if_neg h3]
  by_cases h4 : f3 = f3SLLI
  · rw [if_pos h4]; exact Or.inr ⟨_, rfl⟩
  rw [if_neg h4]
  by_cases h5 : f3 = f3SRxI
  · rw [if_pos h5]
    by_cases h7 : f7 = funct7SUBSRA
    · rw [if_pos h7]; exact Or.inr ⟨_, rfl⟩
    · rw [if_neg h7]; exact Or.inr ⟨_, rfl⟩
  rw [if_neg h5]
  exact Or.inl rfl

theorem execOP_shape (c : CPU) (f3 f7 rd rs1 rs2 : Nat) :
    c.execOP f3 f7 rd rs1 rs2 = c ∨ ∃ v, c.execOP f3 f7 rd rs1 rs2 = c.writeReg rd v := by
  unfold CPU.execOP
  simp only []
  by_cases h0 : f3 = f3ADD_SUB
  · rw [if_pos h0]
    by_cases h7 : f7 = funct7SUBSRA
    · rw [if_pos h7]; exact Or.inr ⟨_, rfl⟩
    · rw [if_neg h7]; exact Or.inr ⟨_, rfl⟩
  rw [if_neg h0]
  by_cases h1 : f3 = f3XOR
  · rw [if_pos h1]; exact Or.inr ⟨_, rfl⟩
  rw [if_neg h1]
  by_cases h2 : f3 = f3OR
  · rw [if_pos h2]; exact Or.inr ⟨_, rfl⟩
  rw [if_neg h2]
  by_cases h3 : f3 = f3AND
  · rw [if_pos h3]; exact Or.inr ⟨_, rfl⟩
  rw [if_neg h3]
  by_cases h4 : f3 = f3SLL
  · rw [if_pos h4]; exact Or.inr ⟨_, rfl⟩
  rw [if_neg h4]
  by_cases h5 : f3 = f3SRx
  · rw [if_pos h5]
    by_cases h7 : f7 = funct7SUBSRA
    · rw [if_pos h7]; exact Or.inr ⟨_, rfl⟩
    · rw [if_neg h7]; exact Or.inr ⟨_, rfl⟩
  rw [if_neg h5]
  by_cases h6 : f3 = f3SLT
  · rw [if_pos h6]
    by_cases hlt : toInt32 (c.readReg rs1) < toInt32 (c.readReg rs2)
    · rw [if_pos hlt]; exact Or.inr ⟨_, rfl⟩
    · rw [if_neg hlt]; exact Or.inr ⟨_, rfl⟩
  rw [if_neg h6]
  by_cases h8 : f3 = f3SLTU
  · rw [if_pos h8]
    by_cases hlt : c.readReg rs1 < c.readReg rs2
    · rw [if_pos hlt]; exact Or.inr ⟨_, rfl⟩
    · rw [if_neg hlt]; exact Or.inr ⟨_, rfl⟩
  rw [if_neg h8]
  exact Or.inl rfl

theorem execOPIMM_Reg_length (c : CPU) (inst f3 f7 rd rs1 : Nat) :
    (c.execOPIMM inst f3 f7 rd rs1).Reg.length = c.Reg.length := by
  rcases execOPIMM_shape c inst f3 f7 rd rs1 with h | ⟨v, h⟩ <;> rw [h]
  exact writeReg_Reg_length c rd v

theorem execOPIMM_Reg_zero (c : CPU) (inst f3 f7 rd rs1 : Nat) :
    (c.execOPIMM inst f3 f7 rd rs1).Reg[0]? = c.Reg[0]? := by
  rcases execOPIMM_shape c inst f3 f7 rd rs1 with h | ⟨v, h⟩ <;> rw [h]
  exact writeReg_Reg_zero c rd v

theorem execOP_Reg_length (c : CPU) (f3 f7 rd rs1 rs2 : Nat) :
    (c.execOP f3 f7 rd rs1 rs2).Reg.length = c.Reg.length := by
  rcases execOP_shape c f3 f7 rd rs1 rs2 with h | ⟨v, h⟩ <;> rw [h]
  exact writeReg_Reg_length c rd v

theorem execOP_Reg_zero (c : CPU) (f3 f7 rd rs1 rs2 : Nat) :
    (c.execOP f3 f7 rd rs1 rs2).Reg[0]? = c.Reg[0]? := by
  rcases execOP_shape c f3 f7 rd rs1 rs2 with h | ⟨v, h⟩ <;> rw [h]
  exact writeReg_Reg_zero c rd v

/-- Case analysis on the opcode switch of `CPU.exec`. -/
theorem exec_elim {motive : CPU × Nat × Bool → Prop} (c : CPU) (inst op rd f3 rs1 rs2 f7 : Nat)
    (hLUI : op = OpLUI → motive (c.writeReg rd (ofInt32 (immU inst)), u32 (c.PC + 4), true))
    (hAUIPC : op = opAUIPC →
      motive (c.writeReg rd (addPC c.PC (immU inst)), u32 (c.PC + 4), true))
    (hJAL : op = opJAL →
      motive (c.writeReg rd (u32 (c.PC + 4)), addPC c.PC (immJ inst), true))
    (hJALR : op = opJALR → motive (c.writeReg rd (u32 (c.PC + 4)),
      u32 (c.readReg rs1 + ofInt32 (immI inst)) &&& 0xFFFFFFFE, true))
    (hBRANCH : op = opBRANCH →
      motive (c, c.execBRANCH inst f3 rs1 rs2 (u32 (c.PC + 4)), true))
    (hLOAD : op = OpLOAD →
      motive ((c.execLOAD inst f3 rd rs1).1, u32 (c.PC + 4), (c.execLOAD inst f3 rd rs1).2))
    (hSTORE : op = opSTORE → motive ((c.execSTORE inst f3 rs1 rs2).1, u32 (c.PC + 4),
      (c.execSTORE inst f3 rs1 rs2).2))
    (hOPIMM : op = OpOPIMM → motive (c.execOPIMM inst f3 f7 rd rs1, u32 (c.PC + 4), true))
    (hOP : op = opOP → motive (c.execOP f3 f7 rd rs1 rs2, u32 (c.PC + 4), true))
    (hSYSTEM : op = opSYSTEM → motive (c, u32 (c.PC + 4), false))
    (hOther : op ≠ OpLUI → op ≠ opAUIPC → op ≠ opJAL → op ≠ opJALR → op ≠ opBRANCH →
      op ≠ OpLOAD → op ≠ opSTORE → op ≠ OpOPIMM → op ≠ opOP → op ≠ opSYSTEM →
      motive (c, u32 (c.PC + 4), true)) :
    motive (c.exec inst op rd f3 rs1 rs2 f7) := by
  by_cases h1 : op = OpLUI
  · have := hLUI h1; subst h1; simpa [CPU.exec] using this
  by_cases h2 : op = opAUIPC
  · have := hAUIPC h2; subst h2; simpa [CPU.exec] using this
  by_cases h3 : op = opJAL
  · have := hJAL h3; subst h3; simpa [CPU.exec] using this
  by_cases h4 : op = opJALR
  · have := hJALR h4; subst h4; simpa [CPU.exec] using this
  by_cases h5 : op = opBRANCH
  · have := hBRANCH h5; subst h5; simpa [CPU.exec] using this
  by_cases h6 : op = OpLOAD
  · have := hLOAD h6; subst h6; simpa [CPU.exec] using this
  by_cases h7 : op = opSTORE
  · have := hSTORE h7; subst h7; simpa [CPU.exec] using this
  by_cases h8 : op = OpOPIMM
  · have := hOPIMM h8; subst h8; simpa [CPU.exec] using this
  by_cases h9 : op = opOP
  · have := hOP h9; subst h9; simpa [CPU.exec] using this
  by_cases h10 : op = opSYSTEM
  · have := hSYSTEM h10; subst h10; simpa [CPU.exec] using this
  · simpa [CPU.exec, h1, h2, h3, h4, h5, h6, h7, h8, h9, h10] using
      hOther h1 h2 h3 h4 h5 h6 h7 h8 h9 h10

theorem exec_Reg_length (c : CPU) (inst op rd f3 rs1 rs2 f7 : Nat) :
    (c.exec inst op rd f3 rs1 rs2 f7).1.Reg.length = c.Reg.length := by
  refine exec_elim (motive := fun r => r.1.Reg.length = c.Reg.length) c inst op rd f3 rs1 rs2 f7
    ?_ ?_ ?_ ?_ ?_ ?_ ?_ ?_ ?_ ?_ ?_ <;> intros <;>
    simp [writeReg_Reg_length, execLOAD_Reg_length, execSTORE_Reg, execOPIMM_Reg_length,
      execOP_Reg_length]

theorem exec_Reg_zero (c : CPU) (inst op rd f3 rs1 rs2 f7 : Nat) :
    (c.exec inst op rd f3 rs1 rs2 f7).1.Reg[0]? = c.Reg[0]? := by
  refine exec_elim (motive := fun r => r.1.Reg[0]? = c.Reg[0]?) c inst op rd f3 rs1 rs2 f7
    ?_ ?_ ?_ ?_ ?_ ?_ ?_ ?_ ?_ ?_ ?_ <;> intros <;>
    simp [writeReg_Reg_zero, execLOAD_Reg_zero, execSTORE_Reg, execOPIMM_Reg_zero,
      execOP_Reg_zero]

theorem Step_Reg_length (c : CPU) : (c.Step).1.Reg.length = c.Reg.length := by
  unfold CPU.Step
  simp only []
  split_ifs <;> simp [exec_Reg_length]

theorem Step_Reg_zero (c : CPU) (h : c.Reg[0]? = some 0) : (c.Step).1.Reg[0]? = some 0 := by
  unfold CPU.Step
  simp only []
  split_ifs
  · exact h
  · rw [exec_Reg_zero]; exact h
  · have hl : 0 < (c.exec c.fetch.1 (fOp c.fetch.1) (fRd c.fetch.1) (fF3 c.fetch.1) (fRs1 c.fetch.1) (fRs2 c.fetch.1) (fF7 c.fetch.1)).1.Reg.length := by
      rw [exec_Reg_length]
      rcases hc : c.Reg with _ | ⟨x, xs⟩
      · rw [hc] at h; simp at h
      · simp
    simp [hl]

theorem stepN_Reg_zero (n : Nat) (c : CPU) (h : c.Reg[0]? = some 0) :
    (CPU.stepN n c).Reg[0]? = some 0 := by
  induction n generalizing c with
  | zero => exact h
  | succ k ih => exact ih _ (Step_Reg_zero c h)

theorem stepN_Reg_length (n : Nat) (c : CPU) :
    (CPU.stepN n c).Reg.length = c.Reg.length := by
  induction n generalizing c with
  | zero => rfl
  | succ k ih =>
    show (CPU.stepN k (c.Step).1).Reg.length = c.Reg.length
    rw [ih, Step_Reg_length]

/-- C1: register 0 is hard-wired to zero.  `readReg 0` is 0 in every CPU state;
a write to index 0 is discarded; and from a CPU made by `NewCPU` on any bus,
with any initial PC and trace flag, `Reg[0]` is 0 (and the file keeps its 32
entries) after any number of `Step` calls, whatever each of them returns. -/
theorem C1_x0_hardwired (bus : Bus) (pc : Nat) (tr : Bool) (n : Nat) :
    (∀ c : CPU, c.readReg 0 = 0) ∧
    (∀ (c : CPU) (v : Nat), c.writeReg 0 v = c) ∧
    (CPU.stepN n { NewCPU bus with PC := pc, Trace := tr }).Reg[0]? = some 0 ∧
    (CPU.stepN n { NewCPU bus with PC := pc, Trace := tr }).Reg.length = 32 := by
  refine ⟨readReg_zero, ?_, ?_, ?_⟩
  · intro c v
    simp [CPU.writeReg]
  · apply stepN_Reg_zero
    simp [NewCPU]
  · rw [stepN_Reg_length]
    simp [NewCPU]

/-! ## Bus: which accesses succeed, and what a write leaves alone -/

theorem UART_Write8_snd (u : UART) (off v : Nat) :
    (u.Write8 off v).2 = decide (off < UARTSize) := by
  unfold UART.Write8
  by_cases h : off ≥ UARTSize
  · simp [h]
  · simp only [h, if_false]
    have h' : off < UARTSize := Nat.lt_of_not_ge h
    rcases u.Out with _ | out
    · simp [h']
    · simp only []
      split_ifs <;> simp [h']

theorem Read8_snd (b : Bus) (a : Nat) : (b.Read8 a).2 = decide (b.mapped a) := by
  unfold Bus.Read8 Bus.mapped RAM.Read8 UART.Read8 RAM.Size
  by_cases h1 : a < u32 b.RAM.data.length
  · simp [h1, Nat.not_le.mpr h1]
  · by_cases h2 : a ≥ UARTBase ∧ a < UARTBase + UARTSize
    · have h3 : sub32 a UARTBase < UARTSize := by
        have := h2.1; have := h2.2; simp only [sub32, UARTBase, UARTSize] at *
        rw [if_pos (by omega)]; omega
      simp [h1, h2, h3]
    · simp [h1, h2]

theorem Write8_snd (b : Bus) (a v : Nat) : (b.Write8 a v).2 = decide (b.mapped a) := by
  unfold Bus.Write8 Bus.mapped RAM.Write8 RAM.Size
  by_cases h1 : a < u32 b.RAM.data.length
  · simp [h1, Nat.not_le.mpr h1]
  · by_cases h2 : a ≥ UARTBase ∧ a < UARTBase + UARTSize
    · have h3 : sub32 a UARTBase < UARTSize := by
        have := h2.1; have := h2.2; simp only [sub32, UARTBase, UARTSize] at *
        rw [if_pos (by omega)]; omega
      simp [h1, h2, UART_Write8_snd, h3]
    · simp [h1, h2]

theorem Write8_Size (b : Bus) (a v : Nat) : (b.Write8 a v).1.RAM.Size = b.RAM.Size := by
  unfold Bus.Write8
  by_cases h1 : a < b.RAM.Size
  · simp only [if_pos h1]
    unfold RAM.Write8 RAM.Size
    split_ifs <;> simp
  · simp only [if_neg h1]
    by_cases h2 : a ≥ UARTBase ∧ a < UARTBase + UARTSize
    · simp only [if_pos h2]
    · simp only [if_neg h2]

theorem Write8_fail (b : Bus) (a v : Nat) (h : (b.Write8 a v).2 = false) :
    (b.Write8 a v).1 = b := by
  rw [Write8_snd] at h
  have hm : ¬ b.mapped a := by simpa using h
  unfold Bus.mapped at hm
  unfold Bus.Write8
  have h1 : ¬ a < b.RAM.Size := fun h => hm (Or.inl h)
  have h2 : ¬ (a ≥ UARTBase ∧ a < UARTBase + UARTSize) := fun h => hm (Or.inr h)
  simp [h1, h2]

theorem Write8_Read8_ne (b : Bus) (a v x : Nat) (hx : x ≠ a) :
    (b.Write8 a v).1.Read8 x = b.Read8 x := by
  unfold Bus.Write8 RAM.Write8
  by_cases h1 : a < b.RAM.Size
  · have h1' : ¬ a ≥ u32 b.RAM.data.length := Nat.not_le.mpr h1
    simp only [h1, h1', if_true, if_false]
    unfold Bus.Read8 RAM.Read8 RAM.Size
    simp [List.getD_eq_getElem?_getD, List.getElem?_set_ne (Ne.symm hx)]
  · simp only [h1, if_false]
    by_cases h2 : a ≥ UARTBase ∧ a < UARTBase + UARTSize
    · simp only [if_pos h2]
      unfold Bus.Read8 UART.Read8
      simp only []
    · simp only [if_neg h2]

theorem mapped_of_Size {b b' : Bus} (h : b'.RAM.Size = b.RAM.Size) (a : Nat) :
    b'.mapped a ↔ b.mapped a := by
  unfold Bus.mapped
  rw [h]

theorem Write32Loop_Size (addr v : Nat) (n i : Nat) (b : Bus) :
    (Bus.Write32Loop addr v n i b).1.RAM.Size = b.RAM.Size := by
  induction n generalizing i b with
  | zero => rfl
  | succ k ih =>
    unfold Bus.Write32Loop
    simp only []
    split_ifs
    · exact Write8_Size _ _ _
    · rw [ih, Write8_Size]

theorem Write32Loop_snd (addr v : Nat) (n i : Nat) (b : Bus) :
    (Bus.Write32Loop addr v n i b).2 = true ↔ ∀ j, j < n → b.mapped (u32 (addr + (i + j))) := by
  induction n generalizing i b with
  | zero => simp [Bus.Write32Loop]
  | succ k ih =>
    unfold Bus.Write32Loop
    simp only []
    by_cases h : (b.Write8 (u32 (addr + i)) (u8 (v >>> (8 * i)))).2 = false
    · rw [if_pos h]
      rw [Write8_snd] at h
      have hm : ¬ b.mapped (u32 (addr + i)) := by simpa using h
      constructor
      · intro hf; simp at hf
      · intro hall
        exact absurd (hall 0 (Nat.succ_pos k)) hm
    · rw [if_neg h]
      rw [Write8_snd] at h
      have hm : b.mapped (u32 (addr + i)) := by simpa using h
      rw [ih]
      constructor
      · intro hall j hj
        rcases j with _ | j
        · exact hm
        · have := hall j (by omega)
          rw [mapped_of_Size (Write8_Size _ _ _)] at this
          have e : i + 1 + j = i + (j + 1) := by omega
          rw [e] at this
          exact this
      · intro hall j hj
        rw [mapped_of_Size (Write8_Size _ _ _)]
        have := hall (j + 1) (by omega)
        have e : i + 1 + j = i + (j + 1) := by omega
        rw [e]
        exact this

theorem Write32Loop_Read8_other (addr v : Nat) (n i : Nat) (b : Bus) (x : Nat)
    (hx : ∀ j, j < n → x ≠ u32 (addr + (i + j))) :
    (Bus.Write32Loop addr v n i b).1.Read8 x = b.Read8 x := by
  induction n generalizing i b with
  | zero => rfl
  | succ k ih =>
    unfold Bus.Write32Loop
    simp only []
    have h0 : x ≠ u32 (addr + i) := hx 0 (Nat.succ_pos k)
    split_ifs
    · exact Write8_Read8_ne _ _ _ _ h0
    · rw [ih, Write8_Read8_ne _ _ _ _ h0]
      intro j hj
      have := hx (j + 1) (by omega)
      have e : i + 1 + j = i + (j + 1) := by omega
      rw [e]
      exact this

theorem Read32Loop_snd (b : Bus) (addr : Nat) (n i w : Nat) :
    (Bus.Read32Loop b addr n i w).2 = true ↔ ∀ j, j < n → b.mapped (u32 (addr + (i + j))) := by
  induction n generalizing i w with
  | zero => simp [Bus.Read32Loop]
  | succ k ih =>
    unfold Bus.Read32Loop
    simp only []
    by_cases h : (b.Read8 (u32 (addr + i))).2 = false
    · rw [if_pos h]
      rw [Read8_snd] at h
      have hm : ¬ b.mapped (u32 (addr + i)) := by simpa using h
      constructor
      · intro hf; simp at hf
      · intro hall
        exact absurd (hall 0 (Nat.succ_pos k)) hm
    · rw [if_neg h]
      rw [Read8_snd] at h
      have hm : b.mapped (u32 (addr + i)) := by simpa using h
      rw [ih]
      constructor
      · intro hall j hj
        rcases j with _ | j
        · exact hm
        · have := hall j (by omega)
          have e : i + 1 + j = i + (j + 1) := by omega
          rw [e] at this
          exact this
      · intro hall j hj
        have := hall (j + 1) (by omega)
        have e : i + 1 + j = i + (j + 1) := by omega
        rw [e]
        exact this

theorem Read32Loop_congr (b b' : Bus) (addr : Nat) (n i w : Nat)
    (h : ∀ j, j < n → b'.Read8 (u32 (addr + (i + j))) = b.Read8 (u32 (addr + (i + j)))) :
    Bus.Read32Loop b' addr n i w = Bus.Read32Loop b addr n i w := by
  induction n generalizing i w with
  | zero => rfl
  | succ k ih =>
    unfold Bus.Read32Loop
    simp only []
    have h0 := h 0 (Nat.succ_pos k)
    simp only [Nat.add_zero] at h0
    rw [h0]
    split_ifs
    · rfl
    · apply ih
      intro j hj
      have := h (j + 1) (by omega)
      have e : i + 1 + j = i + (j + 1) := by omega
      rw [e]
      exact this

theorem Read32_snd (b : Bus) (a : Nat) :
    (b.Read32 a).2 = true ↔ a % 4 = 0 ∧ ∀ j, j < 4 → b.mapped (u32 (a + j)) := by
  unfold Bus.Read32
  rw [and_three_eq_mod]
  by_cases h : a % 4 = 0
  · simp only [h, ne_eq, not_true_eq_false, if_false, true_and]
    rw [Read32Loop_snd]
    simp
  · simp [h]

theorem Write32_snd (b : Bus) (a v : Nat) :
    (b.Write32 a v).2 = true ↔ a % 4 = 0 ∧ ∀ j, j < 4 → b.mapped (u32 (a + j)) := by
  unfold Bus.Write32
  rw [and_three_eq_mod]
  by_cases h : a % 4 = 0
  · simp only [h, ne_eq, not_true_eq_false, if_false, true_and]
    rw [Write32Loop_snd]
    simp
  · simp [h]

theorem Write32_Size (b : Bus) (a v : Nat) : (b.Write32 a v).1.RAM.Size = b.RAM.Size := by
  unfold Bus.Write32
  split_ifs
  · rfl
  · exact Write32Loop_Size _ _ _ _ _

/-- A word store that fails leaves every readable aligned word as it was. -/
theorem Write32_fail_Read32 (b : Bus) (a v p : Nat) (hf : (b.Write32 a v).2 = false)
    (hp : (b.Read32 p).2 = true) : (b.Write32 a v).1.Read32 p = b.Read32 p := by
  rw [Read32_snd] at hp
  obtain ⟨hp4, hpm⟩ := hp
  have hnot : ¬ (a % 4 = 0 ∧ ∀ j, j < 4 → b.mapped (u32 (a + j))) := by
    rw [← Write32_snd b a v, hf]; simp
  by_cases ha : a % 4 = 0
  · have hne : u32 a ≠ u32 p := by
      intro he
      apply hnot
      refine ⟨ha, fun j hj => ?_⟩
      have := hpm j hj
      have e : u32 (a + j) = u32 (p + j) := by
        unfold u32 at *; omega
      rw [e]; exact this
    unfold Bus.Read32
    rw [and_three_eq_mod]
    simp only [hp4, ne_eq, not_true_eq_false, if_false]
    apply Read32Loop_congr
    intro j hj
    unfold Bus.Write32
    rw [and_three_eq_mod]
    simp only [ha, ne_eq, not_true_eq_false, if_false]
    apply Write32Loop_Read8_other
    intro k hk
    unfold u32 at *
    omega
  · unfold Bus.Write32
    rw [and_three_eq_mod]
    simp [ha]

/-! ## One step: when it halts -/

theorem Step_fetch_fail (c : CPU) (h : c.fetch.2 = false) : c.Step = (c, false) := by
  unfold CPU.Step
  simp only [h, if_true]

theorem execLOAD_snd (c : CPU) (inst f3 rd rs1 : Nat) :
    (c.execLOAD inst f3 rd rs1).2 = false ↔
      ((f3 = f3LB ∨ f3 = F3LBU) ∧
        (c.Bus.Read8 (u32 (c.readReg rs1 + ofInt32 (immI inst)))).2 = false) ∨
      (f3 = f3LW ∧ (c.Bus.Read32 (u32 (c.readReg rs1 + ofInt32 (immI inst)))).2 = false) := by
  unfold CPU.execLOAD
  simp only []
  by_cases h0 : f3 = f3LB
  · subst h0
    by_cases hr : (c.Bus.Read8 (u32 (c.readReg rs1 + ofInt32 (immI inst)))).2 = false
    · simp [hr]
    · simp [hr]
  by_cases h4 : f3 = F3LBU
  · subst h4
    by_cases hr : (c.Bus.Read8 (u32 (c.readReg rs1 + ofInt32 (immI inst)))).2 = false
    · simp [hr]
    · simp [hr]
  by_cases h2 : f3 = f3LW
  · subst h2
    by_cases hr : (c.Bus.Read32 (u32 (c.readReg rs1 + ofInt32 (immI inst)))).2 = false
    · simp [hr]
    · simp [hr]
  simp [h0, h4, h2]

theorem execSTORE_snd (c : CPU) (inst f3 rs1 rs2 : Nat) :
    (c.execSTORE inst f3 rs1 rs2).2 = false ↔
      (f3 = F3SB ∧
        (c.Bus.Write8 (u32 (c.readReg rs1 + ofInt32 (immS inst))) (u8 (c.readReg rs2))).2
          = false) ∨
      (f3 = f3SW ∧
        (c.Bus.Write32 (u32 (c.readReg rs1 + ofInt32 (immS inst))) (c.readReg rs2)).2
          = false) := by
  unfold CPU.execSTORE
  simp only []
  by_cases h0 : f3 = F3SB
  · subst h0; simp
  by_cases h2 : f3 = f3SW
  · subst h2; simp
  simp [h0, h2]

theorem exec_snd (c : CPU) (inst op rd f3 rs1 rs2 f7 : Nat) :
    (c.exec inst op rd f3 rs1 rs2 f7).2.2 = false ↔
      op = opSYSTEM ∨
      (op = OpLOAD ∧ (c.execLOAD inst f3 rd rs1).2 = false) ∨
      (op = opSTORE ∧ (c.execSTORE inst f3 rs1 rs2).2 = false) := by
  refine exec_elim
    (motive := fun r => r.2.2 = false ↔ op = opSYSTEM ∨
      (op = OpLOAD ∧ (c.execLOAD inst f3 rd rs1).2 = false) ∨
      (op = opSTORE ∧ (c.execSTORE inst f3 rs1 rs2).2 = false))
    c inst op rd f3 rs1 rs2 f7 ?_ ?_ ?_ ?_ ?_ ?_ ?_ ?_ ?_ ?_ ?_
  any_goals (intro h; subst h; simp)
  intro _ _ _ _ _ h6 h7 _ _ h10
  simp [h6, h7, h10]

theorem Step_snd (c : CPU) :
    (c.Step).2 = false ↔
      c.fetch.2 = false ∨
      (c.exec c.fetch.1 (fOp c.fetch.1) (fRd c.fetch.1) (fF3 c.fetch.1) (fRs1 c.fetch.1)
        (fRs2 c.fetch.1) (fF7 c.fetch.1)).2.2 = false := by
  unfold CPU.Step
  simp only []
  by_cases h : c.fetch.2 = false
  · simp [h]
  · rw [if_neg h]
    by_cases h2 : (c.exec c.fetch.1 (fOp c.fetch.1) (fRd c.fetch.1) (fF3 c.fetch.1)
        (fRs1 c.fetch.1) (fRs2 c.fetch.1) (fF7 c.fetch.1)).2.2 = false
    · rw [if_pos h2]
      simp [h2]
    · rw [if_neg h2]
      simp [h, h2]

/-- C2: `Step` returns false exactly when the fetch fails, or the fetched word
has opcode SYSTEM, or it is a LOAD with funct3 LB, LBU or LW whose bus read at
rs1 + I-immediate fails, or it is a STORE with funct3 SB or SW whose bus write
at rs1 + S-immediate fails; and the fetch fails exactly when PC is misaligned
or some byte of the word at PC is outside both RAM and the UART window. -/
theorem C2_step_false_iff (c : CPU) (hpc : c.PC < 4294967296) :
    ((c.Step).2 = false ↔
      c.fetch.2 = false ∨
      fOp c.fetch.1 = opSYSTEM ∨
      (fOp c.fetch.1 = OpLOAD ∧
        (((fF3 c.fetch.1 = f3LB ∨ fF3 c.fetch.1 = F3LBU) ∧
            (c.Bus.Read8
              (u32 (c.readReg (fRs1 c.fetch.1) + ofInt32 (immI c.fetch.1)))).2 = false) ∨
          (fF3 c.fetch.1 = f3LW ∧
            (c.Bus.Read32
              (u32 (c.readReg (fRs1 c.fetch.1) + ofInt32 (immI c.fetch.1)))).2 = false))) ∨
      (fOp c.fetch.1 = opSTORE ∧
        ((fF3 c.fetch.1 = F3SB ∧
            (c.Bus.Write8 (u32 (c.readReg (fRs1 c.fetch.1) + ofInt32 (immS c.fetch.1)))
              (u8 (c.readReg (fRs2 c.fetch.1)))).2 = false) ∨
          (fF3 c.fetch.1 = f3SW ∧
            (c.Bus.Write32 (u32 (c.readReg (fRs1 c.fetch.1) + ofInt32 (immS c.fetch.1)))
              (c.readReg (fRs2 c.fetch.1))).2 = false)))) ∧
    (c.fetch.2 = false ↔
      c.PC % 4 ≠ 0 ∨ ∃ i, i < 4 ∧ ¬ c.Bus.mapped (c.PC + i)) := by
  constructor
  · rw [Step_snd, exec_snd, execLOAD_snd, execSTORE_snd]
  · have h := Read32_snd c.Bus c.PC
    unfold CPU.fetch
    rw [← Bool.not_eq_true, h]
    constructor
    · intro hn
      by_cases h4 : c.PC % 4 = 0
      · right
        by_contra hall
        apply hn
        refine ⟨h4, fun j hj => ?_⟩
        have e : u32 (c.PC + j) = c.PC + j := by unfold u32; omega
        rw [e]
        by_contra hm
        exact hall ⟨j, hj, hm⟩
      · left; exact h4
    · rintro (h4 | ⟨i, hi, hm⟩) ⟨h4', hall⟩
      · exact h4 h4'
      · have e : u32 (c.PC + i) = c.PC + i := by unfold u32; omega
        have := hall i hi
        rw [e] at this
        exact hm this

/-! ## One step: the state it leaves -/

theorem readReg_congr (c c' : CPU) (h : c'.Reg = c.Reg) (i : Nat) : c'.readReg i = c.readReg i := by
  unfold CPU.readReg
  rw [h]

theorem set_zero_of_head (l : List Nat) (h : l[0]? = some 0) : l.set 0 0 = l := by
  rcases l with _ | ⟨x, xs⟩
  · rfl
  · simp at h
    simp [h]

theorem getD_set_zero (l : List Nat) (i : Nat) (hi : i ≠ 0) : (l.set 0 0).getD i 0 = l.getD i 0 := by
  simp [List.getD_eq_getElem?_getD, List.getElem?_set_ne (Ne.symm hi)]

theorem Step_fetch_ok (c : CPU) (h : c.fetch.2 = true) (e : CPU × Nat × Bool)
    (he : c.exec c.fetch.1 (fOp c.fetch.1) (fRd c.fetch.1) (fF3 c.fetch.1) (fRs1 c.fetch.1)
      (fRs2 c.fetch.1) (fF7 c.fetch.1) = e) :
    c.Step = if e.2.2 = false then (e.1, false)
      else ({ e.1 with PC := e.2.1, Reg := e.1.Reg.set 0 0 }, true) := by
  unfold CPU.Step
  simp only []
  rw [if_neg (by simp [h]), he]

theorem execLOAD_fail_fst (c : CPU) (inst f3 rd rs1 : Nat)
    (h : (c.execLOAD inst f3 rd rs1).2 = false) : (c.execLOAD inst f3 rd rs1).1 = c := by
  unfold CPU.execLOAD at h ⊢
  simp only [] at h ⊢
  split_ifs at h ⊢ <;> simp_all

theorem execSTORE_fail_fst (c : CPU) (inst f3 rs1 rs2 : Nat)
    (h : (c.execSTORE inst f3 rs1 rs2).2 = false) :
    (c.execSTORE inst f3 rs1 rs2).1 = c ∨
    (f3 = f3SW ∧
      (c.Bus.Write32 (u32 (c.readReg rs1 + ofInt32 (immS inst))) (c.readReg rs2)).2 = false ∧
      (c.execSTORE inst f3 rs1 rs2).1 =
        { c with Bus :=
          (c.Bus.Write32 (u32 (c.readReg rs1 + ofInt32 (immS inst))) (c.readReg rs2)).1 }) := by
  unfold CPU.execSTORE at h ⊢
  simp only [] at h ⊢
  by_cases h0 : f3 = F3SB
  · rw [if_pos h0] at h ⊢
    simp only [] at h ⊢
    left
    rw [Write8_fail _ _ _ h]
  · rw [if_neg h0] at h ⊢
    by_cases h2 : f3 = f3SW
    · rw [if_pos h2] at h ⊢
      right
      exact ⟨h2, h, rfl⟩
    · rw [if_neg h2] at h
      simp at h

/-- The state left by a `Step` that returns false: either nothing changed, or
the word was an SW whose word write failed, and only the bus differs. -/
theorem Step_false_state (c : CPU) (h : (c.Step).2 = false) :
    (c.Step).1 = c ∨
    (c.fetch.2 = true ∧ fOp c.fetch.1 = opSTORE ∧ fF3 c.fetch.1 = f3SW ∧
      (c.Bus.Write32 (u32 (c.readReg (fRs1 c.fetch.1) + ofInt32 (immS c.fetch.1)))
        (c.readReg (fRs2 c.fetch.1))).2 = false ∧
      (c.Step).1 = { c with Bus :=
        (c.Bus.Write32 (u32 (c.readReg (fRs1 c.fetch.1) + ofInt32 (immS c.fetch.1)))
          (c.readReg (fRs2 c.fetch.1))).1 }) := by
  by_cases hf : c.fetch.2 = false
  · left; rw [Step_fetch_fail c hf]
  · have hf' : c.fetch.2 = true := by simpa using hf
    rw [Step_snd] at h
    have he : (c.exec c.fetch.1 (fOp c.fetch.1) (fRd c.fetch.1) (fF3 c.fetch.1)
        (fRs1 c.fetch.1) (fRs2 c.fetch.1) (fF7 c.fetch.1)).2.2 = false := by
      rcases h with h | h
      · exact absurd h hf
      · exact h
    rw [Step_fetch_ok c hf' _ rfl, if_pos he]
    simp only []
    revert he
    refine exec_elim
      (motive := fun r => r.2.2 = false → (r.1 = c ∨
        (c.fetch.2 = true ∧ fOp c.fetch.1 = opSTORE ∧ fF3 c.fetch.1 = f3SW ∧
        (c.Bus.Write32 (u32 (c.readReg (fRs1 c.fetch.1) + ofInt32 (immS c.fetch.1)))
          (c.readReg (fRs2 c.fetch.1))).2 = false ∧
        r.1 = { c with Bus :=
          (c.Bus.Write32 (u32 (c.readReg (fRs1 c.fetch.1) + ofInt32 (immS c.fetch.1)))
            (c.readReg (fRs2 c.fetch.1))).1 })))
      c c.fetch.1 (fOp c.fetch.1) (fRd c.fetch.1) (fF3 c.fetch.1)
        (fRs1 c.fetch.1) (fRs2 c.fetch.1) (fF7 c.fetch.1) ?_ ?_ ?_ ?_ ?_ ?_ ?_ ?_ ?_ ?_ ?_
    · intro _ h; simp at h
    · intro _ h; simp at h
    · intro _ h; simp at h
    · intro _ h; simp at h
    · intro _ h; simp at h
    · intro _ h
      left
      exact execLOAD_fail_fst _ _ _ _ _ h
    · intro hop h
      rcases execSTORE_fail_fst _ _ _ _ _ h with h1 | ⟨h2, h3, h4⟩
      · left; exact h1
      · right; exact ⟨hf', hop, h2, h3, h4⟩
    · intro _ h; simp at h
    · intro _ h; simp at h
    · intro _ _; left; rfl
    · intro _ _ _ _ _ _ _ _ _ _ h; simp at h

theorem Write32_snd_of_Size (b b' : Bus) (hs : b'.RAM.Size = b.RAM.Size) (a v : Nat) :
    (b'.Write32 a v).2 = (b.Write32 a v).2 := by
  have h1 := Write32_snd b a v
  have h2 := Write32_snd b' a v
  have h3 : (∀ j, j < 4 → b'.mapped (u32 (a + j))) ↔ (∀ j, j < 4 → b.mapped (u32 (a + j))) := by
    constructor <;> intro h j hj
    · exact (mapped_of_Size hs _).mp (h j hj)
    · exact (mapped_of_Size hs _).mpr (h j hj)
  rw [h3, ← h1] at h2
  cases hb : (b.Write32 a v).2 <;> cases hb' : (b'.Write32 a v).2 <;> simp_all

/-- A `Step` that returned false returns false again when called on the state
it left. -/
theorem Step_false_again (c : CPU) (h : (c.Step).2 = false) : ((c.Step).1.Step).2 = false := by
  rcases Step_false_state c h with h1 | ⟨hf, hop, hf3, hw, hst⟩
  · rw [h1]; exact h
  · rw [hst]
    have hfetch : ({ c with Bus :=
        (c.Bus.Write32 (u32 (c.readReg (fRs1 c.fetch.1) + ofInt32 (immS c.fetch.1)))
          (c.readReg (fRs2 c.fetch.1))).1 } : CPU).fetch = c.fetch := by
      unfold CPU.fetch
      exact Write32_fail_Read32 _ _ _ _ hw hf
    rw [Step_snd, hfetch, exec_snd, execSTORE_snd]
    right; right; right
    refine ⟨hop, Or.inr ⟨hf3, ?_⟩⟩
    have hr : ∀ i, ({ c with Bus :=
        (c.Bus.Write32 (u32 (c.readReg (fRs1 c.fetch.1) + ofInt32 (immS c.fetch.1)))
          (c.readReg (fRs2 c.fetch.1))).1 } : CPU).readReg i = c.readReg i :=
      fun i => readReg_congr _ _ rfl i
    rw [hr, hr]
    simp only []
    rw [Write32_snd_of_Size _ _ (Write32_Size _ _ _)]
    exact hw

theorem stepN_false (n : Nat) (c : CPU) (h : (c.Step).2 = false) :
    ((CPU.stepN n c).Step).2 = false := by
  induction n generalizing c with
  | zero => exact h
  | succ k ih => exact ih _ (Step_false_again c h)

/-- C3: halting is one-way.  If `Step` returns false, that call left PC and
all registers unchanged, calling `Step` again on the state it left returns
false again, and so does every later call, for every RAM size (also when a
trapping SW has written some of its bytes). -/
theorem C3_halt_one_way (c : CPU) (h : (c.Step).2 = false) :
    (c.Step).1.PC = c.PC ∧ (c.Step).1.Reg = c.Reg ∧
    ((c.Step).1.Step).2 = false ∧
    ∀ n, ((CPU.stepN n (c.Step).1).Step).2 = false := by
  refine ⟨?_, ?_, Step_false_again c h, fun n => stepN_false n _ (Step_false_again c h)⟩
  · rcases Step_false_state c h with h1 | ⟨_, _, _, _, hst⟩
    · rw [h1]
    · rw [hst]
  · rcases Step_false_state c h with h1 | ⟨_, _, _, _, hst⟩
    · rw [h1]
    · rw [hst]

/-! ## One step: no-op cases and JALR -/

theorem and_clear_bit0 (x : Nat) (hx : x < 4294967296) : x &&& 0xFFFFFFFE = x - x % 2 := by
  have h1 : (x &&& 0xFFFFFFFE) / 2 = x / 2 := by
    rw [Nat.and_div_two]
    have : (0xFFFFFFFE : Nat) / 2 = 2 ^ 31 - 1 := by norm_num
    rw [this, Nat.and_pow_two_sub_one_eq_mod]
    omega
  have h2 : (x &&& 0xFFFFFFFE) % 2 = 0 := by
    have h := Nat.testBit_zero (x &&& 0xFFFFFFFE)
    rw [Nat.testBit_and] at h
    have h3 : Nat.testBit 0xFFFFFFFE 0 = false := by decide
    rw [h3, Bool.and_false] at h
    have := Nat.mod_two_eq_zero_or_one (x &&& 0xFFFFFFFE)
    rcases this with h4 | h4
    · exact h4
    · rw [h4] at h; simp at h
  omega

theorem u32_add_ofInt32 (a : Nat) (i : Int) :
    ((u32 (a + ofInt32 i) : Nat) : Int) = ((a : Int) + i) % 4294967296 := by
  unfold u32 ofInt32
  omega

theorem u32_lt (n : Nat) : u32 n < 4294967296 := by
  unfold u32; omega

theorem fRd_lt (inst : Nat) : fRd inst < 32 := by
  unfold fRd
  have := @Nat.and_le_right (inst >>> 7) 0x1F
  omega

/-- A step whose opcode case leaves the CPU as it is and falls through to the
commit: it returns true, PC advances by 4 (mod 2^32), the bus and the trace
flag are as before, the register file is as before except that slot 0 is
zeroed, so every register reads as before, and the file is unchanged when slot
0 held 0. -/
theorem noop_of_exec (c : CPU) (hf : c.fetch.2 = true)
    (he : c.exec c.fetch.1 (fOp c.fetch.1) (fRd c.fetch.1) (fF3 c.fetch.1) (fRs1 c.fetch.1)
      (fRs2 c.fetch.1) (fF7 c.fetch.1) = (c, u32 (c.PC + 4), true)) :
    (c.Step).2 = true ∧
    (c.Step).1.PC = (c.PC + 4) % 4294967296 ∧
    (c.Step).1.Bus = c.Bus ∧
    (c.Step).1.Reg = c.Reg.set 0 0 ∧
    (∀ i, (c.Step).1.readReg i = c.readReg i) ∧
    (c.Reg[0]? = some 0 → (c.Step).1.Reg = c.Reg) := by
  rw [Step_fetch_ok c hf _ he]
  simp only [Bool.true_eq_false, if_false]
  refine ⟨trivial, rfl, trivial, trivial, ?_, ?_⟩
  · intro i
    unfold CPU.readReg
    by_cases hi : i = 0
    · simp [hi]
    · simp only [if_neg hi]
      exact getD_set_zero _ _ hi
  · intro h0
    exact set_zero_of_head _ h0

theorem exec_other (c : CPU) (inst op rd f3 rs1 rs2 f7 : Nat)
    (h : op ≠ OpLUI ∧ op ≠ opAUIPC ∧ op ≠ opJAL ∧ op ≠ opJALR ∧ op ≠ opBRANCH ∧
      op ≠ OpLOAD ∧ op ≠ opSTORE ∧ op ≠ OpOPIMM ∧ op ≠ opOP ∧ op ≠ opSYSTEM) :
    c.exec inst op rd f3 rs1 rs2 f7 = (c, u32 (c.PC + 4), true) := by
  obtain ⟨h1, h2, h3, h4, h5, h6, h7, h8, h9, h10⟩ := h
  simp [CPU.exec, h1, h2, h3, h4, h5, h6, h7, h8, h9, h10]

theorem exec_BRANCH_unknown (c : CPU) (inst rd f3 rs1 rs2 f7 : Nat) (h : f3 = 2 ∨ f3 = 3) :
    c.exec inst opBRANCH rd f3 rs1 rs2 f7 = (c, u32 (c.PC + 4), true) := by
  rcases h with h | h <;> subst h <;> simp [CPU.exec, CPU.execBRANCH]

theorem exec_LOAD_unknown (c : CPU) (inst rd f3 rs1 rs2 f7 : Nat)
    (h : f3 ≠ f3LB ∧ f3 ≠ F3LBU ∧ f3 ≠ f3LW) :
    c.exec inst OpLOAD rd f3 rs1 rs2 f7 = (c, u32 (c.PC + 4), true) := by
  obtain ⟨h1, h2, h3⟩ := h
  simp [CPU.exec, CPU.execLOAD, h1, h2, h3]

theorem exec_STORE_unknown (c : CPU) (inst rd f3 rs1 rs2 f7 : Nat)
    (h : f3 ≠ F3SB ∧ f3 ≠ f3SW) :
    c.exec inst opSTORE rd f3 rs1 rs2 f7 = (c, u32 (c.PC + 4), true) := by
  obtain ⟨h1, h2⟩ := h
  simp [CPU.exec, CPU.execSTORE, h1, h2]

theorem exec_OPIMM_unknown (c : CPU) (inst rd f3 rs1 rs2 f7 : Nat) (h : f3 = 2 ∨ f3 = 3) :
    c.exec inst OpOPIMM rd f3 rs1 rs2 f7 = (c, u32 (c.PC + 4), true) := by
  rcases h with h | h <;> subst h <;> simp [CPU.exec, CPU.execOPIMM]

theorem execOP_funct7 (c : CPU) (f3 f7 rd rs1 rs2 : Nat) (h : f7 ≠ funct7SUBSRA) :
    c.execOP f3 f7 rd rs1 rs2 = c.execOP f3 0 rd rs1 rs2 := by
  unfold CPU.execOP
  simp [h]

theorem exec_JALR (c : CPU) (inst rd f3 rs1 rs2 f7 : Nat) :
    c.exec inst opJALR rd f3 rs1 rs2 f7 =
      (c.writeReg rd (u32 (c.PC + 4)),
        u32 (c.readReg rs1 + ofInt32 (immI inst)) &&& 0xFFFFFFFE, true) := by
  simp [CPU.exec]

/-- C4: when the fetch succeeds and the opcode of the fetched word is none of
LUI, AUIPC, JAL, JALR, BRANCH, LOAD, STORE, OP-IMM, OP, SYSTEM, `Step` returns
true, sets PC to PC + 4 (mod 2^32), leaves the bus (every RAM byte, the UART
accumulator) unchanged and leaves every register unchanged: each register
reads as before, and the register file itself is the old one with slot 0
zeroed, which is the old file whenever slot 0 held 0. -/
theorem C4_unsupported_opcode (c : CPU) (hf : c.fetch.2 = true)
    (hop : fOp c.fetch.1 ≠ OpLUI ∧ fOp c.fetch.1 ≠ opAUIPC ∧ fOp c.fetch.1 ≠ opJAL ∧
      fOp c.fetch.1 ≠ opJALR ∧ fOp c.fetch.1 ≠ opBRANCH ∧ fOp c.fetch.1 ≠ OpLOAD ∧
      fOp c.fetch.1 ≠ opSTORE ∧ fOp c.fetch.1 ≠ OpOPIMM ∧ fOp c.fetch.1 ≠ opOP ∧
      fOp c.fetch.1 ≠ opSYSTEM) :
    (c.Step).2 = true ∧
    (c.Step).1.PC = (c.PC + 4) % 4294967296 ∧
    (c.Step).1.Bus = c.Bus ∧
    (c.Step).1.Reg = c.Reg.set 0 0 ∧
    (∀ i, (c.Step).1.readReg i = c.readReg i) ∧
    (c.Reg[0]? = some 0 → (c.Step).1.Reg = c.Reg) :=
  noop_of_exec c hf (exec_other c _ _ _ _ _ _ _ hop)

/-- C5 (amended): when the fetch succeeds and the fetched word is a BRANCH
with funct3 2 or 3, a LOAD with funct3 other than LB, LBU, LW, a STORE with
funct3 other than SB, SW, or an OP-IMM with funct3 2 or 3, `Step` is a no-op:
it returns true, PC becomes PC + 4 (mod 2^32), the bus is unchanged and every
register reads as before (the file is the old one with slot 0 zeroed, the old
file whenever slot 0 held 0).  OP words are not of this kind: the OP case
compares funct7 only with the 0x20 marker, so a word with any other funct7 is
executed exactly as with funct7 = 0. -/
theorem C5_unknown_funct3_noop :
    (∀ c : CPU, c.fetch.2 = true →
      ((fOp c.fetch.1 = opBRANCH ∧ (fF3 c.fetch.1 = 2 ∨ fF3 c.fetch.1 = 3)) ∨
       (fOp c.fetch.1 = OpLOAD ∧
          fF3 c.fetch.1 ≠ f3LB ∧ fF3 c.fetch.1 ≠ F3LBU ∧ fF3 c.fetch.1 ≠ f3LW) ∨
       (fOp c.fetch.1 = opSTORE ∧ fF3 c.fetch.1 ≠ F3SB ∧ fF3 c.fetch.1 ≠ f3SW) ∨
       (fOp c.fetch.1 = OpOPIMM ∧ (fF3 c.fetch.1 = 2 ∨ fF3 c.fetch.1 = 3))) →
      (c.Step).2 = true ∧
      (c.Step).1.PC = (c.PC + 4) % 4294967296 ∧
      (c.Step).1.Bus = c.Bus ∧
      (c.Step).1.Reg = c.Reg.set 0 0 ∧
      (∀ i, (c.Step).1.readReg i = c.readReg i) ∧
      (c.Reg[0]? = some 0 → (c.Step).1.Reg = c.Reg)) ∧
    (∀ (c : CPU) (f3 f7 rd rs1 rs2 : Nat), f7 ≠ funct7SUBSRA →
      c.execOP f3 f7 rd rs1 rs2 = c.execOP f3 0 rd rs1 rs2) := by
  refine ⟨?_, execOP_funct7⟩
  intro c hf hcase
  apply noop_of_exec c hf
  rcases hcase with ⟨ho, h3⟩ | ⟨ho, h3⟩ | ⟨ho, h3⟩ | ⟨ho, h3⟩
  · rw [ho]; exact exec_BRANCH_unknown c _ _ _ _ _ _ h3
  · rw [ho]; exact exec_LOAD_unknown c _ _ _ _ _ _ h3
  · rw [ho]; exact exec_STORE_unknown c _ _ _ _ _ _ h3
  · rw [ho]; exact exec_OPIMM_unknown c _ _ _ _ _ _ h3

/-- C6: when the fetched word has opcode JALR, `Step` returns true, the new PC
is (rs1 + I-immediate) mod 2^32 with bit 0 cleared, computed from the value of
rs1 before the step, and for rd other than 0 the register rd holds
(old PC + 4) mod 2^32 afterwards; the bus is unchanged. -/
theorem C6_jalr (c : CPU) (hlen : c.Reg.length = 32) (hf : c.fetch.2 = true)
    (hop : fOp c.fetch.1 = opJALR) :
    (c.Step).2 = true ∧
    (((c.Step).1.PC : Nat) : Int) =
      ((c.readReg (fRs1 c.fetch.1) : Int) + immI c.fetch.1) % 4294967296 -
        (((c.readReg (fRs1 c.fetch.1) : Int) + immI c.fetch.1) % 4294967296) % 2 ∧
    (fRd c.fetch.1 ≠ 0 →
      (c.Step).1.Reg.getD (fRd c.fetch.1) 0 = (c.PC + 4) % 4294967296 ∧
      (c.Step).1.readReg (fRd c.fetch.1) = (c.PC + 4) % 4294967296) ∧
    (c.Step).1.Bus = c.Bus := by
  have he := exec_JALR c c.fetch.1 (fRd c.fetch.1) (fF3 c.fetch.1) (fRs1 c.fetch.1)
    (fRs2 c.fetch.1) (fF7 c.fetch.1)
  rw [← hop] at he
  rw [Step_fetch_ok c hf _ he]
  simp only [Bool.true_eq_false, if_false]
  refine ⟨trivial, ?_, ?_, ?_⟩
  · show ((u32 (c.readReg (fRs1 c.fetch.1) + ofInt32 (immI c.fetch.1)) &&& 0xFFFFFFFE : Nat) : Int)
      = _
    rw [and_clear_bit0 _ (u32_lt _)]
    have h := u32_add_ofInt32 (c.readReg (fRs1 c.fetch.1)) (immI c.fetch.1)
    omega
  · intro hrd
    have hlt := fRd_lt c.fetch.1
    have hget : (((c.writeReg (fRd c.fetch.1) (u32 (c.PC + 4))).Reg.set 0 0).getD
        (fRd c.fetch.1) 0) = (c.PC + 4) % 4294967296 := by
      unfold CPU.writeReg
      rw [if_pos hrd]
      simp only []
      rw [getD_set_zero _ _ hrd]
      simp [List.getD_eq_getElem?_getD, hlen, hlt, u32]
    refine ⟨hget, ?_⟩
    unfold CPU.readReg
    rw [if_neg hrd]
    exact hget
  · exact writeReg_Bus _ _ _

/-! ## Word accesses at unaligned addresses -/

/-- C10: at an address that is not a multiple of 4, `Bus.Read32` returns
(0, false), and `Bus.Write32` returns false and leaves the bus (every RAM byte
and the UART accumulator) as it was. -/
theorem C10_unaligned_word_access (b : Bus) (a v : Nat) (h : a % 4 ≠ 0) :
    b.Read32 a = (0, false) ∧ (b.Write32 a v).2 = false ∧ (b.Write32 a v).1 = b ∧
    (b.Write32 a v).1.RAM.data = b.RAM.data ∧ (b.Write32 a v).1.UART.String = b.UART.String := by
  have h3 : a &&& 3 ≠ 0 := by rw [and_three_eq_mod]; exact h
  have hw : b.Write32 a v = (b, false) := by
    unfold Bus.Write32
    rw [if_pos h3]
  have hr : b.Read32 a = (0, false) := by
    unfold Bus.Read32
    rw [if_pos h3]
  rw [hw]
  exact ⟨hr, rfl, rfl, rfl, rfl⟩

/-! ## Immediates: encoders against decoders -/

/-- OR-ing a bit field into a word whose bits at the field positions are 0 is
addition; `m = 2 ^ p` is the weight of the lowest bit of the field and
`n = 2 ^ w` the number of values of the field. -/
theorem or_field (X t p w m n : Nat) (hm : m = 2 ^ p) (hn : n = 2 ^ w)
    (ht : t % m = 0) (ht2 : t < m * n) (hX : X / m % n = 0) : X ||| t = X + t := by
  subst hm hn
  have hpw : 2 ^ (p + w) = 2 ^ p * 2 ^ w := Nat.pow_add 2 p w
  have hpos : 0 < 2 ^ p := Nat.two_pow_pos p
  obtain ⟨f, rfl⟩ : ∃ f, t = 2 ^ p * f := ⟨t / 2 ^ p, by
    have := Nat.div_add_mod t (2 ^ p); omega⟩
  have hf : f < 2 ^ w := Nat.lt_of_mul_lt_mul_left ht2
  have hL : X % 2 ^ p < 2 ^ p := Nat.mod_lt _ hpos
  have hXeq : X = 2 ^ (p + w) * (X / 2 ^ p / 2 ^ w) + X % 2 ^ p := by
    have h1 := Nat.div_add_mod X (2 ^ p)
    have h2 := Nat.div_add_mod (X / 2 ^ p) (2 ^ w)
    rw [hX, Nat.add_zero] at h2
    rw [hpw, Nat.mul_assoc, h2]
    exact h1.symm
  have hlow : 2 ^ p * f + X % 2 ^ p < 2 ^ (p + w) := by
    rw [hpw]
    calc 2 ^ p * f + X % 2 ^ p < 2 ^ p * f + 2 ^ p := by omega
      _ = 2 ^ p * (f + 1) := by ring
      _ ≤ 2 ^ p * 2 ^ w := Nat.mul_le_mul_left _ hf
  have hL2 : X % 2 ^ p < 2 ^ (p + w) := by
    have : 2 ^ p ≤ 2 ^ (p + w) := Nat.pow_le_pow_right (by decide) (by omega)
    omega
  generalize X / 2 ^ p / 2 ^ w = H at hXeq
  generalize X % 2 ^ p = L at hXeq hL hlow hL2
  subst hXeq
  calc (2 ^ (p + w) * H + L) ||| 2 ^ p * f
      = (2 ^ (p + w) * H ||| L) ||| 2 ^ p * f := by rw [Nat.mul_add_lt_is_or hL2]
    _ = 2 ^ (p + w) * H ||| (2 ^ p * f ||| L) := by rw [Nat.or_assoc, Nat.or_comm L]
    _ = 2 ^ (p + w) * H ||| (2 ^ p * f + L) := by rw [Nat.mul_add_lt_is_or hL]
    _ = 2 ^ (p + w) * H + (2 ^ p * f + L) := by rw [Nat.mul_add_lt_is_or hlow]
    _ = 2 ^ (p + w) * H + L + 2 ^ p * f := by ring

theorem and_mask1 (x : Nat) : x &&& 0x1 = x % 2 := Nat.and_pow_two_sub_one_eq_mod x 1

theorem and_mask4 (x : Nat) : x &&& 0xF = x % 16 := Nat.and_pow_two_sub_one_eq_mod x 4

theorem and_mask5 (x : Nat) : x &&& 0x1F = x % 32 := Nat.and_pow_two_sub_one_eq_mod x 5

theorem and_mask6 (x : Nat) : x &&& 0x3F = x % 64 := Nat.and_pow_two_sub_one_eq_mod x 6

theorem and_mask7 (x : Nat) : x &&& 0x7F = x % 128 := Nat.and_pow_two_sub_one_eq_mod x 7

theorem and_mask8 (x : Nat) : x &&& 0xFF = x % 256 := Nat.and_pow_two_sub_one_eq_mod x 8

theorem and_mask10 (x : Nat) : x &&& 0x3FF = x % 1024 := Nat.and_pow_two_sub_one_eq_mod x 10

theorem and_mask12 (x : Nat) : x &&& 0xFFF = x % 4096 := Nat.and_pow_two_sub_one_eq_mod x 12

theorem and_mask13 (x : Nat) : x &&& 0x1FFF = x % 8192 := Nat.and_pow_two_sub_one_eq_mod x 13

theorem and_mask21 (x : Nat) : x &&& 0x1FFFFF = x % 2097152 :=
  Nat.and_pow_two_sub_one_eq_mod x 21

/-! ### B-type -/

/-- The word assembled by `immB`, as a sum of its four fields. -/
theorem immB_word (inst : Nat) :
    u32 (((inst >>> 31) &&& 0x1) <<< 12) |||
      u32 (((inst >>> 25) &&& 0x3F) <<< 5) |||
      u32 (((inst >>> 8) &&& 0xF) <<< 1) |||
      u32 (((inst >>> 7) &&& 0x1) <<< 11) =
    (inst / 2147483648 % 2) * 4096 + (inst / 33554432 % 64) * 32 + (inst / 256 % 16) * 2 +
      (inst / 128 % 2) * 2048 := by
  simp only [u32, and_mask1, and_mask4, and_mask6, Nat.shiftLeft_eq, Nat.shiftRight_eq_div_pow]
  norm_num
  have hA : inst / 2147483648 % 2 < 2 := Nat.mod_lt _ (by decide)
  have hB : inst / 33554432 % 64 < 64 := Nat.mod_lt _ (by decide)
  have hC : inst / 256 % 16 < 16 := Nat.mod_lt _ (by decide)
  have hD : inst / 128 % 2 < 2 := Nat.mod_lt _ (by decide)
  generalize inst / 2147483648 % 2 = A at *
  generalize inst / 33554432 % 64 = B at *
  generalize inst / 256 % 16 = C at *
  generalize inst / 128 % 2 = D at *
  rw [Nat.mod_eq_of_lt (by omega : A * 4096 < 4294967296),
    Nat.mod_eq_of_lt (by omega : B * 32 < 4294967296),
    Nat.mod_eq_of_lt (by omega : C * 2 < 4294967296),
    Nat.mod_eq_of_lt (by omega : D * 2048 < 4294967296)]
  simp (disch := omega) only [or_field _ _ 5 6 32 64 rfl rfl, or_field _ _ 1 4 2 16 rfl rfl,
    or_field _ _ 11 1 2048 2 rfl rfl]

/-- Reading back a field `f` of a word written as `H * (m * n) + f * m + L`. -/
theorem field_extract (W H f L m n : Nat) (hW : W = H * (m * n) + f * m + L) (hL : L < m)
    (hf : f < n) : W / m % n = f := by
  have hmpos : 0 < m := by omega
  have h1 : W / m = H * n + f := by
    have e : W = L + m * (H * n + f) := by rw [hW]; ring
    rw [e, Nat.add_mul_div_left _ _ hmpos, Nat.div_eq_of_lt hL, Nat.zero_add]
  rw [h1, Nat.add_comm, Nat.add_mul_mod_self_right, Nat.mod_eq_of_lt hf]

theorem sext13 (u : Nat) (hu : u < 8192) :
    sext u 13 = if u < 4096 then (u : Int) else (u : Int) - 8192 := by
  unfold sext toInt32 u32
  simp only [Nat.shiftLeft_eq, Int.shiftRight_eq_div_pow]
  norm_num
  split_ifs <;> omega

/-- The word built by `encB`, as a sum of its fields. -/
theorem encB_word (f3 rs1 rs2 : Nat) (imm : Int) (h3 : f3 < 8) (h1 : rs1 < 32) (h2 : rs2 < 32) :
    encB f3 rs1 rs2 imm =
      (ofInt32 imm % 8192 / 4096 % 2) * 2147483648 + (ofInt32 imm % 8192 / 32 % 64) * 33554432 +
        rs2 * 1048576 + rs1 * 32768 + f3 * 4096 + (ofInt32 imm % 8192 / 2 % 16) * 256 +
        (ofInt32 imm % 8192 / 2048 % 2) * 128 + 99 := by
  unfold encB
  simp only [u32, and_mask1, and_mask4, and_mask6, and_mask13, Nat.shiftLeft_eq,
    Nat.shiftRight_eq_div_pow]
  norm_num
  have hA : ofInt32 imm % 8192 / 4096 % 2 < 2 := Nat.mod_lt _ (by decide)
  have hB : ofInt32 imm % 8192 / 32 % 64 < 64 := Nat.mod_lt _ (by decide)
  have hC : ofInt32 imm % 8192 / 2 % 16 < 16 := Nat.mod_lt _ (by decide)
  have hD : ofInt32 imm % 8192 / 2048 % 2 < 2 := Nat.mod_lt _ (by decide)
  generalize ofInt32 imm % 8192 / 4096 % 2 = A at *
  generalize ofInt32 imm % 8192 / 32 % 64 = B at *
  generalize ofInt32 imm % 8192 / 2 % 16 = C at *
  generalize ofInt32 imm % 8192 / 2048 % 2 = D at *
  rw [Nat.mod_eq_of_lt (by omega : A * 2147483648 < 4294967296),
    Nat.mod_eq_of_lt (by omega : B * 33554432 < 4294967296),
    Nat.mod_eq_of_lt (by omega : rs2 * 1048576 < 4294967296),
    Nat.mod_eq_of_lt (by omega : rs1 * 32768 < 4294967296),
    Nat.mod_eq_of_lt (by omega : f3 * 4096 < 4294967296),
    Nat.mod_eq_of_lt (by omega : C * 256 < 4294967296),
    Nat.mod_eq_of_lt (by omega : D * 128 < 4294967296)]
  simp (disch := omega) only [or_field _ _ 25 6 33554432 64 rfl rfl,
    or_field _ _ 20 5 1048576 32 rfl rfl, or_field _ _ 15 5 32768 32 rfl rfl,
    or_field _ _ 12 3 4096 8 rfl rfl, or_field _ _ 8 4 256 16 rfl rfl,
    or_field _ _ 7 1 128 2 rfl rfl, or_field _ _ 0 7 1 128 rfl rfl]

theorem immB_encB (f3 rs1 rs2 : Nat) (k : Int) (h3 : f3 < 8) (h1 : rs1 < 32) (h2 : rs2 < 32)
    (hk : k % 2 = 0) (hlo : -4096 ≤ k) (hhi : k ≤ 4094) :
    immB (encB f3 rs1 rs2 k) = k := by
  unfold immB
  simp only []
  rw [immB_word, encB_word f3 rs1 rs2 k h3 h1 h2]
  have hi : ofInt32 k % 8192 < 8192 := Nat.mod_lt _ (by decide)
  have hie : ofInt32 k % 8192 % 2 = 0 := by unfold ofInt32; omega
  have hik : ((ofInt32 k % 8192 : Nat) : Int) = if 0 ≤ k then k else k + 8192 := by
    unfold ofInt32; split_ifs <;> omega
  generalize ofInt32 k % 8192 = i at *
  have hdec : i / 4096 % 2 * 4096 + i / 32 % 64 * 32 + i / 2 % 16 * 2 + i / 2048 % 2 * 2048 = i := by
    omega
  have hA : i / 4096 % 2 < 2 := Nat.mod_lt _ (by decide)
  have hB : i / 32 % 64 < 64 := Nat.mod_lt _ (by decide)
  have hC : i / 2 % 16 < 16 := Nat.mod_lt _ (by decide)
  have hD : i / 2048 % 2 < 2 := Nat.mod_lt _ (by decide)
  generalize i / 4096 % 2 = A at *
  generalize i / 32 % 64 = B at *
  generalize i / 2 % 16 = C at *
  generalize i / 2048 % 2 = D at *
  have d1 := field_extract (A * 2147483648 + B * 33554432 + rs2 * 1048576 + rs1 * 32768 +
      f3 * 4096 + C * 256 + D * 128 + 99) 0 A
      (B * 33554432 + rs2 * 1048576 + rs1 * 32768 + f3 * 4096 + C * 256 + D * 128 + 99)
      2147483648 2 (by omega) (by omega) hA
  have d2 := field_extract (A * 2147483648 + B * 33554432 + rs2 * 1048576 + rs1 * 32768 +
      f3 * 4096 + C * 256 + D * 128 + 99) A B
      (rs2 * 1048576 + rs1 * 32768 + f3 * 4096 + C * 256 + D * 128 + 99)
      33554432 64 (by omega) (by omega) hB
  have d3 := field_extract (A * 2147483648 + B * 33554432 + rs2 * 1048576 + rs1 * 32768 +
      f3 * 4096 + C * 256 + D * 128 + 99)
      (A * 524288 + B * 8192 + rs2 * 256 + rs1 * 8 + f3) C (D * 128 + 99)
      256 16 (by omega) (by omega) hC
  have d4 := field_extract (A * 2147483648 + B * 33554432 + rs2 * 1048576 + rs1 * 32768 +
      f3 * 4096 + C * 256 + D * 128 + 99)
      (A * 8388608 + B * 131072 + rs2 * 4096 + rs1 * 128 + f3 * 16 + C) D 99
      128 2 (by omega) (by omega) hD
  rw [d1, d2, d3, d4, hdec, sext13 i hi, hik]
  split_ifs <;> omega

/-- C7: B-type round trip.  For every even k in [-4096, 4094] and in-range
fields, `immB (encB funct3 rs1 rs2 k) = k`; and for every word w (in
particular every 32-bit word) `immB w` is even and lies in [-4096, 4094]. -/
theorem C7_immB_roundtrip :
    (∀ (k : Int) (f3 rs1 rs2 : Nat), k % 2 = 0 → -4096 ≤ k → k ≤ 4094 →
      f3 < 8 → rs1 < 32 → rs2 < 32 → immB (encB f3 rs1 rs2 k) = k) ∧
    (∀ w : Nat, immB w % 2 = 0 ∧ -4096 ≤ immB w ∧ immB w ≤ 4094) := by
  constructor
  · intro k f3 rs1 rs2 hk hlo hhi h3 h1 h2
    exact immB_encB f3 rs1 rs2 k h3 h1 h2 hk hlo hhi
  · intro w
    unfold immB
    simp only []
    rw [immB_word]
    have hA : w / 2147483648 % 2 < 2 := Nat.mod_lt _ (by decide)
    have hB : w / 33554432 % 64 < 64 := Nat.mod_lt _ (by decide)
    have hC : w / 256 % 16 < 16 := Nat.mod_lt _ (by decide)
    have hD : w / 128 % 2 < 2 := Nat.mod_lt _ (by decide)
    generalize w / 2147483648 % 2 = A at *
    generalize w / 33554432 % 64 = B at *
    generalize w / 256 % 16 = C at *
    generalize w / 128 % 2 = D at *
    rw [sext13 _ (by omega)]
    split_ifs <;> omega

/-! ### J-type -/

theorem sext21 (u : Nat) (hu : u < 2097152) :
    sext u 21 = if u < 1048576 then (u : Int) else (u : Int) - 2097152 := by
  unfold sext toInt32 u32
  simp only [Nat.shiftLeft_eq, Int.shiftRight_eq_div_pow]
  norm_num
  split_ifs <;> omega

/-- The word assembled by `immJ`, as a sum of its four fields. -/
theorem immJ_word (inst : Nat) :
    u32 (((inst >>> 31) &&& 0x1) <<< 20) |||
      u32 (((inst >>> 21) &&& 0x3FF) <<< 1) |||
      u32 (((inst >>> 20) &&& 0x1) <<< 11) |||
      u32 (((inst >>> 12) &&& 0xFF) <<< 12) =
    (inst / 2147483648 % 2) * 1048576 + (inst / 2097152 % 1024) * 2 + (inst / 1048576 % 2) * 2048 +
      (inst / 4096 % 256) * 4096 := by
  simp only [u32, and_mask1, and_mask8, and_mask10, Nat.shiftLeft_eq, Nat.shiftRight_eq_div_pow]
  norm_num
  have hA : inst / 2147483648 % 2 < 2 := Nat.mod_lt _ (by decide)
  have hB : inst / 2097152 % 1024 < 1024 := Nat.mod_lt _ (by decide)
  have hC : inst / 1048576 % 2 < 2 := Nat.mod_lt _ (by decide)
  have hD : inst / 4096 % 256 < 256 := Nat.mod_lt _ (by decide)
  generalize inst / 2147483648 % 2 = A at *
  generalize inst / 2097152 % 1024 = B at *
  generalize inst / 1048576 % 2 = C at *
  generalize inst / 4096 % 256 = D at *
  rw [Nat.mod_eq_of_lt (by omega : A * 1048576 < 4294967296),
    Nat.mod_eq_of_lt (by omega : B * 2 < 4294967296),
    Nat.mod_eq_of_lt (by omega : C * 2048 < 4294967296),
    Nat.mod_eq_of_lt (by omega : D * 4096 < 4294967296)]
  simp (disch := omega) only [or_field _ _ 1 10 2 1024 rfl rfl,
    or_field _ _ 11 1 2048 2 rfl rfl, or_field _ _ 12 8 4096 256 rfl rfl]

/-- The word built by `encJ`, as a sum of its fields. -/
theorem encJ_word (rd : Nat) (imm : Int) (hrd : rd < 32) :
    encJ rd imm =
      (ofInt32 imm % 2097152 / 1048576 % 2) * 2147483648 +
        (ofInt32 imm % 2097152 / 2 % 1024) * 2097152 +
        (ofInt32 imm % 2097152 / 2048 % 2) * 1048576 +
        (ofInt32 imm % 2097152 / 4096 % 256) * 4096 + rd * 128 + 111 := by
  unfold encJ
  simp only [u32, and_mask1, and_mask8, and_mask10, and_mask21, Nat.shiftLeft_eq,
    Nat.shiftRight_eq_div_pow]
  norm_num
  have hA : ofInt32 imm % 2097152 / 1048576 % 2 < 2 := Nat.mod_lt _ (by decide)
  have hB : ofInt32 imm % 2097152 / 2 % 1024 < 1024 := Nat.mod_lt _ (by decide)
  have hC : ofInt32 imm % 2097152 / 2048 % 2 < 2 := Nat.mod_lt _ (by decide)
  have hD : ofInt32 imm % 2097152 / 4096 % 256 < 256 := Nat.mod_lt _ (by decide)
  generalize ofInt32 imm % 2097152 / 1048576 % 2 = A at *
  generalize ofInt32 imm % 2097152 / 2 % 1024 = B at *
  generalize ofInt32 imm % 2097152 / 2048 % 2 = C at *
  generalize ofInt32 imm % 2097152 / 4096 % 256 = D at *
  rw [Nat.mod_eq_of_lt (by omega : A * 2147483648 < 4294967296),
    Nat.mod_eq_of_lt (by omega : B * 2097152 < 4294967296),
    Nat.mod_eq_of_lt (by omega : C * 1048576 < 4294967296),
    Nat.mod_eq_of_lt (by omega : D * 4096 < 4294967296),
    Nat.mod_eq_of_lt (by omega : rd * 128 < 4294967296)]
  simp (disch := omega) only [or_field _ _ 21 10 2097152 1024 rfl rfl,
    or_field _ _ 20 1 1048576 2 rfl rfl, or_field _ _ 12 8 4096 256 rfl rfl,
    or_field _ _ 7 5 128 32 rfl rfl, or_field _ _ 0 7 1 128 rfl rfl]

theorem immJ_encJ (rd : Nat) (k : Int) (hrd : rd < 32)
    (hk : k % 2 = 0) (hlo : -1048576 ≤ k) (hhi : k ≤ 1048574) :
    immJ (encJ rd k) = k := by
  unfold immJ
  simp only []
  rw [immJ_word, encJ_word rd k hrd]
  have hi : ofInt32 k % 2097152 < 2097152 := Nat.mod_lt _ (by decide)
  have hie : ofInt32 k % 2097152 % 2 = 0 := by unfold ofInt32; omega
  have hik : ((ofInt32 k % 2097152 : Nat) : Int) = if 0 ≤ k then k else k + 2097152 := by
    unfold ofInt32; split_ifs <;> omega
  generalize ofInt32 k % 2097152 = i at *
  have hdec : i / 1048576 % 2 * 1048576 + i / 2 % 1024 * 2 + i / 2048 % 2 * 2048 +
      i / 4096 % 256 * 4096 = i := by
    omega
  have hA : i / 1048576 % 2 < 2 := Nat.mod_lt _ (by decide)
  have hB : i / 2 % 1024 < 1024 := Nat.mod_lt _ (by decide)
  have hC : i / 2048 % 2 < 2 := Nat.mod_lt _ (by decide)
  have hD : i / 4096 % 256 < 256 := Nat.mod_lt _ (by decide)
  generalize i / 1048576 % 2 = A at *
  generalize i / 2 % 1024 = B at *
  generalize i / 2048 % 2 = C at *
  generalize i / 4096 % 256 = D at *
  have d1 := field_extract (A * 2147483648 + B * 2097152 + C * 1048576 + D * 4096 + rd * 128 + 111)
      0 A (B * 2097152 + C * 1048576 + D * 4096 + rd * 128 + 111)
      2147483648 2 (by omega) (by omega) hA
  have d2 := field_extract (A * 2147483648 + B * 2097152 + C * 1048576 + D * 4096 + rd * 128 + 111)
      A B (C * 1048576 + D * 4096 + rd * 128 + 111)
      2097152 1024 (by omega) (by omega) hB
  have d3 := field_extract (A * 2147483648 + B * 2097152 + C * 1048576 + D * 4096 + rd * 128 + 111)
      (A * 1024 + B) C (D * 4096 + rd * 128 + 111)
      1048576 2 (by omega) (by omega) hC
  have d4 := field_extract (A * 2147483648 + B * 2097152 + C * 1048576 + D * 4096 + rd * 128 + 111)
      (A * 2048 + B * 2 + C) D (rd * 128 + 111)
      4096 256 (by omega) (by omega) hD
  rw [d1, d2, d3, d4, hdec, sext21 i hi, hik]
  split_ifs <;> omega

/-- C8: J-type round trip.  For every even k in [-1048576, 1048574] and every
rd < 32, `immJ (encJ rd k) = k`; and for every word w (in particular every
32-bit word) `immJ w` is even and lies in [-1048576, 1048574]. -/
theorem C8_immJ_roundtrip :
    (∀ (k : Int) (rd : Nat), k % 2 = 0 → -1048576 ≤ k → k ≤ 1048574 → rd < 32 →
      immJ (encJ rd k) = k) ∧
    (∀ w : Nat, immJ w % 2 = 0 ∧ -1048576 ≤ immJ w ∧ immJ w ≤ 1048574) := by
  constructor
  · intro k rd hk hlo hhi hrd
    exact immJ_encJ rd k hrd hk hlo hhi
  · intro w
    unfold immJ
    simp only []
    rw [immJ_word]
    have hA : w / 2147483648 % 2 < 2 := Nat.mod_lt _ (by decide)
    have hB : w / 2097152 % 1024 < 1024 := Nat.mod_lt _ (by decide)
    have hC : w / 1048576 % 2 < 2 := Nat.mod_lt _ (by decide)
    have hD : w / 4096 % 256 < 256 := Nat.mod_lt _ (by decide)
    generalize w / 2147483648 % 2 = A at *
    generalize w / 2097152 % 1024 = B at *
    generalize w / 1048576 % 2 = C at *
    generalize w / 4096 % 256 = D at *
    rw [sext21 _ (by omega)]
    split_ifs <;> omega

/-! ### I-type and S-type -/

theorem sext12 (u : Nat) (hu : u < 4096) :
    sext u 12 = if u < 2048 then (u : Int) else (u : Int) - 4096 := by
  unfold sext toInt32 u32
  simp only [Nat.shiftLeft_eq, Int.shiftRight_eq_div_pow]
  norm_num
  split_ifs <;> omega

/-- Reading back the top field of a word written as `f * m + L`. -/
theorem top_extract (W f L m : Nat) (hW : W = f * m + L) (hL : L < m) : W / m = f := by
  have hmpos : 0 < m := by omega
  have e : W = L + m * f := by rw [hW]; ring
  rw [e, Nat.add_mul_div_left _ _ hmpos, Nat.div_eq_of_lt hL, Nat.zero_add]

/-- The word built by `encI` without the optional shift argument. -/
theorem encI_word (op rd f3 rs1 : Nat) (imm : Int) (hop : op < 128) (hrd : rd < 32)
    (h3 : f3 < 8) (h1 : rs1 < 32) :
    encI op rd f3 rs1 imm [] =
      (ofInt32 imm % 4096) * 1048576 + rs1 * 32768 + f3 * 4096 + rd * 128 + op := by
  unfold encI
  simp only [u32, and_mask12, Nat.shiftLeft_eq, List.length_nil, gt_iff_lt, Nat.lt_irrefl,
    if_false]
  norm_num
  have hI : ofInt32 imm % 4096 < 4096 := Nat.mod_lt _ (by decide)
  generalize ofInt32 imm % 4096 = I at *
  rw [Nat.mod_eq_of_lt (by omega : I * 1048576 < 4294967296),
    Nat.mod_eq_of_lt (by omega : rs1 * 32768 < 4294967296),
    Nat.mod_eq_of_lt (by omega : f3 * 4096 < 4294967296),
    Nat.mod_eq_of_lt (by omega : rd * 128 < 4294967296)]
  simp (disch := omega) only [or_field _ _ 15 5 32768 32 rfl rfl,
    or_field _ _ 12 3 4096 8 rfl rfl, or_field _ _ 7 5 128 32 rfl rfl,
    or_field _ _ 0 7 1 128 rfl rfl]

theorem immI_encI (op rd f3 rs1 : Nat) (k : Int) (hop : op < 128) (hrd : rd < 32)
    (h3 : f3 < 8) (h1 : rs1 < 32) (hlo : -2048 ≤ k) (hhi : k ≤ 2047) :
    immI (encI op rd f3 rs1 k []) = k := by
  unfold immI
  rw [encI_word op rd f3 rs1 k hop hrd h3 h1, Nat.shiftRight_eq_div_pow]
  have hI : ofInt32 k % 4096 < 4096 := Nat.mod_lt _ (by decide)
  have hik : ((ofInt32 k % 4096 : Nat) : Int) = if 0 ≤ k then k else k + 4096 := by
    unfold ofInt32; split_ifs <;> omega
  generalize ofInt32 k % 4096 = I at *
  have d := top_extract (I * 1048576 + rs1 * 32768 + f3 * 4096 + rd * 128 + op) I
    (rs1 * 32768 + f3 * 4096 + rd * 128 + op) 1048576 (by omega) (by omega)
  norm_num
  rw [d, sext12 I hI, hik]
  split_ifs <;> omega

/-- The word built by `encS`, as a sum of its fields. -/
theorem encS_word (f3 rs1 rs2 : Nat) (imm : Int) (h3 : f3 < 8) (h1 : rs1 < 32) (h2 : rs2 < 32) :
    encS f3 rs1 rs2 imm =
      (ofInt32 imm % 4096 / 32 % 128) * 33554432 + rs2 * 1048576 + rs1 * 32768 + f3 * 4096 +
        (ofInt32 imm % 32) * 128 + 35 := by
  unfold encS
  simp only [u32, and_mask5, and_mask7, and_mask12, Nat.shiftLeft_eq, Nat.shiftRight_eq_div_pow]
  norm_num
  have hA : ofInt32 imm % 4096 / 32 % 128 < 128 := Nat.mod_lt _ (by decide)
  have hB : ofInt32 imm % 32 < 32 := Nat.mod_lt _ (by decide)
  generalize ofInt32 imm % 4096 / 32 % 128 = A at *
  generalize ofInt32 imm % 32 = B at *
  rw [Nat.mod_eq_of_lt (by omega : A * 33554432 < 4294967296),
    Nat.mod_eq_of_lt (by omega : rs2 * 1048576 < 4294967296),
    Nat.mod_eq_of_lt (by omega : rs1 * 32768 < 4294967296),
    Nat.mod_eq_of_lt (by omega : f3 * 4096 < 4294967296),
    Nat.mod_eq_of_lt (by omega : B * 128 < 4294967296)]
  simp (disch := omega) only [or_field _ _ 20 5 1048576 32 rfl rfl,
    or_field _ _ 15 5 32768 32 rfl rfl, or_field _ _ 12 3 4096 8 rfl rfl,
    or_field _ _ 7 5 128 32 rfl rfl, or_field _ _ 0 7 1 128 rfl rfl]

theorem immS_encS (f3 rs1 rs2 : Nat) (k : Int) (h3 : f3 < 8) (h1 : rs1 < 32) (h2 : rs2 < 32)
    (hlo : -2048 ≤ k) (hhi : k ≤ 2047) :
    immS (encS f3 rs1 rs2 k) = k := by
  unfold immS
  simp only []
  rw [encS_word f3 rs1 rs2 k h3 h1 h2]
  simp only [u32, and_mask5, Nat.shiftLeft_eq, Nat.shiftRight_eq_div_pow]
  norm_num
  have hI : ofInt32 k % 4096 < 4096 := Nat.mod_lt _ (by decide)
  have hik : ((ofInt32 k % 4096 : Nat) : Int) = if 0 ≤ k then k else k + 4096 := by
    unfold ofInt32; split_ifs <;> omega
  have hdec : ofInt32 k % 4096 / 32 % 128 * 32 + ofInt32 k % 32 = ofInt32 k % 4096 := by omega
  have hA : ofInt32 k % 4096 / 32 % 128 < 128 := Nat.mod_lt _ (by decide)
  have hB : ofInt32 k % 32 < 32 := Nat.mod_lt _ (by decide)
  generalize ofInt32 k % 4096 / 32 % 128 = A at *
  generalize ofInt32 k % 4096 = i at *
  generalize ofInt32 k % 32 = B at *
  have d1 := top_extract (A * 33554432 + rs2 * 1048576 + rs1 * 32768 + f3 * 4096 + B * 128 + 35)
    A (rs2 * 1048576 + rs1 * 32768 + f3 * 4096 + B * 128 + 35) 33554432 (by omega) (by omega)
  have d2 := field_extract (A * 33554432 + rs2 * 1048576 + rs1 * 32768 + f3 * 4096 + B * 128 + 35)
    (A * 8192 + rs2 * 256 + rs1 * 8 + f3) B 35 128 32 (by omega) (by omega) hB
  rw [d1, d2, Nat.mod_eq_of_lt (by omega : A * 32 < 4294967296),
    or_field _ _ 0 5 1 32 rfl rfl (by omega) (by omega) (by omega), hdec, sext12 i hI, hik]
  split_ifs <;> omega

/-- C9: 12-bit immediate round trip.  For every k in [-2048, 2047] and
in-range fields, `immI (encI op rd funct3 rs1 k) = k` (encI without the
optional shift argument) and `immS (encS funct3 rs1 rs2 k) = k`. -/
theorem C9_imm12_roundtrip (k : Int) (op rd f3 rs1 rs2 : Nat) (hlo : -2048 ≤ k) (hhi : k ≤ 2047)
    (hop : op < 128) (hrd : rd < 32) (h3 : f3 < 8) (h1 : rs1 < 32) (h2 : rs2 < 32) :
    immI (encI op rd f3 rs1 k []) = k ∧ immS (encS f3 rs1 rs2 k) = k :=
  ⟨immI_encI op rd f3 rs1 k hop hrd h3 h1 hlo hhi, immS_encS f3 rs1 rs2 k h3 h1 h2 hlo hhi⟩

/-! ## Bus: bytes and words in RAM -/

theorem RAM_Size_lt (m : RAM) : m.Size < 4294967296 := by
  unfold RAM.Size u32; omega

theorem RAM_Size_le_length (m : RAM) : m.Size ≤ m.data.length := by
  unfold RAM.Size u32; exact Nat.mod_le _ _

theorem Write8_ram (b : Bus) (x val : Nat) (h : x < b.RAM.Size) :
    b.Write8 x val = ({ b with RAM := { data := b.RAM.data.set x val } }, true) := by
  have h' : ¬ x ≥ u32 b.RAM.data.length := Nat.not_le.mpr h
  unfold Bus.Write8 RAM.Write8
  simp only [if_pos h, if_neg h']

theorem Read8_ram (b : Bus) (x : Nat) (h : x < b.RAM.Size) :
    b.Read8 x = (b.RAM.data.getD x 0, true) := by
  have h' : ¬ x ≥ u32 b.RAM.data.length := Nat.not_le.mpr h
  unfold Bus.Read8 RAM.Read8
  simp only [if_pos h, if_neg h']

theorem Size_set (b : Bus) (d : List Nat) (hd : d.length = b.RAM.data.length) :
    ({ b with RAM := { data := d } } : Bus).RAM.Size = b.RAM.Size := by
  show u32 d.length = u32 b.RAM.data.length
  rw [hd]

/-- The bus after a word store into RAM: four byte stores, least significant byte first. -/
theorem Write32_ram (b : Bus) (a v : Nat) (ha : a % 4 = 0) (hr : a + 3 < b.RAM.Size) :
    b.Write32 a v =
      ({ b with RAM := { data :=
          (((b.RAM.data.set a (u8 v)).set (a + 1) (u8 (v >>> 8))).set (a + 2)
            (u8 (v >>> 16))).set (a + 3) (u8 (v >>> 24)) } }, true) := by
  have hs := RAM_Size_lt b.RAM
  have e0 : u32 (a + 0) = a := by unfold u32; omega
  have e1 : u32 (a + 1) = a + 1 := by unfold u32; omega
  have e2 : u32 (a + 2) = a + 2 := by unfold u32; omega
  have e3 : u32 (a + 3) = a + 3 := by unfold u32; omega
  have h3 : ¬ (a &&& 3 ≠ 0) := by rw [and_three_eq_mod]; omega
  unfold Bus.Write32
  rw [if_neg h3]
  simp only [Bus.Write32Loop, e0, e1, e2, e3, Nat.zero_add, Nat.reduceAdd, Nat.reduceMul,
    Nat.shiftRight_zero]
  rw [Write8_ram b a _ (by omega)]
  simp only [Bool.true_eq_false, if_false]
  rw [Write8_ram _ (a + 1) _ (by rw [Size_set _ _ (by simp)]; omega)]
  simp only [Bool.true_eq_false, if_false]
  rw [Write8_ram _ (a + 2) _ (by rw [Size_set _ _ (by simp)]; omega)]
  simp only [Bool.true_eq_false, if_false]
  rw [Write8_ram _ (a + 3) _ (by rw [Size_set _ _ (by simp)]; omega)]
  simp only [Bool.true_eq_false, if_false]

/-- Little-endian composition of the four bytes of a 32-bit value. -/
theorem compose_le (v : Nat) (hv : v < 4294967296) :
    0 ||| u32 (u8 v <<< (8 * 0)) ||| u32 (u8 (v >>> 8) <<< (8 * 1)) |||
      u32 (u8 (v >>> 16) <<< (8 * 2)) ||| u32 (u8 (v >>> 24) <<< (8 * 3)) = v := by
  simp only [u32, u8, Nat.shiftLeft_eq, Nat.shiftRight_eq_div_pow, Nat.zero_or]
  norm_num
  have h0 : v % 256 < 256 := Nat.mod_lt _ (by decide)
  have h1 : v / 256 % 256 < 256 := Nat.mod_lt _ (by decide)
  have h2 : v / 65536 % 256 < 256 := Nat.mod_lt _ (by decide)
  have h3 : v / 16777216 % 256 < 256 := Nat.mod_lt _ (by decide)
  have hdec : v % 256 + v / 256 % 256 * 256 + v / 65536 % 256 * 65536 +
      v / 16777216 % 256 * 16777216 = v := by omega
  generalize v % 256 = A at *
  generalize v / 256 % 256 = B at *
  generalize v / 65536 % 256 = C at *
  generalize v / 16777216 % 256 = D at *
  rw [Nat.mod_eq_of_lt (by omega : A < 4294967296),
    Nat.mod_eq_of_lt (by omega : B * 256 < 4294967296),
    Nat.mod_eq_of_lt (by omega : C * 65536 < 4294967296),
    Nat.mod_eq_of_lt (by omega : D * 16777216 < 4294967296)]
  simp (disch := omega) only [or_field _ _ 8 8 256 256 rfl rfl,
    or_field _ _ 16 8 65536 256 rfl rfl, or_field _ _ 24 8 16777216 256 rfl rfl]
  exact hdec

/-- C11: word round trip, little-endian.  For an address a that is a multiple
of 4 with a + 3 below the RAM size and a 32-bit v, `Bus.Write32 a v` returns
true; on the bus it leaves, `Bus.Read32 a` returns (v, true) and
`Bus.Read8 (a + i)` returns ((v >> 8i) & 0xFF, true) for i = 0..3; every RAM
byte outside [a, a+4) is as before, the RAM keeps its length and the UART is
unchanged. -/
theorem C11_word_roundtrip (b : Bus) (a v : Nat) (ha : a % 4 = 0) (hr : a + 3 < b.RAM.Size)
    (hv : v < 4294967296) :
    (b.Write32 a v).2 = true ∧
    (b.Write32 a v).1.Read32 a = (v, true) ∧
    (∀ i, i < 4 → (b.Write32 a v).1.Read8 (a + i) = ((v >>> (8 * i)) &&& 0xFF, true)) ∧
    (∀ x, x < a ∨ a + 4 ≤ x → (b.Write32 a v).1.RAM.data[x]? = b.RAM.data[x]?) ∧
    (b.Write32 a v).1.RAM.data.length = b.RAM.data.length ∧
    (b.Write32 a v).1.UART = b.UART := by
  have hs := RAM_Size_lt b.RAM
  have hl := RAM_Size_le_length b.RAM
  rw [Write32_ram b a v ha hr]
  simp only []
  have l0 : a < b.RAM.data.length := by omega
  have l1 : a + 1 < b.RAM.data.length := by omega
  have l2 : a + 2 < b.RAM.data.length := by omega
  have l3 : a + 3 < b.RAM.data.length := by omega
  have g0 : ((((b.RAM.data.set a (u8 v)).set (a + 1) (u8 (v >>> 8))).set (a + 2)
      (u8 (v >>> 16))).set (a + 3) (u8 (v >>> 24))).getD a 0 = u8 v := by
    simp [List.getD_eq_getElem?_getD, List.getElem?_set, l0, l1, l2, l3]
  have g1 : ((((b.RAM.data.set a (u8 v)).set (a + 1) (u8 (v >>> 8))).set (a + 2)
      (u8 (v >>> 16))).set (a + 3) (u8 (v >>> 24))).getD (a + 1) 0 = u8 (v >>> 8) := by
    simp [List.getD_eq_getElem?_getD, List.getElem?_set, l0, l1, l2, l3]
  have g2 : ((((b.RAM.data.set a (u8 v)).set (a + 1) (u8 (v >>> 8))).set (a + 2)
      (u8 (v >>> 16))).set (a + 3) (u8 (v >>> 24))).getD (a + 2) 0 = u8 (v >>> 16) := by
    simp [List.getD_eq_getElem?_getD, List.getElem?_set, l0, l1, l2, l3]
  have g3 : ((((b.RAM.data.set a (u8 v)).set (a + 1) (u8 (v >>> 8))).set (a + 2)
      (u8 (v >>> 16))).set (a + 3) (u8 (v >>> 24))).getD (a + 3) 0 = u8 (v >>> 24) := by
    simp [List.getD_eq_getElem?_getD, List.getElem?_set, l0, l1, l2, l3]
  have gl : ((((b.RAM.data.set a (u8 v)).set (a + 1) (u8 (v >>> 8))).set (a + 2)
      (u8 (v >>> 16))).set (a + 3) (u8 (v >>> 24))).length = b.RAM.data.length := by
    simp
  have go : ∀ x, x < a ∨ a + 4 ≤ x →
      ((((b.RAM.data.set a (u8 v)).set (a + 1) (u8 (v >>> 8))).set (a + 2)
      (u8 (v >>> 16))).set (a + 3) (u8 (v >>> 24)))[x]? = b.RAM.data[x]? := by
    intro x hx
    simp only [List.getElem?_set]
    split_ifs <;> first | rfl | omega
  generalize (((b.RAM.data.set a (u8 v)).set (a + 1) (u8 (v >>> 8))).set (a + 2)
      (u8 (v >>> 16))).set (a + 3) (u8 (v >>> 24)) = d at *
  have hsz : (Bus.mk (RAM.mk d) b.UART).RAM.Size = b.RAM.Size := by
    show u32 d.length = u32 b.RAM.data.length
    rw [gl]
  have r0 : (Bus.mk (RAM.mk d) b.UART).Read8 a = (u8 v, true) := by
    rw [Read8_ram _ _ (by rw [hsz]; omega)]
    simp only [g0]
  have r1 : (Bus.mk (RAM.mk d) b.UART).Read8 (a + 1) = (u8 (v >>> 8), true) := by
    rw [Read8_ram _ _ (by rw [hsz]; omega)]
    simp only [g1]
  have r2 : (Bus.mk (RAM.mk d) b.UART).Read8 (a + 2) = (u8 (v >>> 16), true) := by
    rw [Read8_ram _ _ (by rw [hsz]; omega)]
    simp only [g2]
  have r3 : (Bus.mk (RAM.mk d) b.UART).Read8 (a + 3) = (u8 (v >>> 24), true) := by
    rw [Read8_ram _ _ (by rw [hsz]; omega)]
    simp only [g3]
  refine ⟨trivial, ?_, ?_, go, gl, trivial⟩
  · have e0 : u32 (a + 0) = a := by unfold u32; omega
    have e1 : u32 (a + 1) = a + 1 := by unfold u32; omega
    have e2 : u32 (a + 2) = a + 2 := by unfold u32; omega
    have e3 : u32 (a + 3) = a + 3 := by unfold u32; omega
    have h3 : ¬ (a &&& 3 ≠ 0) := by rw [and_three_eq_mod]; omega
    unfold Bus.Read32
    rw [if_neg h3]
    simp only [Bus.Read32Loop, e0, e1, e2, e3, Nat.zero_add, Nat.reduceAdd, r0, r1, r2, r3,
      Bool.true_eq_false, if_false]
    rw [compose_le v hv]
  · intro i hi
    have hmask : ∀ x, x &&& 0xFF = u8 x := fun x => and_mask8 x
    rw [hmask]
    rcases i with _ | _ | _ | _ | i
    · simpa using r0
    · simpa using r1
    · simpa using r2
    · simpa using r3
    · omega

/-! ## Bus: the address map -/

theorem mapped_iff (b : Bus) (a : Nat) :
    b.mapped a ↔ (a < b.RAM.Size ∨ (0x10000000 ≤ a ∧ a < 0x10000100)) := by
  unfold Bus.mapped UARTBase UARTSize
  norm_num

theorem Read8_unmapped (b : Bus) (a : Nat) (h : ¬ b.mapped a) : b.Read8 a = (0, false) := by
  unfold Bus.mapped at h
  have h1 : ¬ a < b.RAM.Size := fun h1 => h (Or.inl h1)
  have h2 : ¬ (a ≥ UARTBase ∧ a < UARTBase + UARTSize) := fun h2 => h (Or.inr h2)
  unfold Bus.Read8
  simp only [if_neg h1, if_neg h2]

theorem Write8_unmapped (b : Bus) (a v : Nat) (h : ¬ b.mapped a) : b.Write8 a v = (b, false) := by
  unfold Bus.mapped at h
  have h1 : ¬ a < b.RAM.Size := fun h1 => h (Or.inl h1)
  have h2 : ¬ (a ≥ UARTBase ∧ a < UARTBase + UARTSize) := fun h2 => h (Or.inr h2)
  unfold Bus.Write8
  simp only [if_neg h1, if_neg h2]

/-- C12: `Bus.Read8 a` and `Bus.Write8 a v` succeed exactly when a is below
the RAM size or lies in [0x10000000, 0x10000100); at every other address
`Read8` returns (0, false) and `Write8` returns false and leaves the bus (RAM
and UART accumulator) as it was. -/
theorem C12_byte_access (b : Bus) (a v : Nat) :
    ((b.Read8 a).2 = true ↔ (a < b.RAM.Size ∨ (0x10000000 ≤ a ∧ a < 0x10000100))) ∧
    ((b.Write8 a v).2 = true ↔ (a < b.RAM.Size ∨ (0x10000000 ≤ a ∧ a < 0x10000100))) ∧
    (¬ (a < b.RAM.Size ∨ (0x10000000 ≤ a ∧ a < 0x10000100)) →
      b.Read8 a = (0, false) ∧ b.Write8 a v = (b, false)) := by
  refine ⟨?_, ?_, ?_⟩
  · rw [Read8_snd, ← mapped_iff]; simp
  · rw [Write8_snd, ← mapped_iff]; simp
  · intro h
    rw [← mapped_iff] at h
    exact ⟨Read8_unmapped b a h, Write8_unmapped b a v h⟩

/-! ## Bus: the UART window and a RAM that reaches it -/

theorem UART_Write8_buf (u : UART) (off v : Nat) (h : off < UARTSize) :
    (u.Write8 off v).1.buf = u.buf ++ [v] := by
  unfold UART.Write8
  rw [if_neg (Nat.not_le.mpr h)]
  simp only []
  rcases u.Out with _ | out
  · rfl
  · simp only []
    split_ifs <;> rfl

theorem Write8_uart (b : Bus) (a v : Nat) (h1 : ¬ a < b.RAM.Size)
    (h2 : a ≥ UARTBase ∧ a < UARTBase + UARTSize) :
    b.Write8 a v = ({ b with UART := (b.UART.Write8 (sub32 a UARTBase) v).1 },
      (b.UART.Write8 (sub32 a UARTBase) v).2) := by
  unfold Bus.Write8
  simp only [if_neg h1, if_pos h2]

theorem Read8_uart (b : Bus) (a : Nat) (h1 : ¬ a < b.RAM.Size)
    (h2 : a ≥ UARTBase ∧ a < UARTBase + UARTSize) : b.Read8 a = (0, true) := by
  have h3 : sub32 a UARTBase < UARTSize := by
    have := h2.1; have := h2.2; simp only [sub32, UARTBase, UARTSize] at *
    rw [if_pos (by omega)]; omega
  unfold Bus.Read8 UART.Read8
  simp only [if_neg h1, if_pos h2, if_pos h3]

/-- C13 (amended): on a bus whose RAM size is at most 0x10000000, `Bus.Read8`
returns (0, true) at every address of [0x10000000, 0x10000100), and
`Bus.Write8 UARTBase v` returns true, appends v to the UART accumulator and
leaves the RAM unchanged. -/
theorem C13_uart_window (b : Bus) (a v : Nat) (hsz : b.RAM.Size ≤ 0x10000000)
    (ha : 0x10000000 ≤ a ∧ a < 0x10000100) :
    b.Read8 a = (0, true) ∧
    (b.Write8 UARTBase v).2 = true ∧
    (b.Write8 UARTBase v).1.UART.String = b.UART.String ++ [v] ∧
    (b.Write8 UARTBase v).1.RAM = b.RAM := by
  have h1 : ¬ a < b.RAM.Size := by omega
  have h2 : a ≥ UARTBase ∧ a < UARTBase + UARTSize := by
    unfold UARTBase UARTSize; omega
  have h1' : ¬ UARTBase < b.RAM.Size := by unfold UARTBase; omega
  have h2' : UARTBase ≥ UARTBase ∧ UARTBase < UARTBase + UARTSize := by
    unfold UARTBase UARTSize; omega
  have h3 : sub32 UARTBase UARTBase < UARTSize := by
    simp only [sub32, UARTBase, UARTSize]; norm_num
  refine ⟨Read8_uart b a h1 h2, ?_, ?_, ?_⟩
  · rw [Write8_snd]
    simp only [decide_eq_true_eq]
    exact Or.inr h2'
  · rw [Write8_uart b UARTBase v h1' h2']
    exact UART_Write8_buf _ _ _ h3
  · rw [Write8_uart b UARTBase v h1' h2']

/-- A RAM that reaches past `UARTBase` hides the UART data register: the byte
written there lands in RAM and reads back, and the UART is untouched. -/
theorem Write8_shadow (b : Bus) (v : Nat) (h : UARTBase < b.RAM.Size) :
    (b.Write8 UARTBase v).2 = true ∧
    (b.Write8 UARTBase v).1.UART = b.UART ∧
    (b.Write8 UARTBase v).1.Read8 UARTBase = (v, true) := by
  have hl : UARTBase < b.RAM.data.length := by
    have : b.RAM.Size ≤ b.RAM.data.length := by unfold RAM.Size u32; exact Nat.mod_le _ _
    omega
  rw [Write8_ram b UARTBase v h]
  refine ⟨rfl, rfl, ?_⟩
  rw [Read8_ram _ _ (by
    show UARTBase < u32 (b.RAM.data.set UARTBase v).length
    rw [List.length_set]; exact h)]
  simp [List.getD_eq_getElem?_getD, hl]

theorem NewRAM_Size (n : Nat) (h : n < 4294967296) : (NewRAM n).Size = n := by
  unfold RAM.Size NewRAM u32
  rw [List.length_replicate]
  exact Nat.mod_eq_of_lt h

/-- C13 (as stated) fails: with 0x10000400 bytes of RAM the write to
`UARTBase` succeeds but appends nothing to the UART accumulator, and the byte
lands in RAM, so that `Bus.Read8 UARTBase` then returns (65, true), not
(0, true). -/
theorem C13_counterexample :
    (0x10000000 : Nat) ≤ UARTBase ∧ UARTBase < 0x10000100 ∧
    (busBigRAM.Write8 UARTBase 65).2 = true ∧
    (busBigRAM.Write8 UARTBase 65).1.UART.String = [] ∧
    busBigRAM.UART.String = [] ∧
    (busBigRAM.Write8 UARTBase 65).1.Read8 UARTBase = (65, true) := by
  have hsz : UARTBase < busBigRAM.RAM.Size := by
    show UARTBase < (NewRAM 0x10000400).Size
    rw [NewRAM_Size _ (by norm_num)]
    unfold UARTBase; norm_num
  have h := Write8_shadow busBigRAM 65 hsz
  refine ⟨by unfold UARTBase; norm_num, by unfold UARTBase; norm_num, h.1, ?_, rfl, h.2.2⟩
  rw [h.2.1]
  rfl

/-! ## RAM: single bytes -/

theorem NewRAM_Read8 (S a : Nat) (hS : S < 4294967296) (ha : a < S) :
    (NewRAM S).Read8 a = (0, true) := by
  unfold RAM.Read8
  have hsz : u32 (NewRAM S).data.length = S := NewRAM_Size S hS
  rw [hsz, if_neg (Nat.not_le.mpr ha)]
  simp [NewRAM, List.getD_eq_getElem?_getD, ha]

theorem RAM_Write8_fail (m : RAM) (a v : Nat) (h : (m.Write8 a v).2 = false) :
    (m.Write8 a v).1 = m := by
  unfold RAM.Write8 at h ⊢
  by_cases hc : a ≥ u32 m.data.length
  · simp only [if_pos hc]
  · simp only [if_neg hc] at h
    simp at h

theorem RAM_Write8_Read8 (m : RAM) (a v : Nat) (h : (m.Write8 a v).2 = true) :
    (m.Write8 a v).1.Read8 a = (v, true) := by
  unfold RAM.Write8 at h ⊢
  by_cases hc : a ≥ u32 m.data.length
  · simp only [if_pos hc] at h
    simp at h
  · simp only [if_neg hc]
    unfold RAM.Read8
    simp only [List.length_set, if_neg hc]
    have hl : a < m.data.length := by
      have : u32 m.data.length ≤ m.data.length := by unfold u32; exact Nat.mod_le _ _
      omega
    simp [List.getD_eq_getElem?_getD, hl]

/-- C14: for a RAM made by `NewRAM S` with 0 < S (S an address, so below
2^32), every byte reads as 0, `Read8` and `Write8` succeed at S - 1 and fail at
S; for every RAM a failed `Write8` leaves the buffer unchanged, and after a
successful `Write8 a v`, `Read8 a` returns (v, true). -/
theorem C14_ram_bounds (S v : Nat) (hS : 0 < S) (hS32 : S < 4294967296) :
    (∀ a, a < S → (NewRAM S).Read8 a = (0, true)) ∧
    ((NewRAM S).Read8 (S - 1)).2 = true ∧
    ((NewRAM S).Write8 (S - 1) v).2 = true ∧
    (NewRAM S).Read8 S = (0, false) ∧
    (NewRAM S).Write8 S v = (NewRAM S, false) ∧
    (∀ (m : RAM) (a w : Nat), (m.Write8 a w).2 = false → (m.Write8 a w).1 = m) ∧
    (∀ (m : RAM) (a w : Nat), (m.Write8 a w).2 = true → (m.Write8 a w).1.Read8 a = (w, true)) := by
  have hsz : u32 (NewRAM S).data.length = S := NewRAM_Size S hS32
  refine ⟨fun a ha => NewRAM_Read8 S a hS32 ha, ?_, ?_, ?_, ?_, RAM_Write8_fail,
    RAM_Write8_Read8⟩
  · rw [NewRAM_Read8 S (S - 1) hS32 (by omega)]
  · unfold RAM.Write8
    rw [hsz, if_neg (by omega)]
  · unfold RAM.Read8
    rw [hsz, if_pos (Nat.le_refl S)]
  · unfold RAM.Write8
    rw [hsz, if_pos (Nat.le_refl S)]

/-! ## RAM: bulk writes -/

/-- C15 at its failing input: on a 16-byte RAM, `WriteBytes 0xFFFFFFFF [1, 2]`
passes the bound test, because the `uint32` sum 0xFFFFFFFF + 2 wraps to 1, and
the call then aborts at the slice `m.data[addr:]`; it returns no error. -/
theorem C15_writeBytes_wraps :
    (0xFFFFFFFF : Nat) + [1, 2].length > (NewRAM 16).Size ∧
    (NewRAM 16).WriteBytes 0xFFFFFFFF [1, 2] = (NewRAM 16, WriteBytesResult.abort) := by
  decide

theorem copyAt_length (data : List Nat) (addr : Nat) (buf : List Nat)
    (h : addr + buf.length ≤ data.length) : (copyAt data addr buf).length = data.length := by
  unfold copyAt
  simp only [List.length_append, List.length_take, List.length_drop]
  omega

theorem copyAt_inside (data : List Nat) (addr : Nat) (buf : List Nat)
    (h : addr + buf.length ≤ data.length) (j : Nat) (hj : j < buf.length) :
    (copyAt data addr buf)[addr + j]? = buf[j]? := by
  unfold copyAt
  have h1 : (List.take addr data).length = addr := by
    rw [List.length_take]; omega
  have h2 : List.take (data.length - addr) buf = buf := by
    apply List.take_of_length_le; omega
  rw [h2, List.append_assoc, List.getElem?_append_right (by omega), h1,
    Nat.add_sub_cancel_left, List.getElem?_append_left hj]

theorem copyAt_outside (data : List Nat) (addr : Nat) (buf : List Nat)
    (h : addr + buf.length ≤ data.length) (x : Nat) (hx : x < addr ∨ addr + buf.length ≤ x) :
    (copyAt data addr buf)[x]? = data[x]? := by
  unfold copyAt
  have h1 : (List.take addr data).length = addr := by
    rw [List.length_take]; omega
  have h2 : List.take (data.length - addr) buf = buf := by
    apply List.take_of_length_le; omega
  rw [h2, List.append_assoc]
  rcases hx with hx | hx
  · rw [List.getElem?_append_left (by omega), List.getElem?_take_of_lt hx]
  · rw [List.getElem?_append_right (by omega), h1,
      List.getElem?_append_right (by omega), List.getElem?_drop]
    congr 1
    omega

/-- Within bounds `RAM.WriteBytes` returns `nil` and copies the whole buffer. -/
theorem WriteBytes_ok (m : RAM) (addr : Nat) (buf : List Nat)
    (h : addr + buf.length ≤ m.Size) :
    m.WriteBytes addr buf = ({ data := copyAt m.data addr buf }, WriteBytesResult.nil) := by
  have hs : m.Size < 4294967296 := RAM_Size_lt m
  have hl : m.Size ≤ m.data.length := RAM_Size_le_length m
  have e1 : u32 buf.length = buf.length := by unfold u32; omega
  have e2 : u32 (addr + buf.length) = addr + buf.length := by unfold u32; omega
  unfold RAM.WriteBytes
  rw [e1, e2]
  have hsz : u32 m.data.length = m.Size := rfl
  rw [hsz, if_neg (by omega), if_neg (by omega)]

/-- Beyond the bound, without `uint32` wrap-around, `RAM.WriteBytes` returns its error and
leaves the buffer as it was. -/
theorem WriteBytes_beyond (m : RAM) (addr : Nat) (buf : List Nat)
    (h : addr + buf.length > m.Size) (hw : addr + buf.length < 4294967296) :
    m.WriteBytes addr buf = (m, WriteBytesResult.errBeyondRAM) := by
  have e1 : u32 buf.length = buf.length := by unfold u32; omega
  have e2 : u32 (addr + buf.length) = addr + buf.length := by unfold u32; omega
  unfold RAM.WriteBytes
  rw [e1, e2]
  have hsz : u32 m.data.length = m.Size := rfl
  rw [hsz, if_pos h]

/-! ## UART: the accumulator and the sink -/

theorem UART_Write8_ok (u : UART) (off v : Nat) (h : off < UARTSize) :
    (u.Write8 off v).2 = true := by
  rw [UART_Write8_snd]
  simpa using h

theorem writeSeq_flags (u : UART) (ws : List (Nat × Nat)) (h : ∀ w ∈ ws, w.1 < UARTSize) :
    (u.writeSeq ws).2 = List.replicate ws.length true := by
  induction ws generalizing u with
  | nil => rfl
  | cons w ws ih =>
    unfold UART.writeSeq
    simp only [List.length_cons, List.replicate_succ]
    rw [UART_Write8_ok u w.1 w.2 (h w (List.mem_cons_self _ _)),
      ih _ (fun x hx => h x (List.mem_cons_of_mem _ hx))]

theorem writeSeq_buf (u : UART) (ws : List (Nat × Nat)) (h : ∀ w ∈ ws, w.1 < UARTSize) :
    (u.writeSeq ws).1.buf = u.buf ++ ws.map (fun w => w.2) := by
  induction ws generalizing u with
  | nil => simp [UART.writeSeq]
  | cons w ws ih =>
    unfold UART.writeSeq
    simp only []
    rw [ih _ (fun x hx => h x (List.mem_cons_of_mem _ hx)),
      UART_Write8_buf u w.1 w.2 (h w (List.mem_cons_self _ _))]
    simp

/-- C16: on a UART made by `NewUART` (any sink, either mode), writing the
bytes b1..bn one after another to the data register (offset 0) returns true
every time and leaves `String()` equal to b1..bn; `Read8 off` returns
(0, true) for off < 0x100 and (0, false) for off ≥ 0x100 (it is a pure
function of the offset and touches no state). -/
theorem C16_uart_accumulator (w : Option (List Nat)) (lb : Bool) (bs : List Nat) :
    (({ NewUART w with LineBuffered := lb }).writeSeq (bs.map (fun x => (0, x)))).2 =
      List.replicate bs.length true ∧
    (({ NewUART w with LineBuffered := lb }).writeSeq (bs.map (fun x => (0, x)))).1.String = bs ∧
    (∀ (u : UART) (off : Nat), off < 0x100 → u.Read8 off = (0, true)) ∧
    (∀ (u : UART) (off : Nat), off ≥ 0x100 → u.Read8 off = (0, false)) := by
  have hw : ∀ x ∈ bs.map (fun x => ((0 : Nat), x)), x.1 < UARTSize := by
    intro x hx
    rw [List.mem_map] at hx
    obtain ⟨y, _, rfl⟩ := hx
    show (0 : Nat) < UARTSize
    decide
  refine ⟨?_, ?_, ?_, ?_⟩
  · rw [writeSeq_flags _ _ hw, List.length_map]
  · unfold UART.String
    rw [writeSeq_buf _ _ hw]
    simp [NewUART]
  · intro u off h
    unfold UART.Read8 UARTSize
    rw [if_pos h]
  · intro u off h
    unfold UART.Read8 UARTSize
    rw [if_neg (Nat.not_lt.mpr h)]

/-- The state of a line-buffered UART with a sink after the bytes `wr` were
written: the sink holds `s` and the line buffer the rest, which has no
newline; `s` is empty or ends with a newline. -/
theorem line_step (u : UART) (s wr : List Nat) (off v : Nat) (hoff : off < UARTSize)
    (hlb : u.LineBuffered = true) (hout : u.Out = some s) (hsplit : s ++ u.lineBuf = wr)
    (hnl : 10 ∉ u.lineBuf) (hend : s = [] ∨ s.getLast? = some 10) :
    ∃ s', (u.Write8 off v).1.LineBuffered = true ∧ (u.Write8 off v).1.Out = some s' ∧
      s' ++ (u.Write8 off v).1.lineBuf = wr ++ [v] ∧ 10 ∉ (u.Write8 off v).1.lineBuf ∧
      (s' = [] ∨ s'.getLast? = some 10) := by
  unfold UART.Write8
  rw [if_neg (Nat.not_le.mpr hoff)]
  by_cases hv : v = 10
  · subst hv
    refine ⟨s ++ (u.lineBuf ++ [10]), ?_⟩
    simp [hout, hlb, ← hsplit, ← List.append_assoc]
  · refine ⟨s, ?_⟩
    simp only [hout, hlb, if_true, if_neg hv]
    refine ⟨trivial, trivial, ?_, ?_, hend⟩
    · simp [← hsplit]
    · simp only [List.mem_append, List.mem_singleton, not_or]
      exact ⟨hnl, fun h => hv h.symm⟩

theorem line_seq (ws : List (Nat × Nat)) (u : UART) (s wr : List Nat)
    (hoff : ∀ w ∈ ws, w.1 < UARTSize)
    (hlb : u.LineBuffered = true) (hout : u.Out = some s) (hsplit : s ++ u.lineBuf = wr)
    (hnl : 10 ∉ u.lineBuf) (hend : s = [] ∨ s.getLast? = some 10) :
    ∃ s', (u.writeSeq ws).1.Out = some s' ∧
      s' ++ (u.writeSeq ws).1.lineBuf = wr ++ ws.map (fun w => w.2) ∧
      10 ∉ (u.writeSeq ws).1.lineBuf ∧ (s' = [] ∨ s'.getLast? = some 10) := by
  induction ws generalizing u s wr with
  | nil =>
    refine ⟨s, hout, ?_, hnl, hend⟩
    simp [UART.writeSeq, hsplit]
  | cons w ws ih =>
    obtain ⟨s1, h1, h2, h3, h4, h5⟩ :=
      line_step u s wr w.1 w.2 (hoff w (List.mem_cons_self _ _)) hlb hout hsplit hnl hend
    obtain ⟨s2, k1, k2, k3, k4⟩ :=
      ih (u.Write8 w.1 w.2).1 s1 (wr ++ [w.2]) (fun x hx => hoff x (List.mem_cons_of_mem _ hx))
        h1 h2 h3 h4 h5
    refine ⟨s2, ?_, ?_, ?_, k4⟩
    · unfold UART.writeSeq; exact k1
    · unfold UART.writeSeq
      simp only []
      rw [k2]
      simp
    · unfold UART.writeSeq; exact k3

theorem byte_step (u : UART) (s : List Nat) (off v : Nat) (hoff : off < UARTSize)
    (hlb : u.LineBuffered = false) (hout : u.Out = some s) :
    (u.Write8 off v).1.LineBuffered = false ∧ (u.Write8 off v).1.Out = some (s ++ [v]) := by
  unfold UART.Write8
  rw [if_neg (Nat.not_le.mpr hoff)]
  simp [hout, hlb]

theorem byte_seq (ws : List (Nat × Nat)) (u : UART) (s : List Nat)
    (hoff : ∀ w ∈ ws, w.1 < UARTSize)
    (hlb : u.LineBuffered = false) (hout : u.Out = some s) :
    (u.writeSeq ws).1.Out = some (s ++ ws.map (fun w => w.2)) := by
  induction ws generalizing u s with
  | nil => simp [UART.writeSeq, hout]
  | cons w ws ih =>
    obtain ⟨h1, h2⟩ := byte_step u s w.1 w.2 (hoff w (List.mem_cons_self _ _)) hlb hout
    unfold UART.writeSeq
    simp only []
    rw [ih _ _ (fun x hx => hoff x (List.mem_cons_of_mem _ hx)) h1 h2]
    simp

/-- A prefix of `s ++ l` that ends with a newline is no longer than `s` when `l` has none. -/
theorem prefix_newline_le (s l p : List Nat) (hnl : 10 ∉ l) (hp : p <+: s ++ l)
    (hlast : p.getLast? = some 10) : p.length ≤ s.length := by
  by_contra hlt
  have hlt : s.length < p.length := Nat.lt_of_not_le hlt
  obtain ⟨t, ht⟩ := hp
  have hpl : p.length ≤ (s ++ l).length := by rw [← ht]; simp
  have hpos : 0 < p.length := by omega
  -- the last element of p sits in l
  have hget : p[p.length - 1]? = some 10 := by
    rw [← hlast, List.getLast?_eq_getElem?]
  have hsl : (s ++ l)[p.length - 1]? = some 10 := by
    rw [← ht, List.getElem?_append_left (by omega)]
    exact hget
  rw [List.getElem?_append_right (by omega)] at hsl
  exact hnl (List.getElem?_mem hsl)

/-- C17: a UART created with an (empty) sink and a fixed mode, after the
in-window writes `ws` with bytes b1..bn.  `String()` is b1..bn in both modes.
In byte mode the sink is b1..bn.  In line-buffered mode the sink is a prefix
of b1..bn that is empty or ends with a newline, and every prefix of b1..bn
that ends with a newline is at most as long: it is the longest such prefix.
In both modes the sink is a prefix of b1..bn. -/
theorem C17_uart_sink (lb : Bool) (ws : List (Nat × Nat)) (hoff : ∀ w ∈ ws, w.1 < 0x100) :
    (({ NewUART (some []) with LineBuffered := lb }).writeSeq ws).1.String
      = ws.map (fun w => w.2) ∧
    ∃ sink, (({ NewUART (some []) with LineBuffered := lb }).writeSeq ws).1.Out = some sink ∧
      sink <+: ws.map (fun w => w.2) ∧
      (lb = false → sink = ws.map (fun w => w.2)) ∧
      (lb = true →
        (sink = [] ∨ sink.getLast? = some 10) ∧
        ∀ p, p <+: ws.map (fun w => w.2) → p.getLast? = some 10 → p.length ≤ sink.length) := by
  have hoff' : ∀ w ∈ ws, w.1 < UARTSize := hoff
  constructor
  · unfold UART.String
    rw [writeSeq_buf _ _ hoff']
    simp [NewUART]
  · cases lb with
    | false =>
      refine ⟨ws.map (fun w => w.2), ?_, List.prefix_refl _, fun _ => rfl, fun h => ?_⟩
      · rw [byte_seq ws _ [] hoff' rfl rfl]
        simp
      · exact absurd h (by decide)
    | true =>
      obtain ⟨s, h1, h2, h3, h4⟩ :=
        line_seq ws { NewUART (some []) with LineBuffered := true } [] [] hoff' rfl rfl rfl
          (by simp [NewUART]) (Or.inl rfl)
      simp only [List.nil_append] at h2
      refine ⟨s, h1, ⟨_, h2⟩, fun h => absurd h (by decide), fun _ => ⟨h4, ?_⟩⟩
      intro p hp hlast
      rw [← h2] at hp
      exact prefix_newline_le s _ p h3 hp hlast

/-! ## ELF loader: one loadable segment -/

theorem copyAt_nil (data : List Nat) (addr : Nat) : copyAt data addr [] = data := by
  unfold copyAt
  simp

theorem seg_length (raw : List Nat) (O F : Nat) (h : O + F ≤ raw.length) :
    ((raw.drop O).take F).length = F := by
  rw [List.length_take, List.length_drop]
  omega

theorem seg_getElem (raw : List Nat) (O F j : Nat) (hj : j < F) :
    ((raw.drop O).take F)[j]? = raw[O + j]? := by
  rw [List.getElem?_take_of_lt hj, List.getElem?_drop]

/-- The file part of a segment that fits into the file and into RAM is copied to `Vaddr`. -/
theorem loadFilePart_ok (raw : List Nat) (ram : RAM) (i : Nat) (ph : elf32Phdr)
    (hO : ph.Offset + ph.Filesz ≤ raw.length) (hO32 : ph.Offset + ph.Filesz < 4294967296)
    (hV : ph.Vaddr + ph.Filesz ≤ ram.Size) :
    loadFilePart raw ram i ph =
      ({ data := copyAt ram.data ph.Vaddr ((raw.drop ph.Offset).take ph.Filesz) }, none) := by
  have hs := RAM_Size_lt ram
  have eO : u32 (ph.Offset + ph.Filesz) = ph.Offset + ph.Filesz := by unfold u32; omega
  have eV : u32 (ph.Vaddr + ph.Filesz) = ph.Vaddr + ph.Filesz := by unfold u32; omega
  unfold loadFilePart
  by_cases hF : ph.Filesz > 0
  · rw [if_pos hF, eO, eV, if_neg (by omega), if_neg (by omega), if_neg (by omega),
      Nat.add_sub_cancel_left]
    simp only []
    rw [WriteBytes_ok ram _ _ (by rw [seg_length raw _ _ hO]; exact hV)]
    simp only [if_true]
  · rw [if_neg hF]
    have h0 : ph.Filesz = 0 := by omega
    rw [h0, List.take_zero, copyAt_nil]

/-- The tail of a segment that fits into RAM is zero-filled. -/
theorem loadZeroTail_ok (ram : RAM) (i : Nat) (ph : elf32Phdr)
    (hM : ph.Filesz ≤ ph.Memsz) (hV : ph.Vaddr + ph.Memsz ≤ ram.Size) :
    loadZeroTail ram i ph =
      ({ data := copyAt ram.data (ph.Vaddr + ph.Filesz)
          (List.replicate (ph.Memsz - ph.Filesz) 0) }, none) := by
  have hs := RAM_Size_lt ram
  have eV : u32 (ph.Vaddr + ph.Filesz) = ph.Vaddr + ph.Filesz := by unfold u32; omega
  have eM : u32 (ph.Vaddr + ph.Filesz + (ph.Memsz - ph.Filesz)) = ph.Vaddr + ph.Memsz := by
    unfold u32; omega
  unfold loadZeroTail
  by_cases hF : ph.Memsz > ph.Filesz
  · rw [if_pos hF]
    simp only []
    rw [eV, eM, if_neg (by omega),
      WriteBytes_ok ram _ _ (by rw [List.length_replicate]; omega)]
    simp only [if_true]
  · rw [if_neg hF]
    have h0 : ph.Memsz - ph.Filesz = 0 := by omega
    rw [h0, List.replicate_zero, copyAt_nil]

theorem Size_of_length (m m' : RAM) (h : m'.data.length = m.data.length) : m'.Size = m.Size := by
  unfold RAM.Size
  rw [h]

/-- The loop body on a loadable segment that fits: copy, then zero-fill. -/
theorem loadPhdr_ok (raw : List Nat) (ram : RAM) (i : Nat) (ph : elf32Phdr)
    (hT : ph.Type_ = ptLOAD)
    (hO : ph.Offset + ph.Filesz ≤ raw.length) (hO32 : ph.Offset + ph.Filesz < 4294967296)
    (hM : ph.Filesz ≤ ph.Memsz) (hV : ph.Vaddr + ph.Memsz ≤ ram.Size) :
    loadPhdr raw ram i ph =
      ({ data := copyAt (copyAt ram.data ph.Vaddr ((raw.drop ph.Offset).take ph.Filesz))
          (ph.Vaddr + ph.Filesz) (List.replicate (ph.Memsz - ph.Filesz) 0) }, none) := by
  have hl := RAM_Size_le_length ram
  unfold loadPhdr
  rw [if_neg (by simp [hT]), loadFilePart_ok raw ram i ph hO hO32 (by omega)]
  simp only [if_true]
  have hsz := Size_of_length ram
    { data := copyAt ram.data ph.Vaddr ((raw.drop ph.Offset).take ph.Filesz) }
    (copyAt_length _ _ _ (by rw [seg_length raw _ _ hO]; omega))
  rw [loadZeroTail_ok _ i ph hM (by rw [hsz]; exact hV)]

/-- `LoadELF32` on a file whose header passes the six checks runs the loop. -/
theorem LoadELF32_valid (raw : List Nat) (ram : RAM) (hdr : elf32Ehdr)
    (hh : readEhdr raw = some hdr)
    (hmag : hdr.Ident.getD 0 0 = elfMAG0 ∧ hdr.Ident.getD 1 0 = elfMAG1 ∧
      hdr.Ident.getD 2 0 = elfMAG2 ∧ hdr.Ident.getD 3 0 = elfMAG3)
    (hcls : hdr.Ident.getD 4 0 = eiCLASS32) (hdat : hdr.Ident.getD 5 0 = eiDATA2LSB)
    (hmach : hdr.Machine = emRISCV) (hehs : hdr.Ehsize = sizeEhdr)
    (hphs : hdr.Phentsize = sizePhdr) :
    LoadELF32 (some raw) ram = LoadELF32Loop raw hdr hdr.Phnum 0 ram := by
  have n1 : ¬ (hdr.Ident.getD 0 0 ≠ elfMAG0 ∨ hdr.Ident.getD 1 0 ≠ elfMAG1 ∨
      hdr.Ident.getD 2 0 ≠ elfMAG2 ∨ hdr.Ident.getD 3 0 ≠ elfMAG3) := by
    rintro (h | h | h | h)
    · exact h hmag.1
    · exact h hmag.2.1
    · exact h hmag.2.2.1
    · exact h hmag.2.2.2
  unfold LoadELF32
  simp only [hh]
  rw [if_neg n1, if_neg (fun h => h hcls), if_neg (fun h => h hdat), if_neg (fun h => h hmach),
    if_neg (fun h => h hehs), if_neg (fun h => h hphs)]

/-- C18: an image whose header passes the checks and whose only program
header is a PT_LOAD entry with file offset O, virtual address V, file size F
and memory size M ≥ F, with O + F within the file (a 32-bit offset) and V + M
within RAM.  `LoadELF32` returns (header entry, nil); RAM bytes [V, V+F) are
the file bytes [O, O+F); RAM bytes [V+F, V+M) are 0; every other RAM byte and
the RAM length are unchanged. -/
theorem C18_load_one_segment (raw : List Nat) (ram : RAM) (hdr : elf32Ehdr) (ph : elf32Phdr)
    (hh : readEhdr raw = some hdr)
    (hmag : hdr.Ident.getD 0 0 = elfMAG0 ∧ hdr.Ident.getD 1 0 = elfMAG1 ∧
      hdr.Ident.getD 2 0 = elfMAG2 ∧ hdr.Ident.getD 3 0 = elfMAG3)
    (hcls : hdr.Ident.getD 4 0 = eiCLASS32) (hdat : hdr.Ident.getD 5 0 = eiDATA2LSB)
    (hmach : hdr.Machine = emRISCV) (hehs : hdr.Ehsize = sizeEhdr)
    (hphs : hdr.Phentsize = sizePhdr) (hnum : hdr.Phnum = 1)
    (hp : readPhdr raw hdr.Phoff = some ph) (hT : ph.Type_ = ptLOAD)
    (hO : ph.Offset + ph.Filesz ≤ raw.length) (hO32 : ph.Offset + ph.Filesz < 4294967296)
    (hM : ph.Filesz ≤ ph.Memsz) (hV : ph.Vaddr + ph.Memsz ≤ ram.Size) :
    (LoadELF32 (some raw) ram).2 = LoadResult.ret hdr.Entry none ∧
    (∀ j, j < ph.Filesz →
      (LoadELF32 (some raw) ram).1.data[ph.Vaddr + j]? = raw[ph.Offset + j]? ∧
      ph.Offset + j < raw.length) ∧
    (∀ j, ph.Filesz ≤ j → j < ph.Memsz →
      (LoadELF32 (some raw) ram).1.data[ph.Vaddr + j]? = some 0) ∧
    (∀ x, x < ph.Vaddr ∨ ph.Vaddr + ph.Memsz ≤ x →
      (LoadELF32 (some raw) ram).1.data[x]? = ram.data[x]?) ∧
    (LoadELF32 (some raw) ram).1.data.length = ram.data.length := by
  have hl := RAM_Size_le_length ram
  have hseg := seg_length raw ph.Offset ph.Filesz hO
  have hload : LoadELF32 (some raw) ram =
      ({ data := copyAt (copyAt ram.data ph.Vaddr ((raw.drop ph.Offset).take ph.Filesz))
          (ph.Vaddr + ph.Filesz) (List.replicate (ph.Memsz - ph.Filesz) 0) },
        LoadResult.ret hdr.Entry none) := by
    rw [LoadELF32_valid raw ram hdr hh hmag hcls hdat hmach hehs hphs, hnum]
    unfold LoadELF32Loop
    simp only [Nat.zero_mul, Nat.add_zero, hp]
    rw [loadPhdr_ok raw ram 0 ph hT hO hO32 hM hV]
    simp only [LoadELF32Loop]
  have hlen1 : (copyAt ram.data ph.Vaddr ((raw.drop ph.Offset).take ph.Filesz)).length =
      ram.data.length := copyAt_length _ _ _ (by rw [hseg]; omega)
  have hfit2 : ph.Vaddr + ph.Filesz + (List.replicate (ph.Memsz - ph.Filesz) 0).length ≤
      (copyAt ram.data ph.Vaddr ((raw.drop ph.Offset).take ph.Filesz)).length := by
    rw [hlen1, List.length_replicate]; omega
  rw [hload]
  simp only []
  refine ⟨trivial, ?_, ?_, ?_, ?_⟩
  · intro j hj
    refine ⟨?_, by omega⟩
    rw [copyAt_outside _ _ _ hfit2 _ (Or.inl (by omega)),
      copyAt_inside _ _ _ (by rw [hseg]; omega) j (by rw [hseg]; exact hj),
      seg_getElem raw _ _ j hj]
  · intro j hj1 hj2
    have e : ph.Vaddr + j = ph.Vaddr + ph.Filesz + (j - ph.Filesz) := by omega
    rw [e, copyAt_inside _ _ _ hfit2 _ (by rw [List.length_replicate]; omega),
      List.getElem?_replicate, if_pos (by omega)]
  · intro x hx
    rw [copyAt_outside _ _ _ hfit2 _ (by rw [List.length_replicate]; omega),
      copyAt_outside _ _ _ (by rw [hseg]; omega) _ (by rw [hseg]; omega)]
  · rw [copyAt_length _ _ _ hfit2, hlen1]

/-! ## ELF loader: bounds checks and header validation -/

set_option maxRecDepth 8000

/-- C19 at its failing input: the 84-byte image `wrapImage` has a valid header
and one PT_LOAD entry with offset 0xFFFFFFFF and file size 2, so offset + file
size exceeds the file length; the `uint32` sum wraps to 1, the test against the
file length passes, and `LoadELF32` aborts at the slice
`raw[ph.Offset : ph.Offset+ph.Filesz]` instead of returning an error. -/
theorem C19_load_wraps :
    readEhdr wrapImage = some testEhdr ∧
    readPhdr wrapImage testEhdr.Phoff = some wrapPhdr ∧
    wrapPhdr.Type_ = ptLOAD ∧ wrapPhdr.Filesz > 0 ∧
    wrapPhdr.Offset + wrapPhdr.Filesz > wrapImage.length ∧
    LoadELF32 (some wrapImage) (NewRAM 16) = (NewRAM 16, LoadResult.abort) := by
  decide

theorem take16_getD (raw : List Nat) (i : Nat) (hi : i < 16) :
    (raw.take 16).getD i 0 = raw.getD i 0 := by
  simp [List.getD_eq_getElem?_getD, List.getElem?_take, hi]

theorem readEhdr_some (raw : List Nat) (h52 : 52 ≤ raw.length) :
    ∃ hdr, readEhdr raw = some hdr ∧ hdr.Ident = raw.take 16 ∧ hdr.Machine = le16 raw 18 ∧
      hdr.Ehsize = le16 raw 40 ∧ hdr.Phentsize = le16 raw 42 := by
  unfold readEhdr
  rw [if_neg (by unfold sizeEhdr; omega)]
  exact ⟨_, rfl, rfl, rfl, rfl, rfl⟩

/-- C20: on a file of at least 52 bytes `LoadELF32` checks, in this order, the
magic bytes 0x7F 'E' 'L' 'F', class = 1, data encoding = 1, machine = 243,
header size = 52, program-header entry size = 32; at the first check that
fails it returns entry 0 with the error of that check and leaves the RAM as it
was; the six errors are pairwise distinct. -/
theorem C20_header_checks (raw : List Nat) (ram : RAM) (h52 : 52 ≤ raw.length) :
    (¬ (raw.getD 0 0 = 0x7F ∧ raw.getD 1 0 = 0x45 ∧ raw.getD 2 0 = 0x4C ∧ raw.getD 3 0 = 0x46) →
      LoadELF32 (some raw) ram = (ram, LoadResult.ret 0 (some LoadError.notELF))) ∧
    ((raw.getD 0 0 = 0x7F ∧ raw.getD 1 0 = 0x45 ∧ raw.getD 2 0 = 0x4C ∧ raw.getD 3 0 = 0x46) →
      (raw.getD 4 0 ≠ 1 →
        LoadELF32 (some raw) ram = (ram, LoadResult.ret 0 (some LoadError.notELF32))) ∧
      (raw.getD 4 0 = 1 →
        (raw.getD 5 0 ≠ 1 →
          LoadELF32 (some raw) ram = (ram, LoadResult.ret 0 (some LoadError.notLittleEndian))) ∧
        (raw.getD 5 0 = 1 →
          (le16 raw 18 ≠ 243 →
            LoadELF32 (some raw) ram =
              (ram, LoadResult.ret 0 (some (LoadError.machine (le16 raw 18))))) ∧
          (le16 raw 18 = 243 →
            (le16 raw 40 ≠ 52 →
              LoadELF32 (some raw) ram =
                (ram, LoadResult.ret 0 (some (LoadError.ehsize (le16 raw 40))))) ∧
            (le16 raw 40 = 52 → le16 raw 42 ≠ 32 →
              LoadELF32 (some raw) ram =
                (ram, LoadResult.ret 0 (some (LoadError.phentsize (le16 raw 42))))))))) ∧
    (∀ m n k : Nat, [LoadError.notELF, LoadError.notELF32, LoadError.notLittleEndian,
      LoadError.machine m, LoadError.ehsize n, LoadError.phentsize k].Nodup) := by
  obtain ⟨hdr, hh, hid, hma, heh, hph⟩ := readEhdr_some raw h52
  have i0 : hdr.Ident.getD 0 0 = raw.getD 0 0 := by rw [hid]; exact take16_getD raw 0 (by decide)
  have i1 : hdr.Ident.getD 1 0 = raw.getD 1 0 := by rw [hid]; exact take16_getD raw 1 (by decide)
  have i2 : hdr.Ident.getD 2 0 = raw.getD 2 0 := by rw [hid]; exact take16_getD raw 2 (by decide)
  have i3 : hdr.Ident.getD 3 0 = raw.getD 3 0 := by rw [hid]; exact take16_getD raw 3 (by decide)
  have i4 : hdr.Ident.getD 4 0 = raw.getD 4 0 := by rw [hid]; exact take16_getD raw 4 (by decide)
  have i5 : hdr.Ident.getD 5 0 = raw.getD 5 0 := by rw [hid]; exact take16_getD raw 5 (by decide)
  have hL : LoadELF32 (some raw) ram =
      if raw.getD 0 0 ≠ elfMAG0 ∨ raw.getD 1 0 ≠ elfMAG1 ∨
          raw.getD 2 0 ≠ elfMAG2 ∨ raw.getD 3 0 ≠ elfMAG3 then
        (ram, LoadResult.ret 0 (some LoadError.notELF))
      else if raw.getD 4 0 ≠ eiCLASS32 then
        (ram, LoadResult.ret 0 (some LoadError.notELF32))
      else if raw.getD 5 0 ≠ eiDATA2LSB then
        (ram, LoadResult.ret 0 (some LoadError.notLittleEndian))
      else if le16 raw 18 ≠ emRISCV then
        (ram, LoadResult.ret 0 (some (LoadError.machine (le16 raw 18))))
      else if le16 raw 40 ≠ sizeEhdr then
        (ram, LoadResult.ret 0 (some (LoadError.ehsize (le16 raw 40))))
      else if le16 raw 42 ≠ sizePhdr then
        (ram, LoadResult.ret 0 (some (LoadError.phentsize (le16 raw 42))))
      else LoadELF32Loop raw hdr hdr.Phnum 0 ram := by
    unfold LoadELF32
    simp only [hh]
    rw [i0, i1, i2, i3, i4, i5, hma, heh, hph]
  rw [hL]
  refine ⟨?_, ?_, ?_⟩
  · intro hm
    rw [if_pos (by
      by_contra hc
      apply hm
      simp only [not_or, not_not] at hc
      exact hc)]
  · intro hm
    have n1 : ¬ (raw.getD 0 0 ≠ elfMAG0 ∨ raw.getD 1 0 ≠ elfMAG1 ∨
        raw.getD 2 0 ≠ elfMAG2 ∨ raw.getD 3 0 ≠ elfMAG3) := by
      rintro (h | h | h | h)
      · exact h hm.1
      · exact h hm.2.1
      · exact h hm.2.2.1
      · exact h hm.2.2.2
    rw [if_neg n1]
    refine ⟨fun h4 => by rw [if_pos h4], fun h4 => ?_⟩
    rw [if_neg (fun h => h h4)]
    refine ⟨fun h5 => by rw [if_pos h5], fun h5 => ?_⟩
    rw [if_neg (fun h => h h5)]
    refine ⟨fun h6 => by rw [if_pos h6], fun h6 => ?_⟩
    rw [if_neg (fun h => h h6)]
    refine ⟨fun h7 => by rw [if_pos h7], fun h7 h8 => ?_⟩
    rw [if_neg (fun h => h h7), if_pos h8]
  · intro m n k
    simp

/-! ## Word stores: all four bytes or none -/

/-- In a bus whose RAM size is a multiple of 4, the four bytes of an aligned
word are mapped together or not at all. -/
theorem mapped_word (b : Bus) (a j : Nat) (hsz : b.RAM.Size % 4 = 0) (ha : a % 4 = 0)
    (hj : j < 4) : b.mapped (u32 (a + j)) ↔ b.mapped (u32 a) := by
  unfold Bus.mapped UARTBase UARTSize u32
  have h1 : (a + j) % 4294967296 = a % 4294967296 + j := by omega
  rw [h1]
  have h2 : (a % 4294967296) % 4 = 0 := by omega
  generalize a % 4294967296 = x at *
  generalize b.RAM.Size = S at *
  constructor
  · rintro (h | h)
    · left; omega
    · right; omega
  · rintro (h | h)
    · left; omega
    · right; omega

theorem Write32_fail_unchanged (b : Bus) (a v : Nat) (hsz : b.RAM.Size % 4 = 0)
    (hf : (b.Write32 a v).2 = false) : (b.Write32 a v).1 = b := by
  have hnot : ¬ (a % 4 = 0 ∧ ∀ j, j < 4 → b.mapped (u32 (a + j))) := by
    rw [← Write32_snd b a v, hf]; simp
  unfold Bus.Write32
  rw [and_three_eq_mod]
  by_cases ha : a % 4 = 0
  · have h0 : ¬ b.mapped (u32 (a + 0)) := by
      intro hm
      apply hnot
      refine ⟨ha, fun j hj => ?_⟩
      rw [mapped_word b a j hsz ha hj]
      simpa using hm
    simp only [ha, ne_eq, not_true_eq_false, if_false]
    unfold Bus.Write32Loop
    simp only []
    rw [Write8_unmapped b _ _ h0]
    simp
  · simp [ha]

/-- C25: word-store atomicity when the RAM size is a multiple of 4.  For every
bus whose RAM size is divisible by 4, every address a and value v: when
`Bus.Write32 a v` returns false the bus after the call is the bus before it
(every RAM byte, the UART accumulator and sink are unchanged); and for an
aligned a the four byte accesses are mapped together or not at all, so that a
failure is a failure of the first byte access. -/
theorem C25_word_store_atomic (b : Bus) (a v : Nat) (hsz : b.RAM.Size % 4 = 0) :
    ((b.Write32 a v).2 = false →
      (b.Write32 a v).1 = b ∧ (b.Write32 a v).1.RAM.data = b.RAM.data ∧
      (b.Write32 a v).1.UART.String = b.UART.String) ∧
    (a % 4 = 0 → ∀ j, j < 4 →
      ((b.Write8 (u32 (a + j)) (u8 (v >>> (8 * j)))).2 = (b.Write8 (u32 a) (u8 v)).2)) ∧
    (a % 4 = 0 → (b.Write32 a v).2 = false → (b.Write8 (u32 a) (u8 v)).2 = false) := by
  refine ⟨?_, ?_, ?_⟩
  · intro hf
    have h := Write32_fail_unchanged b a v hsz hf
    rw [h]
    exact ⟨rfl, rfl, rfl⟩
  · intro ha j hj
    rw [Write8_snd, Write8_snd]
    have := mapped_word b a j hsz ha hj
    simp only [this]
  · intro ha hf
    have hnot : ¬ (a % 4 = 0 ∧ ∀ j, j < 4 → b.mapped (u32 (a + j))) := by
      rw [← Write32_snd b a v, hf]; simp
    rw [Write8_snd]
    simp only [decide_eq_false_iff_not]
    intro hm
    apply hnot
    refine ⟨ha, fun j hj => ?_⟩
    rw [mapped_word b a j hsz ha hj]
    exact hm

/-! ## Word accesses in the UART window -/

theorem sub32_window (a : Nat) (h : a ≥ UARTBase ∧ a < UARTBase + UARTSize) :
    sub32 a UARTBase < UARTSize := by
  have := h.1; have := h.2; simp only [sub32, UARTBase, UARTSize] at *
  rw [if_pos (by omega)]; omega

/-- A byte store into the UART window of a bus whose RAM ends below the
window: the flag is true, the byte joins the accumulator, the RAM stays. -/
theorem Write8_window (b : Bus) (a v : Nat) (h1 : ¬ a < b.RAM.Size)
    (h2 : a ≥ UARTBase ∧ a < UARTBase + UARTSize) :
    (b.Write8 a v).2 = true ∧ (b.Write8 a v).1.RAM = b.RAM ∧
    (b.Write8 a v).1.UART.buf = b.UART.buf ++ [v] := by
  rw [Write8_uart b a v h1 h2]
  have h3 := sub32_window a h2
  refine ⟨?_, rfl, UART_Write8_buf _ _ _ h3⟩
  show (b.UART.Write8 (sub32 a UARTBase) v).2 = true
  rw [UART_Write8_snd]
  simpa using h3

theorem Write32_window (b : Bus) (v : Nat) (hsz : b.RAM.Size ≤ 0x10000000) :
    (b.Write32 UARTBase v).2 = true ∧ (b.Write32 UARTBase v).1.RAM = b.RAM ∧
    (b.Write32 UARTBase v).1.UART.buf =
      b.UART.buf ++ [u8 v, u8 (v >>> 8), u8 (v >>> 16), u8 (v >>> 24)] := by
  have e0 : u32 (UARTBase + 0) = UARTBase + 0 := by unfold u32 UARTBase; norm_num
  have e1 : u32 (UARTBase + 1) = UARTBase + 1 := by unfold u32 UARTBase; norm_num
  have e2 : u32 (UARTBase + 2) = UARTBase + 2 := by unfold u32 UARTBase; norm_num
  have e3 : u32 (UARTBase + 3) = UARTBase + 3 := by unfold u32 UARTBase; norm_num
  have w : ∀ j, j < 4 → UARTBase + j ≥ UARTBase ∧ UARTBase + j < UARTBase + UARTSize := by
    intro j hj; unfold UARTBase UARTSize; omega
  have n : ∀ (b' : Bus) (j : Nat), b'.RAM = b.RAM → ¬ UARTBase + j < b'.RAM.Size := by
    intro b' j hb; rw [hb]; unfold UARTBase; omega
  have h3 : ¬ (UARTBase &&& 3 ≠ 0) := by rw [and_three_eq_mod]; unfold UARTBase; norm_num
  unfold Bus.Write32
  rw [if_neg h3]
  simp only [Bus.Write32Loop, e0, e1, e2, e3, Nat.zero_add, Nat.reduceAdd, Nat.reduceMul,
    Nat.shiftRight_zero]
  obtain ⟨f0, r0, u0⟩ := Write8_window b (UARTBase + 0) (u8 v) (n b 0 rfl) (w 0 (by omega))
  generalize b.Write8 (UARTBase + 0) (u8 v) = s0 at *
  rw [if_neg (by simp [f0])]
  obtain ⟨f1, r1, u1⟩ := Write8_window s0.1 (UARTBase + 1) (u8 (v >>> 8)) (n s0.1 1 r0)
    (w 1 (by omega))
  generalize s0.1.Write8 (UARTBase + 1) (u8 (v >>> 8)) = s1 at *
  rw [if_neg (by simp [f1])]
  obtain ⟨f2, r2, u2⟩ := Write8_window s1.1 (UARTBase + 2) (u8 (v >>> 16))
    (n s1.1 2 (r1.trans r0)) (w 2 (by omega))
  generalize s1.1.Write8 (UARTBase + 2) (u8 (v >>> 16)) = s2 at *
  rw [if_neg (by simp [f2])]
  obtain ⟨f3, r3, u3⟩ := Write8_window s2.1 (UARTBase + 3) (u8 (v >>> 24))
    (n s2.1 3 (r2.trans (r1.trans r0))) (w 3 (by omega))
  generalize s2.1.Write8 (UARTBase + 3) (u8 (v >>> 24)) = s3 at *
  rw [if_neg (by simp [f3])]
  refine ⟨rfl, r3.trans (r2.trans (r1.trans r0)), ?_⟩
  rw [u3, u2, u1, u0]
  simp

theorem Read32_window (b : Bus) (hsz : b.RAM.Size ≤ 0x10000000) :
    b.Read32 UARTBase = (0, true) := by
  have e0 : u32 (UARTBase + 0) = UARTBase + 0 := by unfold u32 UARTBase; norm_num
  have e1 : u32 (UARTBase + 1) = UARTBase + 1 := by unfold u32 UARTBase; norm_num
  have e2 : u32 (UARTBase + 2) = UARTBase + 2 := by unfold u32 UARTBase; norm_num
  have e3 : u32 (UARTBase + 3) = UARTBase + 3 := by unfold u32 UARTBase; norm_num
  have r : ∀ j, j < 4 → b.Read8 (UARTBase + j) = (0, true) := by
    intro j hj
    apply Read8_uart
    · unfold UARTBase; omega
    · unfold UARTBase UARTSize; omega
  have h3 : ¬ (UARTBase &&& 3 ≠ 0) := by rw [and_three_eq_mod]; unfold UARTBase; norm_num
  unfold Bus.Read32
  rw [if_neg h3]
  simp only [Bus.Read32Loop, e0, e1, e2, e3, Nat.zero_add, Nat.reduceAdd, r 0 (by omega),
    r 1 (by omega), r 2 (by omega), r 3 (by omega), Bool.true_eq_false, if_false]
  simp [u32]

/-- C26: every offset of the UART window transmits.  For every off < 0x100
and byte v, `UART.Write8 off v` returns true and appends v to the accumulator.
On a bus whose RAM size is at most 0x10000000, `Bus.Write32 0x10000000 v`
returns true, appends the four bytes of v, least significant first, to the
accumulator and leaves the RAM unchanged, and `Bus.Read32` at that address
returns (0, true), before and after the store. -/
theorem C26_uart_every_offset :
    (∀ (u : UART) (off v : Nat), off < 0x100 →
      (u.Write8 off v).2 = true ∧ (u.Write8 off v).1.String = u.String ++ [v]) ∧
    (∀ (b : Bus) (v : Nat), b.RAM.Size ≤ 0x10000000 →
      (b.Write32 0x10000000 v).2 = true ∧
      (b.Write32 0x10000000 v).1.UART.String =
        b.UART.String ++ [v &&& 0xFF, (v >>> 8) &&& 0xFF, (v >>> 16) &&& 0xFF,
          (v >>> 24) &&& 0xFF] ∧
      (b.Write32 0x10000000 v).1.RAM = b.RAM ∧
      b.Read32 0x10000000 = (0, true) ∧
      (b.Write32 0x10000000 v).1.Read32 0x10000000 = (0, true)) := by
  refine ⟨?_, ?_⟩
  · intro u off v hoff
    have h : off < UARTSize := by unfold UARTSize; exact hoff
    refine ⟨?_, UART_Write8_buf u off v h⟩
    rw [UART_Write8_snd]
    simpa using h
  · intro b v hsz
    have hb : (0x10000000 : Nat) = UARTBase := rfl
    rw [hb]
    obtain ⟨hf, hr, hu⟩ := Write32_window b v hsz
    refine ⟨hf, ?_, hr, Read32_window b hsz, Read32_window _ (by rw [hr]; exact hsz)⟩
    show (b.Write32 UARTBase v).1.UART.buf = _
    rw [hu]
    simp only [and_mask8, u8]
    rfl

/-! ## Disassembler against executor -/

theorem head_ne_dot (s t : String) (c : Char) (hs : s.data.head? = some c) (hc : c ≠ '.') :
    s ≠ ".word 0x" ++ t := by
  intro h
  rw [h, String.data_append] at hs
  have : (".word 0x".data ++ t.data).head? = some '.' := rfl
  rw [this] at hs
  exact hc (Option.some.inj hs).symm

theorem disasmBRANCH_spec (pc inst f3 rs1 rs2 : Nat) :
    startsLetter (disasmBRANCH pc inst f3 rs1 rs2) ∧
    (disasmBRANCH pc inst f3 rs1 rs2 = none ↔
      ¬ (f3 = F3BEQ ∨ f3 = f3BNE ∨ f3 = f3BLT ∨ f3 = f3BGE ∨ f3 = f3BLTU ∨ f3 = f3BGEU)) := by
  unfold disasmBRANCH startsLetter
  simp only []
  by_cases h0 : f3 = F3BEQ
  · rw [if_pos h0]; simp [h0, String.data_append]
  rw [if_neg h0]
  by_cases h1 : f3 = f3BNE
  · rw [if_pos h1]; simp [h1, String.data_append]
  rw [if_neg h1]
  by_cases h2 : f3 = f3BLT
  · rw [if_pos h2]; simp [h2, String.data_append]
  rw [if_neg h2]
  by_cases h3 : f3 = f3BGE
  · rw [if_pos h3]; simp [h3, String.data_append]
  rw [if_neg h3]
  by_cases h4 : f3 = f3BLTU
  · rw [if_pos h4]; simp [h4, String.data_append]
  rw [if_neg h4]
  by_cases h5 : f3 = f3BGEU
  · rw [if_pos h5]; simp [h5, String.data_append]
  rw [if_neg h5]
  simp [h0, h1, h2, h3, h4, h5]

theorem disasmLOAD_spec (inst f3 rd rs1 : Nat) :
    startsLetter (disasmLOAD inst f3 rd rs1) ∧
    (disasmLOAD inst f3 rd rs1 = none ↔
      ¬ (f3 = f3LB ∨ f3 = F3LBU ∨ f3 = f3LW)) := by
  unfold disasmLOAD startsLetter
  simp only []
  by_cases h0 : f3 = f3LB
  · rw [if_pos h0]; simp [h0, String.data_append]
  rw [if_neg h0]
  by_cases h1 : f3 = F3LBU
  · rw [if_pos h1]; simp [h1, String.data_append]
  rw [if_neg h1]
  by_cases h2 : f3 = f3LW
  · rw [if_pos h2]; simp [h2, String.data_append]
  rw [if_neg h2]
  simp [h0, h1, h2]

theorem disasmSTORE_spec (inst f3 rs1 rs2 : Nat) :
    startsLetter (disasmSTORE inst f3 rs1 rs2) ∧
    (disasmSTORE inst f3 rs1 rs2 = none ↔
      ¬ (f3 = F3SB ∨ f3 = f3SW)) := by
  unfold disasmSTORE startsLetter
  simp only []
  by_cases h0 : f3 = F3SB
  · rw [if_pos h0]; simp [h0, String.data_append]
  rw [if_neg h0]
  by_cases h1 : f3 = f3SW
  · rw [if_pos h1]; simp [h1, String.data_append]
  rw [if_neg h1]
  simp [h0, h1]

theorem disasmOPIMM_spec (inst f3 f7 rd rs1 : Nat) :
    startsLetter (disasmOPIMM inst f3 f7 rd rs1) ∧
    (disasmOPIMM inst f3 f7 rd rs1 = none ↔
      ¬ (f3 = F3ADDI ∨ f3 = f3XORI ∨ f3 = f3ORI ∨ f3 = f3ANDI ∨ f3 = f3SLLI ∨ f3 = f3SRxI)) := by
  unfold disasmOPIMM startsLetter
  simp only []
  by_cases h0 : f3 = F3ADDI
  · rw [if_pos h0]; simp [h0, String.data_append]
  rw [if_neg h0]
  by_cases h1 : f3 = f3XORI
  · rw [if_pos h1]; simp [h1, String.data_append]
  rw [if_neg h1]
  by_cases h2 : f3 = f3ORI
  · rw [if_pos h2]; simp [h2, String.data_append]
  rw [if_neg h2]
  by_cases h3 : f3 = f3ANDI
  · rw [if_pos h3]; simp [h3, String.data_append]
  rw [if_neg h3]
  by_cases h4 : f3 = f3SLLI
  · rw [if_pos h4]; simp [h4, String.data_append]
  rw [if_neg h4]
  by_cases h5 : f3 = f3SRxI
  · rw [if_pos h5]
    by_cases h7 : f7 = funct7SUBSRA
    · rw [if_pos h7]; simp [h5, String.data_append]
    · rw [if_neg h7]; simp [h5, String.data_append]
  rw [if_neg h5]
  simp [h0, h1, h2, h3, h4, h5]

theorem disasmOP_spec (f3 f7 rd rs1 rs2 : Nat) :
    startsLetter (disasmOP f3 f7 rd rs1 rs2) ∧
    (disasmOP f3 f7 rd rs1 rs2 = none ↔
      ¬ (f3 = f3ADD_SUB ∨ f3 = f3XOR ∨ f3 = f3OR ∨ f3 = f3AND ∨ f3 = f3SLL ∨ f3 = f3SRx ∨
        f3 = f3SLT ∨ f3 = f3SLTU)) := by
  unfold disasmOP startsLetter
  by_cases h0 : f3 = f3ADD_SUB
  · rw [if_pos h0]
    by_cases h7 : f7 = funct7SUBSRA
    · rw [if_pos h7]; simp [h0, String.data_append]
    · rw [if_neg h7]; simp [h0, String.data_append]
  rw [if_neg h0]
  by_cases h1 : f3 = f3XOR
  · rw [if_pos h1]; simp [h1, String.data_append]
  rw [if_neg h1]
  by_cases h2 : f3 = f3OR
  · rw [if_pos h2]; simp [h2, String.data_append]
  rw [if_neg h2]
  by_cases h3 : f3 = f3AND
  · rw [if_pos h3]; simp [h3, String.data_append]
  rw [if_neg h3]
  by_cases h4 : f3 = f3SLL
  · rw [if_pos h4]; simp [h4, String.data_append]
  rw [if_neg h4]
  by_cases h5 : f3 = f3SRx
  · rw [if_pos h5]
    by_cases h7 : f7 = funct7SUBSRA
    · rw [if_pos h7]; simp [h5, String.data_append]
    · rw [if_neg h7]; simp [h5, String.data_append]
  rw [if_neg h5]
  by_cases h6 : f3 = f3SLT
  · rw [if_pos h6]; simp [h6, String.data_append]
  rw [if_neg h6]
  by_cases h7 : f3 = f3SLTU
  · rw [if_pos h7]; simp [h7, String.data_append]
  rw [if_neg h7]
  simp [h0, h1, h2, h3, h4, h5, h6, h7]

theorem startsLetter_some (s : String) (c : Char) (hs : s.data.head? = some c) (hc : c ≠ '.') :
    startsLetter (some s) := by
  intro t ht
  cases ht
  exact ⟨c, hs, hc⟩

/-- The switch of `Disasm` is left without a text exactly when the switch of
`CPU.Step` ends in a warning; a text it gives does not start with a dot. -/
theorem disasmCase_spec (pc inst op rd f3 rs1 rs2 f7 : Nat) :
    startsLetter (disasmCase pc inst op rd f3 rs1 rs2 f7) ∧
    (disasmCase pc inst op rd f3 rs1 rs2 f7 = none ↔ CPU.warns op f3 = true) := by
  unfold disasmCase CPU.warns
  by_cases h0 : op = OpLUI
  · rw [if_pos h0, if_pos h0]
    exact ⟨startsLetter_some _ 'l' (by simp [String.data_append]) (by decide), by simp⟩
  rw [if_neg h0, if_neg h0]
  by_cases h1 : op = opAUIPC
  · rw [if_pos h1, if_pos h1]
    exact ⟨startsLetter_some _ 'a' (by simp [String.data_append]) (by decide), by simp⟩
  rw [if_neg h1, if_neg h1]
  by_cases h2 : op = opJAL
  · rw [if_pos h2, if_pos h2]
    exact ⟨startsLetter_some _ 'j' (by simp [String.data_append]) (by decide), by simp⟩
  rw [if_neg h2, if_neg h2]
  by_cases h3 : op = opJALR
  · rw [if_pos h3, if_pos h3]
    exact ⟨startsLetter_some _ 'j' (by simp [String.data_append]) (by decide), by simp⟩
  rw [if_neg h3, if_neg h3]
  by_cases h4 : op = opBRANCH
  · rw [if_pos h4, if_pos h4]
    obtain ⟨ha, hb⟩ := disasmBRANCH_spec pc inst f3 rs1 rs2
    refine ⟨ha, ?_⟩
    rw [hb]
    by_cases hc : f3 = F3BEQ ∨ f3 = f3BNE ∨ f3 = f3BLT ∨ f3 = f3BGE ∨ f3 = f3BLTU ∨ f3 = f3BGEU
    · rw [if_pos hc]; simp [hc]
    · rw [if_neg hc]; simp [hc]
  rw [if_neg h4, if_neg h4]
  by_cases h5 : op = OpLOAD
  · rw [if_pos h5, if_pos h5]
    obtain ⟨ha, hb⟩ := disasmLOAD_spec inst f3 rd rs1
    refine ⟨ha, ?_⟩
    rw [hb]
    by_cases hc : f3 = f3LB ∨ f3 = F3LBU ∨ f3 = f3LW
    · rw [if_pos hc]; simp [hc]
    · rw [if_neg hc]; simp [hc]
  rw [if_neg h5, if_neg h5]
  by_cases h6 : op = opSTORE
  · rw [if_pos h6, if_pos h6]
    obtain ⟨ha, hb⟩ := disasmSTORE_spec inst f3 rs1 rs2
    refine ⟨ha, ?_⟩
    rw [hb]
    by_cases hc : f3 = F3SB ∨ f3 = f3SW
    · rw [if_pos hc]; simp [hc]
    · rw [if_neg hc]; simp [hc]
  rw [if_neg h6, if_neg h6]
  by_cases h7 : op = OpOPIMM
  · rw [if_pos h7, if_pos h7]
    obtain ⟨ha, hb⟩ := disasmOPIMM_spec inst f3 f7 rd rs1
    refine ⟨ha, ?_⟩
    rw [hb]
    by_cases hc : f3 = F3ADDI ∨ f3 = f3XORI ∨ f3 = f3ORI ∨ f3 = f3ANDI ∨ f3 = f3SLLI ∨ f3 = f3SRxI
    · rw [if_pos hc]; simp [hc]
    · rw [if_neg hc]; simp [hc]
  rw [if_neg h7, if_neg h7]
  by_cases h8 : op = opOP
  · rw [if_pos h8, if_pos h8]
    obtain ⟨ha, hb⟩ := disasmOP_spec f3 f7 rd rs1 rs2
    refine ⟨ha, ?_⟩
    rw [hb]
    by_cases hc : f3 = f3ADD_SUB ∨ f3 = f3XOR ∨ f3 = f3OR ∨ f3 = f3AND ∨ f3 = f3SLL ∨
        f3 = f3SRx ∨ f3 = f3SLT ∨ f3 = f3SLTU
    · rw [if_pos hc]; simp [hc]
    · rw [if_neg hc]; simp [hc]
  rw [if_neg h8, if_neg h8]
  by_cases h9 : op = opSYSTEM
  · rw [if_pos h9, if_pos h9]
    refine ⟨?_, by split_ifs <;> simp⟩
    by_cases he : inst = 0x00000073
    · rw [if_pos he]; exact startsLetter_some _ 'e' rfl (by decide)
    · rw [if_neg he]; exact startsLetter_some _ 's' rfl (by decide)
  rw [if_neg h9, if_neg h9]
  exact ⟨fun s hs => (by cases hs), by simp⟩

theorem Disasm_fallback_iff (pc w : Nat) :
    Disasm pc w = ".word 0x" ++ fmt08X w ↔ CPU.warns (fOp w) (fF3 w) = true := by
  obtain ⟨ha, hb⟩ := disasmCase_spec pc w (fOp w) (fRd w) (fF3 w) (fRs1 w) (fRs2 w) (fF7 w)
  rw [← hb]
  unfold Disasm
  show (match disasmCase pc w (fOp w) (fRd w) (fF3 w) (fRs1 w) (fRs2 w) (fF7 w) with
    | some s => s | none => ".word 0x" ++ fmt08X w) = _ ↔ _
  rcases hd : disasmCase pc w (fOp w) (fRd w) (fF3 w) (fRs1 w) (fRs2 w) (fF7 w) with _ | s
  · simp
  · simp only [reduceCtorEq, iff_false]
    obtain ⟨c, hc1, hc2⟩ := ha s hd
    exact head_ne_dot s _ c hc1 hc2

theorem fF3_lt (inst : Nat) : fF3 inst < 8 := by
  unfold fF3
  have := @Nat.and_le_right (inst >>> 12) 0x7
  omega

/-- The warning cases of `CPU.Step`, spelled out: the opcode is not one of the
ten supported ones, or it is BRANCH, LOAD, STORE or OP-IMM with a funct3 the
case does not list.  The `default:` of the OP case is never reached, as every
3-bit funct3 is listed there. -/
theorem warns_iff (w : Nat) :
    CPU.warns (fOp w) (fF3 w) = true ↔
      ((fOp w ≠ OpLUI ∧ fOp w ≠ opAUIPC ∧ fOp w ≠ opJAL ∧ fOp w ≠ opJALR ∧ fOp w ≠ opBRANCH ∧
        fOp w ≠ OpLOAD ∧ fOp w ≠ opSTORE ∧ fOp w ≠ OpOPIMM ∧ fOp w ≠ opOP ∧ fOp w ≠ opSYSTEM) ∨
       (fOp w = opBRANCH ∧ (fF3 w = 2 ∨ fF3 w = 3)) ∨
       (fOp w = OpLOAD ∧ fF3 w ≠ f3LB ∧ fF3 w ≠ F3LBU ∧ fF3 w ≠ f3LW) ∨
       (fOp w = opSTORE ∧ fF3 w ≠ F3SB ∧ fF3 w ≠ f3SW) ∨
       (fOp w = OpOPIMM ∧ (fF3 w = 2 ∨ fF3 w = 3))) := by
  have h3 := fF3_lt w
  generalize fF3 w = f3 at *
  generalize fOp w = op
  unfold CPU.warns
  by_cases h0 : op = OpLUI
  · subst h0; simp
  rw [if_neg h0]
  by_cases h1 : op = opAUIPC
  · subst h1; simp
  rw [if_neg h1]
  by_cases h2 : op = opJAL
  · subst h2; simp
  rw [if_neg h2]
  by_cases h3' : op = opJALR
  · subst h3'; simp
  rw [if_neg h3']
  by_cases h4 : op = opBRANCH
  · subst h4
    simp only [if_true]
    have : f3 = 0 ∨ f3 = 1 ∨ f3 = 2 ∨ f3 = 3 ∨ f3 = 4 ∨ f3 = 5 ∨ f3 = 6 ∨ f3 = 7 := by omega
    rcases this with h | h | h | h | h | h | h | h <;> subst h <;> simp
  rw [if_neg h4]
  by_cases h5 : op = OpLOAD
  · subst h5
    simp only [if_true]
    have : f3 = 0 ∨ f3 = 1 ∨ f3 = 2 ∨ f3 = 3 ∨ f3 = 4 ∨ f3 = 5 ∨ f3 = 6 ∨ f3 = 7 := by omega
    rcases this with h | h | h | h | h | h | h | h <;> subst h <;> simp
  rw [if_neg h5]
  by_cases h6 : op = opSTORE
  · subst h6
    simp only [if_true]
    have : f3 = 0 ∨ f3 = 1 ∨ f3 = 2 ∨ f3 = 3 ∨ f3 = 4 ∨ f3 = 5 ∨ f3 = 6 ∨ f3 = 7 := by omega
    rcases this with h | h | h | h | h | h | h | h <;> subst h <;> simp
  rw [if_neg h6]
  by_cases h7 : op = OpOPIMM
  · subst h7
    simp only [if_true]
    have : f3 = 0 ∨ f3 = 1 ∨ f3 = 2 ∨ f3 = 3 ∨ f3 = 4 ∨ f3 = 5 ∨ f3 = 6 ∨ f3 = 7 := by omega
    rcases this with h | h | h | h | h | h | h | h <;> subst h <;> simp
  rw [if_neg h7]
  by_cases h8 : op = opOP
  · subst h8
    simp only [if_true]
    have : f3 = 0 ∨ f3 = 1 ∨ f3 = 2 ∨ f3 = 3 ∨ f3 = 4 ∨ f3 = 5 ∨ f3 = 6 ∨ f3 = 7 := by omega
    rcases this with h | h | h | h | h | h | h | h <;> subst h <;> simp
  rw [if_neg h8]
  by_cases h9 : op = opSYSTEM
  · subst h9; simp
  rw [if_neg h9]
  simp [h0, h1, h2, h3', h4, h5, h6, h7, h8, h9]

/-- A step that ends in a warning is a no-op in the state model: the switch
leaves the CPU untouched and passes on PC + 4. -/
theorem exec_of_warns (c : CPU) (inst op rd f3 rs1 rs2 f7 : Nat) (h : CPU.warns op f3 = true) :
    c.exec inst op rd f3 rs1 rs2 f7 = (c, u32 (c.PC + 4), true) := by
  unfold CPU.warns at h
  by_cases h0 : op = OpLUI
  · rw [if_pos h0] at h; cases h
  rw [if_neg h0] at h
  by_cases h1 : op = opAUIPC
  · rw [if_pos h1] at h; cases h
  rw [if_neg h1] at h
  by_cases h2 : op = opJAL
  · rw [if_pos h2] at h; cases h
  rw [if_neg h2] at h
  by_cases h3 : op = opJALR
  · rw [if_pos h3] at h; cases h
  rw [if_neg h3] at h
  by_cases h4 : op = opBRANCH
  · rw [if_pos h4] at h
    subst h4
    by_cases hc : f3 = F3BEQ ∨ f3 = f3BNE ∨ f3 = f3BLT ∨ f3 = f3BGE ∨ f3 = f3BLTU ∨ f3 = f3BGEU
    · rw [if_pos hc] at h; cases h
    · simp only [not_or] at hc
      obtain ⟨c0, c1, c2, c3, c4, c5⟩ := hc
      simp [CPU.exec, CPU.execBRANCH, c0, c1, c2, c3, c4, c5]
  rw [if_neg h4] at h
  by_cases h5 : op = OpLOAD
  · rw [if_pos h5] at h
    subst h5
    by_cases hc : f3 = f3LB ∨ f3 = F3LBU ∨ f3 = f3LW
    · rw [if_pos hc] at h; cases h
    · simp only [not_or] at hc
      exact exec_LOAD_unknown c _ _ _ _ _ _ hc
  rw [if_neg h5] at h
  by_cases h6 : op = opSTORE
  · rw [if_pos h6] at h
    subst h6
    by_cases hc : f3 = F3SB ∨ f3 = f3SW
    · rw [if_pos hc] at h; cases h
    · simp only [not_or] at hc
      exact exec_STORE_unknown c _ _ _ _ _ _ hc
  rw [if_neg h6] at h
  by_cases h7 : op = OpOPIMM
  · rw [if_pos h7] at h
    subst h7
    by_cases hc : f3 = F3ADDI ∨ f3 = f3XORI ∨ f3 = f3ORI ∨ f3 = f3ANDI ∨ f3 = f3SLLI ∨ f3 = f3SRxI
    · rw [if_pos hc] at h; cases h
    · simp only [not_or] at hc
      obtain ⟨c0, c1, c2, c3, c4, c5⟩ := hc
      simp [CPU.exec, CPU.execOPIMM, c0, c1, c2, c3, c4, c5]
  rw [if_neg h7] at h
  by_cases h8 : op = opOP
  · rw [if_pos h8] at h
    subst h8
    by_cases hc : f3 = f3ADD_SUB ∨ f3 = f3XOR ∨ f3 = f3OR ∨ f3 = f3AND ∨ f3 = f3SLL ∨
        f3 = f3SRx ∨ f3 = f3SLT ∨ f3 = f3SLTU
    · rw [if_pos hc] at h; cases h
    · simp only [not_or] at hc
      obtain ⟨c0, c1, c2, c3, c4, c5, c6, c7⟩ := hc
      simp [CPU.exec, CPU.execOP, c0, c1, c2, c3, c4, c5, c6, c7]
  rw [if_neg h8] at h
  by_cases h9 : op = opSYSTEM
  · rw [if_pos h9] at h; cases h
  exact exec_other c _ _ _ _ _ _ _ ⟨h0, h1, h2, h3, h4, h5, h6, h7, h8, h9⟩

/-- C24: the disassembler and the executor stay in sync.  For every pc and
every word w, `Disasm pc w` is the fallback text ".word 0x" followed by w in 8
hexadecimal digits exactly when `CPU.Step`, having fetched w, ends in one of
its warning cases; these are the words whose opcode is unsupported or whose
opcode is BRANCH, LOAD, STORE or OP-IMM with an unrecognised funct3; a step
that fetched such a word returns true, moves PC to PC + 4 and changes neither
the bus nor the value of any register.  Hence every word that `Step` executes
or halts on has a text other than the fallback. -/
theorem C24_disasm_in_sync (pc w : Nat) :
    (Disasm pc w = ".word 0x" ++ fmt08X w ↔ CPU.warns (fOp w) (fF3 w) = true) ∧
    (CPU.warns (fOp w) (fF3 w) = true ↔
      ((fOp w ≠ OpLUI ∧ fOp w ≠ opAUIPC ∧ fOp w ≠ opJAL ∧ fOp w ≠ opJALR ∧ fOp w ≠ opBRANCH ∧
        fOp w ≠ OpLOAD ∧ fOp w ≠ opSTORE ∧ fOp w ≠ OpOPIMM ∧ fOp w ≠ opOP ∧ fOp w ≠ opSYSTEM) ∨
       (fOp w = opBRANCH ∧ (fF3 w = 2 ∨ fF3 w = 3)) ∨
       (fOp w = OpLOAD ∧ fF3 w ≠ f3LB ∧ fF3 w ≠ F3LBU ∧ fF3 w ≠ f3LW) ∨
       (fOp w = opSTORE ∧ fF3 w ≠ F3SB ∧ fF3 w ≠ f3SW) ∨
       (fOp w = OpOPIMM ∧ (fF3 w = 2 ∨ fF3 w = 3)))) ∧
    (∀ c : CPU, c.fetch = (w, true) → CPU.warns (fOp w) (fF3 w) = true →
      (c.Step).2 = true ∧ (c.Step).1.PC = (c.PC + 4) % 4294967296 ∧
      (c.Step).1.Bus = c.Bus ∧ (∀ i, (c.Step).1.readReg i = c.readReg i)) ∧
    (CPU.warns (fOp w) (fF3 w) = false → Disasm pc w ≠ ".word 0x" ++ fmt08X w) := by
  refine ⟨Disasm_fallback_iff pc w, warns_iff w, ?_, ?_⟩
  · intro c hf hw
    have hf2 : c.fetch.2 = true := by rw [hf]
    have hf1 : c.fetch.1 = w := by rw [hf]
    have he := exec_of_warns c w (fOp w) (fRd w) (fF3 w) (fRs1 w) (fRs2 w) (fF7 w) hw
    rw [← hf1] at he
    obtain ⟨a1, a2, a3, _, a5, _⟩ := noop_of_exec c hf2 he
    exact ⟨a1, a2, a3, a5⟩
  · intro hw h
    rw [Disasm_fallback_iff, hw] at h
    cases h

/-! ## Test programs: loading -/

theorem RAM_Write8_ok (m : RAM) (x v : Nat) (h : x < m.Size) :
    m.Write8 x v = ({ data := m.data.set x v }, true) := by
  have h' : ¬ x ≥ u32 m.data.length := Nat.not_le.mpr h
  unfold RAM.Write8
  rw [if_neg h']

theorem RAM_Read8_ok (m : RAM) (x : Nat) (h : x < m.Size) :
    m.Read8 x = (m.data.getD x 0, true) := by
  have h' : ¬ x ≥ u32 m.data.length := Nat.not_le.mpr h
  unfold RAM.Read8
  rw [if_neg h']

theorem RAM_Size_set (m : RAM) (x v : Nat) : (RAM.mk (m.data.set x v)).Size = m.Size := by
  show u32 (m.data.set x v).length = u32 m.data.length
  rw [List.length_set]

/-- The RAM after `writeInst` inside the RAM: four byte stores, least
significant byte first. -/
theorem writeInst_eq (ram : RAM) (addr inst : Nat) (hr : addr + 3 < ram.Size) :
    writeInst ram addr inst =
      ({ data := (((ram.data.set addr (u8 inst)).set (addr + 1) (u8 (inst >>> 8))).set (addr + 2)
          (u8 (inst >>> 16))).set (addr + 3) (u8 (inst >>> 24)) }, true) := by
  have hs := RAM_Size_lt ram
  have e0 : u32 (addr + 0) = addr := by unfold u32; omega
  have e1 : u32 (addr + 1) = addr + 1 := by unfold u32; omega
  have e2 : u32 (addr + 2) = addr + 2 := by unfold u32; omega
  have e3 : u32 (addr + 3) = addr + 3 := by unfold u32; omega
  unfold writeInst
  simp only [writeInstLoop, e0, e1, e2, e3, Nat.zero_add, Nat.reduceAdd, Nat.reduceMul,
    Nat.shiftRight_zero]
  rw [RAM_Write8_ok ram addr _ (by omega)]
  simp only [Bool.true_eq_false, if_false]
  rw [RAM_Write8_ok _ (addr + 1) _ (by rw [RAM_Size_set]; omega)]
  simp only [Bool.true_eq_false, if_false]
  rw [RAM_Write8_ok _ (addr + 2) _ (by rw [RAM_Size_set, RAM_Size_set]; omega)]
  simp only [Bool.true_eq_false, if_false]
  rw [RAM_Write8_ok _ (addr + 3) _ (by rw [RAM_Size_set, RAM_Size_set, RAM_Size_set]; omega)]
  simp only [Bool.true_eq_false, if_false]

theorem set4_wordAt (d : List Nat) (a w : Nat) (h : a + 3 < d.length) :
    wordAt ((((d.set a (u8 w)).set (a + 1) (u8 (w >>> 8))).set (a + 2)
      (u8 (w >>> 16))).set (a + 3) (u8 (w >>> 24))) a w := by
  intro k hk
  have l0 : a < d.length := by omega
  have l1 : a + 1 < d.length := by omega
  have l2 : a + 2 < d.length := by omega
  rcases k with _ | _ | _ | _ | k
  · simp [List.getD_eq_getElem?_getD, List.getElem?_set, l0, l1, l2, h]
  · simp [List.getD_eq_getElem?_getD, List.getElem?_set, l0, l1, l2, h]
  · simp [List.getD_eq_getElem?_getD, List.getElem?_set, l0, l1, l2, h]
  · simp [List.getD_eq_getElem?_getD, List.getElem?_set, l0, l1, l2, h]
  · omega

theorem set4_getD_other (d : List Nat) (a x : Nat) (v0 v1 v2 v3 : Nat)
    (hx : x < a ∨ a + 4 ≤ x) :
    ((((d.set a v0).set (a + 1) v1).set (a + 2) v2).set (a + 3) v3).getD x 0 = d.getD x 0 := by
  simp only [List.getD_eq_getElem?_getD, List.getElem?_set]
  rw [if_neg (by omega), if_neg (by omega), if_neg (by omega), if_neg (by omega)]

theorem set4_length (d : List Nat) (a : Nat) (v0 v1 v2 v3 : Nat) :
    ((((d.set a v0).set (a + 1) v1).set (a + 2) v2).set (a + 3) v3).length = d.length := by
  simp

/-- Loading a program into RAM: the helper succeeds, the RAM keeps its length,
the words of the program sit at pc + 4 * (i + j), and all other bytes stay. -/
theorem writeInsts_spec (pc : Nat) (insts : List Nat) (i : Nat) (ram : RAM)
    (hfit : pc + 4 * (i + insts.length) ≤ ram.Size) :
    (writeInsts pc insts i ram).2 = true ∧
    (writeInsts pc insts i ram).1.data.length = ram.data.length ∧
    (∀ j, (hj : j < insts.length) →
      wordAt (writeInsts pc insts i ram).1.data (pc + 4 * (i + j)) (insts.get ⟨j, hj⟩)) ∧
    (∀ x, x < pc + 4 * i ∨ pc + 4 * (i + insts.length) ≤ x →
      (writeInsts pc insts i ram).1.data.getD x 0 = ram.data.getD x 0) := by
  induction insts generalizing i ram with
  | nil =>
    refine ⟨rfl, rfl, ?_, fun x _ => rfl⟩
    intro j hj
    simp at hj
  | cons ins rest ih =>
    have hs := RAM_Size_lt ram
    have hl := RAM_Size_le_length ram
    simp only [List.length_cons] at hfit
    have ea : u32 (pc + u32 (i * 4)) = pc + 4 * i := by unfold u32; omega
    unfold writeInsts
    simp only []
    rw [ea, writeInst_eq ram (pc + 4 * i) ins (by omega)]
    simp only [Bool.true_eq_false, if_false]
    have hsz : (RAM.mk ((((ram.data.set (pc + 4 * i) (u8 ins)).set (pc + 4 * i + 1)
        (u8 (ins >>> 8))).set (pc + 4 * i + 2) (u8 (ins >>> 16))).set (pc + 4 * i + 3)
        (u8 (ins >>> 24)))).Size = ram.Size := by
      show u32 _ = u32 _
      rw [set4_length]
    have hw := set4_wordAt ram.data (pc + 4 * i) ins (by omega)
    have ho := fun x => set4_getD_other ram.data (pc + 4 * i) x (u8 ins) (u8 (ins >>> 8))
      (u8 (ins >>> 16)) (u8 (ins >>> 24))
    have hlen := set4_length ram.data (pc + 4 * i) (u8 ins) (u8 (ins >>> 8))
      (u8 (ins >>> 16)) (u8 (ins >>> 24))
    generalize (((ram.data.set (pc + 4 * i) (u8 ins)).set (pc + 4 * i + 1)
        (u8 (ins >>> 8))).set (pc + 4 * i + 2) (u8 (ins >>> 16))).set (pc + 4 * i + 3)
        (u8 (ins >>> 24)) = d1 at *
    obtain ⟨f, l, w, o⟩ := ih (i + 1) (RAM.mk d1) (by rw [hsz]; omega)
    refine ⟨f, l.trans hlen, ?_, ?_⟩
    · intro j hj
      rcases j with _ | j
      · intro k hk
        rw [o _ (Or.inl (by omega))]
        exact hw k hk
      · have := w j (by simpa using hj)
        have e : pc + 4 * (i + (j + 1)) = pc + 4 * (i + 1 + j) := by omega
        rw [e]
        simpa using this
    · intro x hx
      rw [o x (by simp only [List.length_cons] at hx; omega)]
      exact ho x (by simp only [List.length_cons] at hx; omega)

/-- A word read inside RAM assembles the four bytes found there. -/
theorem Read32_wordAt (b : Bus) (a w : Nat) (ha : a % 4 = 0) (hr : a + 3 < b.RAM.Size)
    (hw : wordAt b.RAM.data a w) (hw32 : w < 4294967296) : b.Read32 a = (w, true) := by
  have hs := RAM_Size_lt b.RAM
  have e0 : u32 (a + 0) = a := by unfold u32; omega
  have e1 : u32 (a + 1) = a + 1 := by unfold u32; omega
  have e2 : u32 (a + 2) = a + 2 := by unfold u32; omega
  have e3 : u32 (a + 3) = a + 3 := by unfold u32; omega
  have h3 : ¬ (a &&& 3 ≠ 0) := by rw [and_three_eq_mod]; omega
  have r0 : b.Read8 a = (u8 w, true) := by
    rw [Read8_ram _ _ (by omega)]; have := hw 0 (by omega)
    simp only [Nat.add_zero, Nat.mul_zero, Nat.shiftRight_zero] at this; rw [this]
  have r1 : b.Read8 (a + 1) = (u8 (w >>> 8), true) := by
    rw [Read8_ram _ _ (by omega)]; have := hw 1 (by omega)
    simp only [Nat.reduceMul] at this; rw [this]
  have r2 : b.Read8 (a + 2) = (u8 (w >>> 16), true) := by
    rw [Read8_ram _ _ (by omega)]; have := hw 2 (by omega)
    simp only [Nat.reduceMul] at this; rw [this]
  have r3 : b.Read8 (a + 3) = (u8 (w >>> 24), true) := by
    rw [Read8_ram _ _ (by omega)]; have := hw 3 (by omega)
    simp only [Nat.reduceMul] at this; rw [this]
  unfold Bus.Read32
  rw [if_neg h3]
  simp only [Bus.Read32Loop, e0, e1, e2, e3, Nat.zero_add, Nat.reduceAdd, r0, r1, r2, r3,
    Bool.true_eq_false, if_false]
  rw [compose_le w hw32]

/-! ## One step: the instructions of the test programs -/

theorem Step_of_exec (c : CPU) (inst : Nat) (hf : c.fetch = (inst, true)) (e : CPU × Nat × Bool)
    (he : c.exec inst (fOp inst) (fRd inst) (fF3 inst) (fRs1 inst) (fRs2 inst) (fF7 inst) = e) :
    c.Step = if e.2.2 = false then (e.1, false)
      else (CPU.mk (e.1.Reg.set 0 0) e.2.1 e.1.Bus e.1.Trace, true) := by
  have h2 : c.fetch.2 = true := by rw [hf]
  have h1 : c.fetch.1 = inst := by rw [hf]
  rw [Step_fetch_ok c h2 e (by rw [h1]; exact he)]

theorem writeReg_eq (c : CPU) (i v : Nat) :
    c.writeReg i v = CPU.mk (if i ≠ 0 then c.Reg.set i v else c.Reg) c.PC c.Bus c.Trace := by
  unfold CPU.writeReg
  split_ifs <;> rfl

theorem Step_LUI (c : CPU) (inst : Nat) (hf : c.fetch = (inst, true)) (hop : fOp inst = OpLUI) :
    c.Step = (CPU.mk ((c.writeReg (fRd inst) (ofInt32 (immU inst))).Reg.set 0 0)
      (u32 (c.PC + 4)) c.Bus c.Trace, true) := by
  rw [Step_of_exec c inst hf _ rfl, hop]
  simp [CPU.exec, writeReg_Bus, writeReg_eq]

theorem Step_ADDI (c : CPU) (inst : Nat) (hf : c.fetch = (inst, true))
    (hop : fOp inst = OpOPIMM) (h3 : fF3 inst = F3ADDI) :
    c.Step = (CPU.mk ((c.writeReg (fRd inst)
        (u32 (c.readReg (fRs1 inst) + ofInt32 (toInt32 (ofInt32 (immI inst)))))).Reg.set 0 0)
      (u32 (c.PC + 4)) c.Bus c.Trace, true) := by
  rw [Step_of_exec c inst hf _ rfl, hop, h3]
  simp [CPU.exec, CPU.execOPIMM, writeReg_eq]

theorem Step_ADD (c : CPU) (inst : Nat) (hf : c.fetch = (inst, true))
    (hop : fOp inst = opOP) (h3 : fF3 inst = f3ADD_SUB) (h7 : fF7 inst ≠ funct7SUBSRA) :
    c.Step = (CPU.mk ((c.writeReg (fRd inst)
        (u32 (c.readReg (fRs1 inst) + c.readReg (fRs2 inst)))).Reg.set 0 0)
      (u32 (c.PC + 4)) c.Bus c.Trace, true) := by
  rw [Step_of_exec c inst hf _ rfl, hop, h3]
  simp [CPU.exec, CPU.execOP, writeReg_eq, h7]

theorem Step_LBU (c : CPU) (inst v : Nat) (hf : c.fetch = (inst, true))
    (hop : fOp inst = OpLOAD) (h3 : fF3 inst = F3LBU)
    (hr : c.Bus.Read8 (u32 (c.readReg (fRs1 inst) + ofInt32 (immI inst))) = (v, true)) :
    c.Step = (CPU.mk ((c.writeReg (fRd inst) v).Reg.set 0 0) (u32 (c.PC + 4)) c.Bus c.Trace,
      true) := by
  rw [Step_of_exec c inst hf _ rfl, hop, h3]
  simp [CPU.exec, CPU.execLOAD, writeReg_eq, hr]

theorem Step_BEQ (c : CPU) (inst : Nat) (hf : c.fetch = (inst, true))
    (hop : fOp inst = opBRANCH) (h3 : fF3 inst = F3BEQ) :
    c.Step = (CPU.mk (c.Reg.set 0 0)
      (if c.readReg (fRs1 inst) = c.readReg (fRs2 inst) then u32 (c.PC + ofInt32 (immB inst))
        else u32 (c.PC + 4)) c.Bus c.Trace, true) := by
  rw [Step_of_exec c inst hf _ rfl, hop, h3]
  simp [CPU.exec, CPU.execBRANCH]

theorem Step_SB (c : CPU) (inst : Nat) (b : Bus) (hf : c.fetch = (inst, true))
    (hop : fOp inst = opSTORE) (h3 : fF3 inst = F3SB)
    (hw : c.Bus.Write8 (u32 (c.readReg (fRs1 inst) + ofInt32 (immS inst)))
      (u8 (c.readReg (fRs2 inst))) = (b, true)) :
    c.Step = (CPU.mk (c.Reg.set 0 0) (u32 (c.PC + 4)) b c.Trace, true) := by
  rw [Step_of_exec c inst hf _ rfl, hop, h3]
  simp [CPU.exec, CPU.execSTORE, hw]

theorem Step_SW (c : CPU) (inst : Nat) (b : Bus) (hf : c.fetch = (inst, true))
    (hop : fOp inst = opSTORE) (h3 : fF3 inst = f3SW)
    (hw : c.Bus.Write32 (u32 (c.readReg (fRs1 inst) + ofInt32 (immS inst)))
      (c.readReg (fRs2 inst)) = (b, true)) :
    c.Step = (CPU.mk (c.Reg.set 0 0) (u32 (c.PC + 4)) b c.Trace, true) := by
  rw [Step_of_exec c inst hf _ rfl, hop, h3]
  simp [CPU.exec, CPU.execSTORE, hw]

theorem Step_JAL (c : CPU) (inst : Nat) (hf : c.fetch = (inst, true)) (hop : fOp inst = opJAL) :
    c.Step = (CPU.mk ((c.writeReg (fRd inst) (u32 (c.PC + 4))).Reg.set 0 0)
      (addPC c.PC (immJ inst)) c.Bus c.Trace, true) := by
  rw [Step_of_exec c inst hf _ rfl, hop]
  simp [CPU.exec, writeReg_eq]

theorem Step_SYSTEM (c : CPU) (inst : Nat) (hf : c.fetch = (inst, true))
    (hop : fOp inst = opSYSTEM) : c.Step = (c, false) := by
  rw [Step_of_exec c inst hf _ rfl, hop]
  simp [CPU.exec]

theorem runToHalt_true (n : Nat) (c c' : CPU) (h : c.Step = (c', true)) :
    runToHalt (n + 1) c = runToHalt n c' := by
  simp [runToHalt, h]

theorem runToHalt_false (n : Nat) (c c' : CPU) (h : c.Step = (c', false)) :
    runToHalt (n + 1) c = (c', true) := by
  simp [runToHalt, h]

/-! ## The arithmetic program -/

/-- The fields `CPU.Step` decodes from a word built by `encI`. -/
theorem encI_fields (op rd f3 rs1 : Nat) (imm : Int) (hop : op < 128) (hrd : rd < 32)
    (h3 : f3 < 8) (h1 : rs1 < 32) :
    encI op rd f3 rs1 imm [] < 4294967296 ∧ fOp (encI op rd f3 rs1 imm []) = op ∧
    fRd (encI op rd f3 rs1 imm []) = rd ∧ fF3 (encI op rd f3 rs1 imm []) = f3 ∧
    fRs1 (encI op rd f3 rs1 imm []) = rs1 := by
  rw [encI_word op rd f3 rs1 imm hop hrd h3 h1]
  unfold fOp fRd fF3 fRs1
  simp only [and_mask7, and_mask5, Nat.shiftRight_eq_div_pow]
  have h7 : ∀ x, x &&& 0x7 = x % 8 := fun x => Nat.and_pow_two_sub_one_eq_mod x 3
  rw [h7]
  have hI : ofInt32 imm % 4096 < 4096 := Nat.mod_lt _ (by decide)
  generalize ofInt32 imm % 4096 = I at *
  norm_num
  refine ⟨?_, ?_, ?_, ?_, ?_⟩ <;> omega

theorem addi_zero (i : Int) : u32 (0 + ofInt32 (toInt32 (ofInt32 i))) = ofInt32 i := by
  unfold u32 ofInt32 toInt32
  split_ifs <;> omega

theorem add_ofInt32 (a b : Int) : u32 (ofInt32 a + ofInt32 b) = ofInt32 (a + b) := by
  unfold u32 ofInt32
  omega

theorem runToHalt_halted (n m : Nat) (c : CPU) (h : (runToHalt n c).2 = true) :
    runToHalt (n + m) c = runToHalt n c := by
  induction n generalizing c with
  | zero => simp [runToHalt] at h
  | succ k ih =>
    have e : k + 1 + m = (k + m) + 1 := by omega
    rw [e]
    unfold runToHalt
    simp only []
    by_cases hs : (c.Step).2 = false
    · rw [if_pos hs, if_pos hs]
    · rw [if_neg hs, if_neg hs]
      apply ih
      unfold runToHalt at h
      simp only [] at h
      rw [if_neg hs] at h
      exact h

theorem ofInt32_mod (i : Int) : ofInt32 i % 4294967296 = ofInt32 i := by
  unfold ofInt32; omega

theorem ofInt32_lt (i : Int) : ofInt32 i < 4294967296 := by
  unfold ofInt32; omega

theorem ofInt32_toInt32 (i : Int) : ofInt32 (toInt32 (ofInt32 i)) = ofInt32 i := by
  unfold ofInt32 toInt32
  split_ifs <;> omega

theorem arith_step_addi1 (a : Int) (ha : -2048 ≤ a ∧ a ≤ 2047) (bus : Bus)
    (hf : bus.Read32 0 = (encI OpOPIMM 1 F3ADDI x0 a [], true)) :
    (arithState 0 0 0 0 0 bus).Step = (arithState (ofInt32 a) 0 0 0 4 bus, true) := by
  obtain ⟨_, fop, frd, ff3, frs1⟩ := encI_fields OpOPIMM 1 F3ADDI x0 a (by decide) (by decide)
    (by decide) (by decide)
  rw [Step_ADDI (arithState 0 0 0 0 0 bus) _ hf fop ff3, frd, frs1,
    immI_encI OpOPIMM 1 F3ADDI x0 a (by decide) (by decide) (by decide) (by decide) ha.1 ha.2]
  simp [arithState, writeReg_eq, CPU.readReg, ofInt32_toInt32, ofInt32_mod, u32]

theorem arith_step_addi2 (A : Nat) (b : Int) (hb : -2048 ≤ b ∧ b ≤ 2047) (bus : Bus)
    (hf : bus.Read32 4 = (encI OpOPIMM 2 F3ADDI x0 b [], true)) :
    (arithState A 0 0 0 4 bus).Step = (arithState A (ofInt32 b) 0 0 8 bus, true) := by
  obtain ⟨_, fop, frd, ff3, frs1⟩ := encI_fields OpOPIMM 2 F3ADDI x0 b (by decide) (by decide)
    (by decide) (by decide)
  rw [Step_ADDI (arithState A 0 0 0 4 bus) _ hf fop ff3, frd, frs1,
    immI_encI OpOPIMM 2 F3ADDI x0 b (by decide) (by decide) (by decide) (by decide) hb.1 hb.2]
  simp [arithState, writeReg_eq, CPU.readReg, ofInt32_toInt32, ofInt32_mod, u32]

theorem arith_step_add (A B : Nat) (bus : Bus)
    (hf : bus.Read32 8 = (0x002081B3, true)) :
    (arithState A B 0 0 8 bus).Step = (arithState A B (u32 (A + B)) 0 12 bus, true) := by
  have frd : fRd 0x002081B3 = 3 := by decide
  have frs1 : fRs1 0x002081B3 = 1 := by decide
  have frs2 : fRs2 0x002081B3 = 2 := by decide
  rw [Step_ADD (arithState A B 0 0 8 bus) 0x002081B3 hf (by decide) (by decide) (by decide),
    frd, frs1, frs2]
  simp [arithState, writeReg_eq, CPU.readReg, u32]

theorem arith_step_addi4 (A B V : Nat) (bus : Bus)
    (hf : bus.Read32 12 = (0x30000213, true)) :
    (arithState A B V 0 12 bus).Step = (arithState A B V 0x300 16 bus, true) := by
  have frd : fRd 0x30000213 = 4 := by decide
  have frs1 : fRs1 0x30000213 = 0 := by decide
  have e : ofInt32 (toInt32 (ofInt32 (immI 0x30000213))) = 0x300 := by decide
  rw [Step_ADDI (arithState A B V 0 12 bus) 0x30000213 hf (by decide) (by decide), frd, frs1, e]
  simp [arithState, writeReg_eq, CPU.readReg, u32]

theorem arith_step_sw (A B V : Nat) (bus b' : Bus)
    (hf : bus.Read32 16 = (0x00322023, true)) (hw : bus.Write32 0x300 V = (b', true)) :
    (arithState A B V 0x300 16 bus).Step = (arithState A B V 0x300 20 b', true) := by
  have e : ∀ x, u32 (x + ofInt32 (immS 0x00322023)) = u32 x := by
    intro x
    have : ofInt32 (immS 0x00322023) = 0 := by decide
    rw [this, Nat.add_zero]
  have frs1 : fRs1 0x00322023 = 4 := by decide
  have frs2 : fRs2 0x00322023 = 3 := by decide
  rw [Step_SW (arithState A B V 0x300 16 bus) 0x00322023 b' hf (by decide) (by decide) (by
    rw [e, frs1, frs2]
    simpa [arithState, CPU.readReg, u32] using hw)]
  simp [arithState, u32]

theorem arith_step_ecall (A B V : Nat) (bus : Bus) (hf : bus.Read32 20 = (0x00000073, true)) :
    (arithState A B V 0x300 20 bus).Step = (arithState A B V 0x300 20 bus, false) :=
  Step_SYSTEM (arithState A B V 0x300 20 bus) 0x00000073 hf (by decide)

/-- The arithmetic program on a 4096-byte RAM image `d` that holds it at
address 0: five steps return true and the sixth, the ECALL, returns false;
the sum is then in x3 and in the word at 0x300. -/
theorem arith_run (a b : Int) (ha : -2048 ≤ a ∧ a ≤ 2047) (hb : -2048 ≤ b ∧ b ≤ 2047)
    (d : List Nat) (u : UART) (hlen : d.length = 4096)
    (hw : ∀ j, (hj : j < (arithInsts a b).length) →
      wordAt d (0 + 4 * (0 + j)) ((arithInsts a b).get ⟨j, hj⟩)) :
    runToHalt 5 (arithState 0 0 0 0 0 (Bus.mk (RAM.mk d) u)) =
      (arithState (ofInt32 a) (ofInt32 b) (ofInt32 (a + b)) 0x300 20
        (Bus.mk (RAM.mk ((((d.set 0x300 (u8 (ofInt32 (a + b)))).set (0x300 + 1)
          (u8 (ofInt32 (a + b) >>> 8))).set (0x300 + 2) (u8 (ofInt32 (a + b) >>> 16))).set
          (0x300 + 3) (u8 (ofInt32 (a + b) >>> 24)))) u), false) ∧
    runToHalt 6 (arithState 0 0 0 0 0 (Bus.mk (RAM.mk d) u)) =
      (arithState (ofInt32 a) (ofInt32 b) (ofInt32 (a + b)) 0x300 20
        (Bus.mk (RAM.mk ((((d.set 0x300 (u8 (ofInt32 (a + b)))).set (0x300 + 1)
          (u8 (ofInt32 (a + b) >>> 8))).set (0x300 + 2) (u8 (ofInt32 (a + b) >>> 16))).set
          (0x300 + 3) (u8 (ofInt32 (a + b) >>> 24)))) u), true) := by
  have hsz : (Bus.mk (RAM.mk d) u).RAM.Size = 4096 := by
    show u32 d.length = 4096
    rw [hlen]; rfl
  have w0 : wordAt d 0 (encI OpOPIMM 1 F3ADDI x0 a []) := hw 0 (by simp [arithInsts])
  have w1 : wordAt d 4 (encI OpOPIMM 2 F3ADDI x0 b []) := hw 1 (by simp [arithInsts])
  have w2 : wordAt d 8 0x002081B3 := hw 2 (by simp [arithInsts])
  have w3 : wordAt d 12 0x30000213 := hw 3 (by simp [arithInsts])
  have w4 : wordAt d 16 0x00322023 := hw 4 (by simp [arithInsts])
  have w5 : wordAt d 20 0x00000073 := hw 5 (by simp [arithInsts])
  have b0 := (encI_fields OpOPIMM 1 F3ADDI x0 a (by decide) (by decide) (by decide)
    (by decide)).1
  have b1 := (encI_fields OpOPIMM 2 F3ADDI x0 b (by decide) (by decide) (by decide)
    (by decide)).1
  have f0 := Read32_wordAt (Bus.mk (RAM.mk d) u) 0 _ (by decide) (by rw [hsz]; decide) w0 b0
  have f1 := Read32_wordAt (Bus.mk (RAM.mk d) u) 4 _ (by decide) (by rw [hsz]; decide) w1 b1
  have f2 := Read32_wordAt (Bus.mk (RAM.mk d) u) 8 _ (by decide) (by rw [hsz]; decide) w2
    (by decide)
  have f3 := Read32_wordAt (Bus.mk (RAM.mk d) u) 12 _ (by decide) (by rw [hsz]; decide) w3
    (by decide)
  have f4 := Read32_wordAt (Bus.mk (RAM.mk d) u) 16 _ (by decide) (by rw [hsz]; decide) w4
    (by decide)
  have hst := Write32_ram (Bus.mk (RAM.mk d) u) 0x300 (ofInt32 (a + b)) (by decide)
    (by rw [hsz]; decide)
  have w5' : wordAt ((((d.set 0x300 (u8 (ofInt32 (a + b)))).set (0x300 + 1)
      (u8 (ofInt32 (a + b) >>> 8))).set (0x300 + 2) (u8 (ofInt32 (a + b) >>> 16))).set
      (0x300 + 3) (u8 (ofInt32 (a + b) >>> 24))) 20 0x00000073 := by
    intro k hk
    rw [set4_getD_other d 0x300 (20 + k) _ _ _ _ (Or.inl (by omega))]
    exact w5 k hk
  have hlen' := set4_length d 0x300 (u8 (ofInt32 (a + b))) (u8 (ofInt32 (a + b) >>> 8))
    (u8 (ofInt32 (a + b) >>> 16)) (u8 (ofInt32 (a + b) >>> 24))
  generalize (((d.set 0x300 (u8 (ofInt32 (a + b)))).set (0x300 + 1)
      (u8 (ofInt32 (a + b) >>> 8))).set (0x300 + 2) (u8 (ofInt32 (a + b) >>> 16))).set
      (0x300 + 3) (u8 (ofInt32 (a + b) >>> 24)) = d' at *
  have hsz' : (Bus.mk (RAM.mk d') u).RAM.Size = 4096 := by
    show u32 d'.length = 4096
    rw [hlen', hlen]; rfl
  have f5 := Read32_wordAt (Bus.mk (RAM.mk d') u) 20 _ (by decide) (by rw [hsz']; decide) w5'
    (by decide)
  have s0 := arith_step_addi1 a ha _ f0
  have s1 := arith_step_addi2 (ofInt32 a) b hb _ f1
  have s2 := arith_step_add (ofInt32 a) (ofInt32 b) _ f2
  rw [add_ofInt32] at s2
  have s3 := arith_step_addi4 (ofInt32 a) (ofInt32 b) (ofInt32 (a + b)) _ f3
  have s4 := arith_step_sw (ofInt32 a) (ofInt32 b) (ofInt32 (a + b)) _ _ f4 hst
  have s5 := arith_step_ecall (ofInt32 a) (ofInt32 b) (ofInt32 (a + b)) _ f5
  constructor
  · rw [runToHalt_true 4 _ _ s0, runToHalt_true 3 _ _ s1, runToHalt_true 2 _ _ s2,
      runToHalt_true 1 _ _ s3, runToHalt_true 0 _ _ s4]
    rfl
  · rw [runToHalt_true 5 _ _ s0, runToHalt_true 4 _ _ s1, runToHalt_true 3 _ _ s2,
      runToHalt_true 2 _ _ s3, runToHalt_true 1 _ _ s4, runToHalt_false 0 _ _ s5]

/-- The read-back loop of the test finds the word stored in RAM. -/
theorem readBack_wordAt (ram : RAM) (a w : Nat) (hr : a + 3 < ram.Size)
    (hw : wordAt ram.data a w) (hw32 : w < 4294967296) : readBack ram a = (w, true) := by
  have hs := RAM_Size_lt ram
  have e0 : u32 (a + u32 0) = a := by unfold u32; omega
  have e1 : u32 (a + u32 1) = a + 1 := by unfold u32; omega
  have e2 : u32 (a + u32 2) = a + 2 := by unfold u32; omega
  have e3 : u32 (a + u32 3) = a + 3 := by unfold u32; omega
  have r0 : ram.Read8 a = (u8 w, true) := by
    rw [RAM_Read8_ok _ _ (by omega)]; have := hw 0 (by omega)
    simp only [Nat.add_zero, Nat.mul_zero, Nat.shiftRight_zero] at this; rw [this]
  have r1 : ram.Read8 (a + 1) = (u8 (w >>> 8), true) := by
    rw [RAM_Read8_ok _ _ (by omega)]; have := hw 1 (by omega)
    simp only [Nat.reduceMul] at this; rw [this]
  have r2 : ram.Read8 (a + 2) = (u8 (w >>> 16), true) := by
    rw [RAM_Read8_ok _ _ (by omega)]; have := hw 2 (by omega)
    simp only [Nat.reduceMul] at this; rw [this]
  have r3 : ram.Read8 (a + 3) = (u8 (w >>> 24), true) := by
    rw [RAM_Read8_ok _ _ (by omega)]; have := hw 3 (by omega)
    simp only [Nat.reduceMul] at this; rw [this]
  unfold readBack
  simp only [readBackLoop, e0, e1, e2, e3, Nat.zero_add, Nat.reduceAdd, r0, r1, r2, r3,
    Bool.true_eq_false, if_false]
  rw [compose_le w hw32]

theorem arithCPU_eq (a b : Int) :
    arithCPU a b = arithState 0 0 0 0 0
      (Bus.mk (writeInsts 0 (arithInsts a b) 0 (NewRAM 4096)).1 (NewUART none)) := by
  have hr : (List.replicate 32 0 : List Nat) = [0, 0, 0, 0, 0] ++ List.replicate 27 0 := by
    decide
  simp only [arithCPU, arithState, NewCPU, NewBus, hr]

/-- The arithmetic scenario for all 12-bit immediates: what the run and the
read-back give. -/
theorem arith_scenario (a b : Int) (ha : -2048 ≤ a ∧ a ≤ 2047) (hb : -2048 ≤ b ∧ b ≤ 2047) :
    (writeInsts 0 (arithInsts a b) 0 (NewRAM 4096)).2 = true ∧
    (runToHalt 5 (arithCPU a b)).2 = false ∧
    (runToHalt 6 (arithCPU a b)).2 = true ∧
    (∀ m, runToHalt (6 + m) (arithCPU a b) = runToHalt 6 (arithCPU a b)) ∧
    readBack (runToHalt 6 (arithCPU a b)).1.Bus.RAM 0x300 = (ofInt32 (a + b), true) ∧
    (∀ k, k < 4 → (runToHalt 6 (arithCPU a b)).1.Bus.RAM.Read8 (0x300 + k) =
      ((ofInt32 (a + b) >>> (8 * k)) &&& 0xFF, true)) ∧
    (runToHalt 6 (arithCPU a b)).1.readReg 3 = ofInt32 (a + b) := by
  have hS : (NewRAM 4096).Size = 4096 := NewRAM_Size 4096 (by decide)
  have hL : (NewRAM 4096).data.length = 4096 := List.length_replicate _ _
  obtain ⟨hf, hl, hw, _⟩ := writeInsts_spec 0 (arithInsts a b) 0 (NewRAM 4096)
    (by rw [hS]; simp [arithInsts])
  rw [arithCPU_eq]
  generalize (writeInsts 0 (arithInsts a b) 0 (NewRAM 4096)).1 = r at *
  obtain ⟨d⟩ := r
  simp only [] at hl hw
  have hlen : d.length = 4096 := by rw [hl, hL]
  obtain ⟨r5, r6⟩ := arith_run a b ha hb d (NewUART none) hlen hw
  have hhalt : (runToHalt 6 (arithState 0 0 0 0 0 (Bus.mk (RAM.mk d) (NewUART none)))).2 =
      true := by rw [r6]
  have hd := set4_wordAt d 0x300 (ofInt32 (a + b)) (by rw [hlen]; norm_num)
  have hlen' := set4_length d 0x300 (u8 (ofInt32 (a + b))) (u8 (ofInt32 (a + b) >>> 8))
    (u8 (ofInt32 (a + b) >>> 16)) (u8 (ofInt32 (a + b) >>> 24))
  generalize (((d.set 0x300 (u8 (ofInt32 (a + b)))).set (0x300 + 1)
    (u8 (ofInt32 (a + b) >>> 8))).set (0x300 + 2) (u8 (ofInt32 (a + b) >>> 16))).set
    (0x300 + 3) (u8 (ofInt32 (a + b) >>> 24)) = d' at *
  have hsz' : (RAM.mk d').Size = 4096 := by
    show u32 d'.length = 4096
    rw [hlen', hlen]; rfl
  refine ⟨hf, by rw [r5], hhalt, fun m => runToHalt_halted 6 m _ hhalt, ?_, ?_, ?_⟩
  · rw [r6]
    exact readBack_wordAt (RAM.mk d') _ _ (by rw [hsz']; norm_num) hd (ofInt32_lt _)
  · intro k hk
    rw [r6]
    show (RAM.mk d').Read8 (0x300 + k) = _
    rw [RAM_Read8_ok _ _ (by rw [hsz']; omega), and_mask8]
    show (d'.getD (0x300 + k) 0, true) = _
    rw [hd k hk]
    rfl
  · rw [r6]
    rfl

/-- C23: the arithmetic scenario.  For all a, b in [-2048, 2047], the program
[addi x1,x0,a; addi x2,x0,b; add x3,x1,x2; addi x4,x0,0x300; sw x3,0(x4);
ecall], written at address 0 of a 4096-byte RAM by the test helper and run
from PC = 0, halts at the sixth `Step`: `runToHalt` reports false for 5 steps
and true for 6 (and for the 100 of the test); the four RAM bytes at
0x300..0x303 are then read successfully, they are the bytes of
(a + b) mod 2^32, least significant first, and the read-back loop of the test
decodes them to (a + b) mod 2^32.  For a = 5, b = 7 the value is 12. -/
theorem C23_arith_scenario (a b : Int) (ha : -2048 ≤ a ∧ a ≤ 2047)
    (hb : -2048 ≤ b ∧ b ≤ 2047) :
    (writeInsts 0 (arithInsts a b) 0 (NewRAM 4096)).2 = true ∧
    (runToHalt 5 (arithCPU a b)).2 = false ∧
    (runToHalt 6 (arithCPU a b)).2 = true ∧
    runToHalt 100 (arithCPU a b) = runToHalt 6 (arithCPU a b) ∧
    readBack (runToHalt 6 (arithCPU a b)).1.Bus.RAM 0x300 =
      (((a + b) % 4294967296).toNat, true) ∧
    (∀ k, k < 4 → (runToHalt 6 (arithCPU a b)).1.Bus.RAM.Read8 (0x300 + k) =
      ((((a + b) % 4294967296).toNat >>> (8 * k)) &&& 0xFF, true)) ∧
    readBack (runToHalt 100 (arithCPU 5 7)).1.Bus.RAM 0x300 = (12, true) := by
  obtain ⟨h1, h2, h3, h4, h5, h6, _⟩ := arith_scenario a b ha hb
  obtain ⟨_, _, _, g4, g5, _, _⟩ := arith_scenario 5 7 (by decide) (by decide)
  refine ⟨h1, h2, h3, h4 94, h5, h6, ?_⟩
  rw [g4 94, g5]
  rfl

/-! ## The string program -/

theorem hello_words :
    helloInsts = [0x10000537, 0x00050513, 0x20000593, 0x0005C283, 0x00028863, 0x00550023,
      0x00158593, 0xFF1FF06F, 0x00000073] := by decide

theorem hello_step_lui (t a0v a1v : Nat) (bus : Bus) (hf : bus.Read32 0 = (0x10000537, true)) :
    (helloState t a0v a1v 0 bus).Step = (helloState t 0x10000000 a1v 4 bus, true) := by
  have frd : fRd 0x10000537 = 10 := by decide
  have e : ofInt32 (immU 0x10000537) = 0x10000000 := by decide
  rw [Step_LUI (helloState t a0v a1v 0 bus) 0x10000537 hf (by decide), frd, e]
  simp [helloState, writeReg_eq, u32]

theorem hello_step_addi_a0 (t a0v a1v : Nat) (bus : Bus)
    (hf : bus.Read32 4 = (0x00050513, true)) :
    (helloState t a0v a1v 4 bus).Step = (helloState t (u32 a0v) a1v 8 bus, true) := by
  have frd : fRd 0x00050513 = 10 := by decide
  have frs1 : fRs1 0x00050513 = 10 := by decide
  have e : ofInt32 (toInt32 (ofInt32 (immI 0x00050513))) = 0 := by decide
  rw [Step_ADDI (helloState t a0v a1v 4 bus) 0x00050513 hf (by decide) (by decide), frd, frs1, e]
  simp [helloState, writeReg_eq, CPU.readReg, u32]

theorem hello_step_addi_a1 (t a0v a1v : Nat) (bus : Bus)
    (hf : bus.Read32 8 = (0x20000593, true)) :
    (helloState t a0v a1v 8 bus).Step = (helloState t a0v 0x200 12 bus, true) := by
  have frd : fRd 0x20000593 = 11 := by decide
  have frs1 : fRs1 0x20000593 = 0 := by decide
  have e : ofInt32 (toInt32 (ofInt32 (immI 0x20000593))) = 0x200 := by decide
  rw [Step_ADDI (helloState t a0v a1v 8 bus) 0x20000593 hf (by decide) (by decide), frd, frs1, e]
  simp [helloState, writeReg_eq, CPU.readReg, u32]

theorem hello_step_lbu (t a0v a1v v : Nat) (bus : Bus)
    (hf : bus.Read32 12 = (0x0005C283, true)) (hr : bus.Read8 (u32 a1v) = (v, true)) :
    (helloState t a0v a1v 12 bus).Step = (helloState v a0v a1v 16 bus, true) := by
  have frd : fRd 0x0005C283 = 5 := by decide
  have frs1 : fRs1 0x0005C283 = 11 := by decide
  have e : ofInt32 (immI 0x0005C283) = 0 := by decide
  rw [Step_LBU (helloState t a0v a1v 12 bus) 0x0005C283 v hf (by decide) (by decide) (by
    rw [frs1, e]
    simpa [helloState, CPU.readReg] using hr), frd]
  simp [helloState, writeReg_eq, u32]

theorem hello_step_beq (t a0v a1v : Nat) (bus : Bus)
    (hf : bus.Read32 16 = (0x00028863, true)) :
    (helloState t a0v a1v 16 bus).Step =
      (helloState t a0v a1v (if t = 0 then 32 else 20) bus, true) := by
  have frs1 : fRs1 0x00028863 = 5 := by decide
  have frs2 : fRs2 0x00028863 = 0 := by decide
  have e : ofInt32 (immB 0x00028863) = 16 := by decide
  rw [Step_BEQ (helloState t a0v a1v 16 bus) 0x00028863 hf (by decide) (by decide), frs1, frs2,
    e]
  simp [helloState, CPU.readReg, u32]

theorem hello_step_sb (t a0v a1v : Nat) (bus b' : Bus)
    (hf : bus.Read32 20 = (0x00550023, true)) (hw : bus.Write8 (u32 a0v) (u8 t) = (b', true)) :
    (helloState t a0v a1v 20 bus).Step = (helloState t a0v a1v 24 b', true) := by
  have frs1 : fRs1 0x00550023 = 10 := by decide
  have frs2 : fRs2 0x00550023 = 5 := by decide
  have e : ofInt32 (immS 0x00550023) = 0 := by decide
  rw [Step_SB (helloState t a0v a1v 20 bus) 0x00550023 b' hf (by decide) (by decide) (by
    rw [frs1, frs2, e]
    simpa [helloState, CPU.readReg] using hw)]
  simp [helloState, u32]

theorem hello_step_inc (t a0v a1v : Nat) (bus : Bus)
    (hf : bus.Read32 24 = (0x00158593, true)) :
    (helloState t a0v a1v 24 bus).Step = (helloState t a0v (u32 (a1v + 1)) 28 bus, true) := by
  have frd : fRd 0x00158593 = 11 := by decide
  have frs1 : fRs1 0x00158593 = 11 := by decide
  have e : ofInt32 (toInt32 (ofInt32 (immI 0x00158593))) = 1 := by decide
  rw [Step_ADDI (helloState t a0v a1v 24 bus) 0x00158593 hf (by decide) (by decide), frd, frs1, e]
  simp [helloState, writeReg_eq, CPU.readReg, u32]

theorem hello_step_jal (t a0v a1v : Nat) (bus : Bus)
    (hf : bus.Read32 28 = (0xFF1FF06F, true)) :
    (helloState t a0v a1v 28 bus).Step = (helloState t a0v a1v 12 bus, true) := by
  have frd : fRd 0xFF1FF06F = 0 := by decide
  have e : addPC 28 (immJ 0xFF1FF06F) = 12 := by decide
  rw [Step_JAL (helloState t a0v a1v 28 bus) 0xFF1FF06F hf (by decide), frd]
  simp only [helloState, e]
  simp [writeReg_eq]

theorem hello_step_ecall (t a0v a1v : Nat) (bus : Bus)
    (hf : bus.Read32 32 = (0x00000073, true)) :
    (helloState t a0v a1v 32 bus).Step = (helloState t a0v a1v 32 bus, false) :=
  Step_SYSTEM (helloState t a0v a1v 32 bus) 0x00000073 hf (by decide)

/-- A byte store to `UARTBase` on a bus with a sink-less UART whose RAM ends
below the window: the byte joins the accumulator. -/
theorem hello_write (d buf : List Nat) (v : Nat) (hd : u32 d.length ≤ 0x10000000) :
    (Bus.mk (RAM.mk d) (UART.mk none buf [] false)).Write8 0x10000000 v =
      (Bus.mk (RAM.mk d) (UART.mk none (buf ++ [v]) [] false), true) := by
  have h1 : ¬ (0x10000000 < (Bus.mk (RAM.mk d) (UART.mk none buf [] false)).RAM.Size) := by
    show ¬ (0x10000000 < u32 d.length)
    omega
  have h2 : (0x10000000 : Nat) ≥ UARTBase ∧ 0x10000000 < UARTBase + UARTSize := by decide
  have h3 : sub32 0x10000000 UARTBase = 0 := by decide
  rw [Write8_uart _ _ _ h1 h2, h3]
  rfl

/-- The loop of the string program, entered at the LBU with a1 pointing at
byte k of the string and the first k bytes already sent: after 5 steps for
each remaining byte and two more (LBU, BEQ) the PC is at the ECALL, and the
next step returns false; the accumulator holds the whole string. -/
theorem hello_loop (d s : List Nat) (hlen : d.length = 65536)
    (hw : ∀ j, (hj : j < helloInsts.length) →
      wordAt d (0 + 4 * (0 + j)) (helloInsts.get ⟨j, hj⟩))
    (hfit : 0x200 + s.length < 65536)
    (hs : ∀ k, k < s.length → d.getD (0x200 + k) 0 = s.getD k 0)
    (hz : d.getD (0x200 + s.length) 0 = 0)
    (hnz : ∀ x ∈ s, 0 < x ∧ x < 256) :
    ∀ j k t, k + j = s.length →
      runToHalt (5 * j + 2) (helloState t 0x10000000 (0x200 + k) 12
          (Bus.mk (RAM.mk d) (UART.mk none (s.take k) [] false))) =
        (helloState 0 0x10000000 (0x200 + s.length) 32
          (Bus.mk (RAM.mk d) (UART.mk none s [] false)), false) ∧
      runToHalt (5 * j + 3) (helloState t 0x10000000 (0x200 + k) 12
          (Bus.mk (RAM.mk d) (UART.mk none (s.take k) [] false))) =
        (helloState 0 0x10000000 (0x200 + s.length) 32
          (Bus.mk (RAM.mk d) (UART.mk none s [] false)), true) := by
  have hsz : ∀ u, (Bus.mk (RAM.mk d) u).RAM.Size = 65536 := by
    intro u
    show u32 d.length = 65536
    rw [hlen]; rfl
  have hwords := hello_words
  have w3 : wordAt d 12 0x0005C283 := hw 3 (by decide)
  have w4 : wordAt d 16 0x00028863 := hw 4 (by decide)
  have w5 : wordAt d 20 0x00550023 := hw 5 (by decide)
  have w6 : wordAt d 24 0x00158593 := hw 6 (by decide)
  have w7 : wordAt d 28 0xFF1FF06F := hw 7 (by decide)
  have w8 : wordAt d 32 0x00000073 := hw 8 (by decide)
  have f3 := fun u => Read32_wordAt (Bus.mk (RAM.mk d) u) 12 _ (by decide)
    (by rw [hsz]; decide) w3 (by decide)
  have f4 := fun u => Read32_wordAt (Bus.mk (RAM.mk d) u) 16 _ (by decide)
    (by rw [hsz]; decide) w4 (by decide)
  have f5 := fun u => Read32_wordAt (Bus.mk (RAM.mk d) u) 20 _ (by decide)
    (by rw [hsz]; decide) w5 (by decide)
  have f6 := fun u => Read32_wordAt (Bus.mk (RAM.mk d) u) 24 _ (by decide)
    (by rw [hsz]; decide) w6 (by decide)
  have f7 := fun u => Read32_wordAt (Bus.mk (RAM.mk d) u) 28 _ (by decide)
    (by rw [hsz]; decide) w7 (by decide)
  have f8 := fun u => Read32_wordAt (Bus.mk (RAM.mk d) u) 32 _ (by decide)
    (by rw [hsz]; decide) w8 (by decide)
  have rd : ∀ u k, k ≤ s.length →
      (Bus.mk (RAM.mk d) u).Read8 (u32 (0x200 + k)) = (d.getD (0x200 + k) 0, true) := by
    intro u k hk
    have e : u32 (0x200 + k) = 0x200 + k := by unfold u32; omega
    rw [e, Read8_ram _ _ (by rw [hsz]; omega)]
  intro j
  induction j with
  | zero =>
    intro k t hk
    have hk' : k = s.length := by omega
    subst hk'
    have s1 := hello_step_lbu t 0x10000000 (0x200 + s.length) 0 _
      (f3 (UART.mk none (s.take s.length) [] false)) (by rw [rd _ _ (Nat.le_refl _), hz])
    have s2 := hello_step_beq 0 0x10000000 (0x200 + s.length) _ (f4 (UART.mk none
      (s.take s.length) [] false))
    rw [if_pos rfl] at s2
    have s3 := hello_step_ecall 0 0x10000000 (0x200 + s.length) _ (f8 (UART.mk none
      (s.take s.length) [] false))
    rw [List.take_length] at s1 s2 s3 ⊢
    constructor
    · rw [runToHalt_true 1 _ _ s1, runToHalt_true 0 _ _ s2]
      rfl
    · rw [runToHalt_true 2 _ _ s1, runToHalt_true 1 _ _ s2, runToHalt_false 0 _ _ s3]
  | succ j ih =>
    intro k t hk
    have hk' : k < s.length := by omega
    have hmem : s.getD k 0 ∈ s := by
      rw [List.getD_eq_getElem?_getD, List.getElem?_eq_getElem hk']
      exact List.getElem_mem _
    obtain ⟨hpos, hlt⟩ := hnz _ hmem
    have s1 := hello_step_lbu t 0x10000000 (0x200 + k) (s.getD k 0) _
      (f3 (UART.mk none (s.take k) [] false)) (by rw [rd _ _ (by omega), hs k hk'])
    have s2 := hello_step_beq (s.getD k 0) 0x10000000 (0x200 + k) _
      (f4 (UART.mk none (s.take k) [] false))
    rw [if_neg (by omega)] at s2
    have e8 : u8 (s.getD k 0) = s.getD k 0 := by unfold u8; omega
    have s3 := hello_step_sb (s.getD k 0) 0x10000000 (0x200 + k) _ _
      (f5 (UART.mk none (s.take k) [] false)) (by
        rw [e8]
        exact hello_write d (s.take k) (s.getD k 0) (by rw [hlen]; decide))
    have htake : s.take k ++ [s.getD k 0] = s.take (k + 1) := by
      rw [List.take_succ, List.getD_eq_getElem?_getD, List.getElem?_eq_getElem hk']
      rfl
    rw [htake] at s3
    have s4 := hello_step_inc (s.getD k 0) 0x10000000 (0x200 + k) _
      (f6 (UART.mk none (s.take (k + 1)) [] false))
    have e1 : u32 (0x200 + k + 1) = 0x200 + (k + 1) := by unfold u32; omega
    rw [e1] at s4
    have s5 := hello_step_jal (s.getD k 0) 0x10000000 (0x200 + (k + 1)) _
      (f7 (UART.mk none (s.take (k + 1)) [] false))
    obtain ⟨i1, i2⟩ := ih (k + 1) (s.getD k 0) (by omega)
    have n1 : 5 * (j + 1) + 2 = (5 * j + 2) + 4 + 1 := by omega
    have n2 : 5 * (j + 1) + 3 = (5 * j + 3) + 4 + 1 := by omega
    constructor
    · rw [n1, runToHalt_true _ _ _ s1, runToHalt_true _ _ _ s2, runToHalt_true _ _ _ s3,
        runToHalt_true _ _ _ s4, runToHalt_true _ _ _ s5]
      exact i1
    · rw [n2, runToHalt_true _ _ _ s1, runToHalt_true _ _ _ s2, runToHalt_true _ _ _ s3,
        runToHalt_true _ _ _ s4, runToHalt_true _ _ _ s5]
      exact i2

theorem helloCPU_eq (msg : List Nat) :
    helloCPU msg = helloState 0 0 0 0
      (Bus.mk (writeInsts 0 helloInsts 0 ((NewRAM (64 * 1024)).WriteBytes 0x200 msg).1).1
        (UART.mk none [] [] false)) := by
  simp only [helloCPU, helloState, NewCPU, NewBus, NewUART]
  congr 1

/-- The string program on the machine of the test, for a string `s` of
non-zero bytes that fits with its terminator: the set-up succeeds, the first
5 * |s| + 5 steps return true, the next one is the ECALL and returns false,
and the accumulator then holds `s`. -/
theorem hello_run (s : List Nat) (hnz : ∀ x ∈ s, 0 < x ∧ x < 256)
    (hfit : 0x200 + s.length + 1 ≤ 65536) :
    ((NewRAM (64 * 1024)).WriteBytes 0x200 (s ++ [0])).2 = WriteBytesResult.nil ∧
    (writeInsts 0 helloInsts 0 ((NewRAM (64 * 1024)).WriteBytes 0x200 (s ++ [0])).1).2 = true ∧
    ∃ cf, runToHalt (5 * s.length + 5) (helloCPU (s ++ [0])) = (cf, false) ∧
      runToHalt (5 * s.length + 6) (helloCPU (s ++ [0])) = (cf, true) ∧
      cf.Bus.UART.String = s ∧ cf.PC = 32 := by
  have h64 : (64 * 1024 : Nat) = 65536 := by norm_num
  rw [helloCPU_eq, h64]
  have hS : (NewRAM 65536).Size = 65536 := NewRAM_Size 65536 (by decide)
  have hL : (NewRAM 65536).data.length = 65536 := List.length_replicate _ _
  have hbl : (s ++ [0]).length = s.length + 1 := by simp
  have hwb := WriteBytes_ok (NewRAM 65536) 0x200 (s ++ [0]) (by rw [hS, hbl]; omega)
  have hcl := copyAt_length (NewRAM 65536).data 0x200 (s ++ [0]) (by rw [hL, hbl]; omega)
  have hci := copyAt_inside (NewRAM 65536).data 0x200 (s ++ [0]) (by rw [hL, hbl]; omega)
  rw [hwb]
  simp only []
  generalize copyAt (NewRAM 65536).data 0x200 (s ++ [0]) = d1 at *
  have hS1 : (RAM.mk d1).Size = 65536 := by
    show u32 d1.length = 65536
    rw [hcl, hL]; rfl
  obtain ⟨hf, hl, hw, ho⟩ := writeInsts_spec 0 helloInsts 0 (RAM.mk d1) (by rw [hS1]; decide)
  generalize (writeInsts 0 helloInsts 0 (RAM.mk d1)).1 = r at *
  obtain ⟨d⟩ := r
  simp only [] at hl hw ho
  have hlen : d.length = 65536 := by rw [hl]; show d1.length = 65536; rw [hcl, hL]
  have hs : ∀ k, k < s.length → d.getD (0x200 + k) 0 = s.getD k 0 := by
    intro k hk
    rw [ho _ (Or.inr (by simp [helloInsts]; omega)), List.getD_eq_getElem?_getD,
      hci k (by rw [hbl]; omega), List.getElem?_append_left hk, List.getD_eq_getElem?_getD]
  have hz : d.getD (0x200 + s.length) 0 = 0 := by
    rw [ho _ (Or.inr (by simp [helloInsts]; omega)), List.getD_eq_getElem?_getD,
      hci s.length (by rw [hbl]; omega), List.getElem?_append_right (Nat.le_refl _)]
    simp
  obtain ⟨l5, l6⟩ := hello_loop d s hlen hw (by omega) hs hz hnz s.length 0 0 (by omega)
  simp only [List.take_zero, Nat.add_zero] at l5 l6
  have hsz : ∀ u, (Bus.mk (RAM.mk d) u).RAM.Size = 65536 := by
    intro u
    show u32 d.length = 65536
    rw [hlen]; rfl
  have w0 : wordAt d 0 0x10000537 := hw 0 (by decide)
  have w1 : wordAt d 4 0x00050513 := hw 1 (by decide)
  have w2 : wordAt d 8 0x20000593 := hw 2 (by decide)
  have f0 := Read32_wordAt (Bus.mk (RAM.mk d) (UART.mk none [] [] false)) 0 _ (by decide)
    (by rw [hsz]; decide) w0 (by decide)
  have f1 := Read32_wordAt (Bus.mk (RAM.mk d) (UART.mk none [] [] false)) 4 _ (by decide)
    (by rw [hsz]; decide) w1 (by decide)
  have f2 := Read32_wordAt (Bus.mk (RAM.mk d) (UART.mk none [] [] false)) 8 _ (by decide)
    (by rw [hsz]; decide) w2 (by decide)
  have s0 := hello_step_lui 0 0 0 _ f0
  have s1 := hello_step_addi_a0 0 0x10000000 0 _ f1
  have e : u32 0x10000000 = 0x10000000 := by decide
  rw [e] at s1
  have s2 := hello_step_addi_a1 0 0x10000000 0 _ f2
  have n5 : 5 * s.length + 5 = (5 * s.length + 2) + 2 + 1 := by omega
  have n6 : 5 * s.length + 6 = (5 * s.length + 3) + 2 + 1 := by omega
  refine ⟨trivial, hf, helloState 0 0x10000000 (0x200 + s.length) 32
    (Bus.mk (RAM.mk d) (UART.mk none s [] false)), ?_, ?_, ?_, ?_⟩
  · rw [n5, runToHalt_true _ _ _ s0, runToHalt_true _ _ _ s1, runToHalt_true _ _ _ s2]
    exact l5
  · rw [n6, runToHalt_true _ _ _ s0, runToHalt_true _ _ _ s1, runToHalt_true _ _ _ s2]
    exact l6
  · rfl
  · rfl

/-- C21: the string program end to end.  For every string s of non-zero bytes
that fits, with its zero terminator, at address 0x200 of the 64 KiB RAM of
`TestCPU_UART_Hello`, with the nine-instruction program at address 0 and
PC = 0: the set-up of the test succeeds; the first 5·|s| + 5 calls of `Step`
return true and call number 5·|s| + 6 returns false (so `runToHalt` reports
false for 5·|s| + 5 steps and true for 5·|s| + 6 and for any larger bound);
at that point the UART accumulator equals s, terminator excluded. -/
theorem C21_hello_string (s : List Nat) (hnz : ∀ x ∈ s, 0 < x ∧ x < 256)
    (hfit : 0x200 + s.length + 1 ≤ 65536) :
    ((NewRAM (64 * 1024)).WriteBytes 0x200 (s ++ [0])).2 = WriteBytesResult.nil ∧
    (writeInsts 0 helloInsts 0 ((NewRAM (64 * 1024)).WriteBytes 0x200 (s ++ [0])).1).2 = true ∧
    (runToHalt (5 * s.length + 5) (helloCPU (s ++ [0]))).2 = false ∧
    (runToHalt (5 * s.length + 6) (helloCPU (s ++ [0]))).2 = true ∧
    (runToHalt (5 * s.length + 6) (helloCPU (s ++ [0]))).1.Bus.UART.String = s ∧
    (∀ m, runToHalt (5 * s.length + 6 + m) (helloCPU (s ++ [0])) =
      runToHalt (5 * s.length + 6) (helloCPU (s ++ [0]))) := by
  obtain ⟨h1, h2, cf, h5, h6, hstr, _⟩ := hello_run s hnz hfit
  have hhalt : (runToHalt (5 * s.length + 6) (helloCPU (s ++ [0]))).2 = true := by rw [h6]
  refine ⟨h1, h2, by rw [h5], hhalt, by rw [h6]; exact hstr,
    fun m => runToHalt_halted _ m _ hhalt⟩

/-- C22 (amended): for the string program of `TestCPU_UART_Hello` on any
3-character string of non-zero bytes, `runToHalt cpu 21` reports
halted = true and `runToHalt cpu 20` reports false: the first 20 calls of
`Step` return true (3 set-up steps, 5 steps for each character, LBU and BEQ
on the terminator) and call number 21, the ECALL, is the first to return
false. -/
theorem C22_hello_three_chars (b1 b2 b3 : Nat) (h1 : 0 < b1 ∧ b1 < 256)
    (h2 : 0 < b2 ∧ b2 < 256) (h3 : 0 < b3 ∧ b3 < 256) :
    (runToHalt 21 (helloCPU [b1, b2, b3, 0])).2 = true ∧
    (runToHalt 20 (helloCPU [b1, b2, b3, 0])).2 = false ∧
    (runToHalt 21 (helloCPU [b1, b2, b3, 0])).1.Bus.UART.String = [b1, b2, b3] := by
  obtain ⟨_, _, cf, h5, h6, hstr, _⟩ := hello_run [b1, b2, b3] (by
    intro x hx
    simp only [List.mem_cons, List.mem_singleton, List.not_mem_nil, or_false] at hx
    rcases hx with rfl | rfl | rfl
    · exact h1
    · exact h2
    · exact h3) (by simp)
  have e : [b1, b2, b3] ++ [0] = [b1, b2, b3, 0] := rfl
  rw [e] at h5 h6
  have n5 : 5 * [b1, b2, b3].length + 5 = 20 := rfl
  have n6 : 5 * [b1, b2, b3].length + 6 = 21 := rfl
  rw [n5] at h5
  rw [n6] at h6
  refine ⟨by rw [h6], by rw [h5], by rw [h6]; exact hstr⟩

/-- C22 (as stated) fails: on the 3-character string "Hi!" all of the first
20 calls of `Step` return true, so `runToHalt cpu 20` reports false. -/
theorem C22_counterexample :
    (runToHalt 20 (helloCPU [72, 105, 33, 0])).2 = false := by
  obtain ⟨_, _, cf, h5, _, _, _⟩ := hello_run [72, 105, 33] (by decide) (by simp)
  have e : [72, 105, 33] ++ [0] = [72, 105, 33, 0] := rfl
  have n5 : 5 * [72, 105, 33].length + 5 = 20 := rfl
  rw [e, n5] at h5
  rw [h5]

/-! ## Instances on concrete states -/

/-- C2 at `lw x1, 0(x2)` with x2 = 0x20000000: the fetch succeeds, the word
read fails, `Step` returns false. -/
theorem C2_step_false_iff_witness :
    cpuTrapLW.PC < 4294967296 ∧ (cpuTrapLW.Step).2 = false ∧ cpuTrapLW.fetch = (0x00012083, true) :=
  ⟨by decide, (C2_step_false_iff cpuTrapLW (by decide)).1.mpr (by decide), by decide⟩

/-- C3 at `sw x1, 8(x0)` in a 10-byte RAM: the store writes bytes 8 and 9 and
traps at byte 10; PC and registers are unchanged and every later `Step`
returns false. -/
theorem C3_halt_one_way_witness :
    (cpuTrapSW.Step).2 = false ∧
    (cpuTrapSW.Step).1.Bus.RAM.data = [0x23, 0x24, 0x10, 0x00, 0, 0, 0, 0, 4, 3] ∧
    ((cpuTrapSW.Step).1.PC = cpuTrapSW.PC ∧ (cpuTrapSW.Step).1.Reg = cpuTrapSW.Reg ∧
      ((cpuTrapSW.Step).1.Step).2 = false ∧
      ∀ n, ((CPU.stepN n (cpuTrapSW.Step).1).Step).2 = false) :=
  ⟨by decide, by decide, C3_halt_one_way cpuTrapSW (by decide)⟩

/-- C4 at the word 0xFFFFFFFF on a fresh CPU: `Step` returns true, PC becomes
4, bus and register file are unchanged. -/
theorem C4_unsupported_opcode_witness :
    cpuAllOnes.fetch = (0xFFFFFFFF, true) ∧ cpuAllOnes.Reg[0]? = some 0 ∧
    (cpuAllOnes.Step).2 = true ∧ (cpuAllOnes.Step).1.PC = 4 ∧
    (cpuAllOnes.Step).1.Bus = cpuAllOnes.Bus ∧ (cpuAllOnes.Step).1.Reg = cpuAllOnes.Reg :=
  have h := C4_unsupported_opcode cpuAllOnes (by decide) (by decide)
  ⟨by decide, by decide, h.1, h.2.1, h.2.2.1, h.2.2.2.2.2 (by decide)⟩

/-- C5 (as stated) fails: the word 0x022081B3 has opcode OP and funct7 0x01,
yet `Step` executes it as ADD and writes 5 + 7 = 12 to x3. -/
theorem C5_counterexample :
    cpuMUL.fetch = (0x022081B3, true) ∧ fOp 0x022081B3 = opOP ∧ fF3 0x022081B3 = 0 ∧
    fF7 0x022081B3 = 0x01 ∧ fRd 0x022081B3 = 3 ∧
    cpuMUL.readReg 3 = 0 ∧ (cpuMUL.Step).1.readReg 3 = 12 ∧
    ¬ ((cpuMUL.Step).2 = true ∧ (cpuMUL.Step).1.PC = (cpuMUL.PC + 4) % 4294967296 ∧
      (cpuMUL.Step).1.Reg = cpuMUL.Reg ∧ (cpuMUL.Step).1.Bus = cpuMUL.Bus) := by
  decide

/-- C5 (amended) at the BRANCH word 0x00002063 with funct3 2 on a fresh CPU:
`Step` returns true, PC becomes 4, bus and register file are unchanged. -/
theorem C5_unknown_funct3_noop_witness :
    cpuBranch2.fetch = (0x00002063, true) ∧
    (cpuBranch2.Step).2 = true ∧ (cpuBranch2.Step).1.PC = 4 ∧
    (cpuBranch2.Step).1.Bus = cpuBranch2.Bus ∧ (cpuBranch2.Step).1.Reg = cpuBranch2.Reg :=
  have h := C5_unknown_funct3_noop.1 cpuBranch2 (by decide) (by decide)
  ⟨by decide, h.1, h.2.1, h.2.2.1, h.2.2.2.2.2 (by decide)⟩

/-- C6 at `jalr x1, 5(x1)` with x1 = 0x100 and PC = 0: the new PC is 0x104,
formed from the old x1, and x1 holds the link value 4. -/
theorem C6_jalr_witness :
    cpuJALR.fetch = (0x005080E7, true) ∧ fRd 0x005080E7 = 1 ∧ fRs1 0x005080E7 = 1 ∧
    (cpuJALR.Step).2 = true ∧ (cpuJALR.Step).1.PC = 0x104 ∧ (cpuJALR.Step).1.readReg 1 = 4 :=
  have h := C6_jalr cpuJALR (by decide) (by decide) (by decide)
  ⟨by decide, by decide, by decide, h.1, by decide, (h.2.2.1 (by decide)).2⟩

/-- C7 at k = -4096, the smallest B-type offset. -/
theorem C7_immB_roundtrip_witness : immB (encB 1 2 3 (-4096)) = -4096 :=
  C7_immB_roundtrip.1 (-4096) 1 2 3 (by decide) (by decide) (by decide) (by decide) (by decide)
    (by decide)

/-- C8 at k = -1048576, the smallest J-type offset. -/
theorem C8_immJ_roundtrip_witness : immJ (encJ 1 (-1048576)) = -1048576 :=
  C8_immJ_roundtrip.1 (-1048576) 1 (by decide) (by decide) (by decide) (by decide)

/-- C9 at k = -2048, the smallest 12-bit immediate. -/
theorem C9_imm12_roundtrip_witness :
    immI (encI 0x13 10 0 10 (-2048) []) = -2048 ∧ immS (encS 2 4 3 (-2048)) = -2048 :=
  C9_imm12_roundtrip (-2048) 0x13 10 0 10 3 (by decide) (by decide) (by decide) (by decide)
    (by decide) (by decide) (by decide)

/-- C10 at address 2 on a 16-byte RAM. -/
theorem C10_unaligned_word_access_witness :
    (2 : Nat) % 4 ≠ 0 ∧
    (NewBus (NewRAM 16) (NewUART none)).Read32 2 = (0, false) ∧
    ((NewBus (NewRAM 16) (NewUART none)).Write32 2 0xDEADBEEF).2 = false ∧
    ((NewBus (NewRAM 16) (NewUART none)).Write32 2 0xDEADBEEF).1 =
      NewBus (NewRAM 16) (NewUART none) :=
  have h := C10_unaligned_word_access (NewBus (NewRAM 16) (NewUART none)) 2 0xDEADBEEF (by decide)
  ⟨by decide, h.1, h.2.1, h.2.2.1⟩

/-- C11 at address 4 of a 16-byte RAM with v = 0xDEADBEEF: the word reads
back, and its least significant byte 0xEF is at address 4. -/
theorem C11_word_roundtrip_witness :
    ((NewBus (NewRAM 16) (NewUART none)).Write32 4 0xDEADBEEF).2 = true ∧
    ((NewBus (NewRAM 16) (NewUART none)).Write32 4 0xDEADBEEF).1.Read32 4 = (0xDEADBEEF, true) ∧
    ((NewBus (NewRAM 16) (NewUART none)).Write32 4 0xDEADBEEF).1.Read8 4 = (0xEF, true) :=
  have h := C11_word_roundtrip (NewBus (NewRAM 16) (NewUART none)) 4 0xDEADBEEF (by decide)
    (by decide) (by decide)
  ⟨h.1, h.2.1, h.2.2.1 0 (by decide)⟩

/-- C12 at address 16 of a bus with 16 bytes of RAM: outside RAM and the UART
window, so the read gives (0, false) and the write fails and changes nothing. -/
theorem C12_byte_access_witness :
    (NewBus (NewRAM 16) (NewUART none)).Read8 16 = (0, false) ∧
    (NewBus (NewRAM 16) (NewUART none)).Write8 16 7 =
      (NewBus (NewRAM 16) (NewUART none), false) :=
  (C12_byte_access (NewBus (NewRAM 16) (NewUART none)) 16 7).2.2 (by decide)

/-- C13 (amended) on the bus of `TestUART_WriteAndReadViaBus` (1024 bytes of
RAM): reading `UARTBase` gives (0, true) and writing 'A' there appends it to
the accumulator. -/
theorem C13_uart_window_witness :
    (NewBus (NewRAM 1024) (NewUART none)).Read8 0x10000000 = (0, true) ∧
    ((NewBus (NewRAM 1024) (NewUART none)).Write8 UARTBase 65).2 = true ∧
    ((NewBus (NewRAM 1024) (NewUART none)).Write8 UARTBase 65).1.UART.String = [65] :=
  have h := C13_uart_window (NewBus (NewRAM 1024) (NewUART none)) 0x10000000 65
    (by rw [show (NewBus (NewRAM 1024) (NewUART none)).RAM.Size = (NewRAM 1024).Size from rfl,
      NewRAM_Size 1024 (by decide)]; decide) (by decide)
  ⟨h.1, h.2.1, h.2.2.1⟩

/-- C14 at S = 16, the size used in `TestRAM_ReadWrite8_AndWriteBytes`. -/
theorem C14_ram_bounds_witness :
    ((NewRAM 16).Read8 15).2 = true ∧ ((NewRAM 16).Write8 15 0xAB).2 = true ∧
    (NewRAM 16).Read8 16 = (0, false) ∧ (NewRAM 16).Write8 16 0xAB = (NewRAM 16, false) :=
  have h := C14_ram_bounds 16 0xAB (by decide) (by decide)
  ⟨h.2.1, h.2.2.1, h.2.2.2.1, h.2.2.2.2.1⟩

/-- C16 at the bytes 'A', 'B', 'C' of `TestUART_WriteAndReadViaBus`. -/
theorem C16_uart_accumulator_witness :
    (({ NewUART none with LineBuffered := false }).writeSeq
      ([65, 66, 67].map (fun x => (0, x)))).1.String = [65, 66, 67] ∧
    (NewUART none).Read8 0 = (0, true) :=
  have h := C16_uart_accumulator none false [65, 66, 67]
  ⟨h.2.1, h.2.2.1 (NewUART none) 0 (by decide)⟩

/-- C17 at the line-buffered writes 'A', newline, 'B' (the last at offset 3):
the accumulator holds all three bytes and the sink is a prefix of them. -/
theorem C17_uart_sink_witness :
    (({ NewUART (some []) with LineBuffered := true }).writeSeq
      [(0, 65), (0, 10), (3, 66)]).1.String = [65, 10, 66] ∧
    (({ NewUART (some []) with LineBuffered := true }).writeSeq
      [(0, 65), (0, 10), (3, 66)]).1.Out = some [65, 10] ∧
    ∃ sink, (({ NewUART (some []) with LineBuffered := true }).writeSeq
      [(0, 65), (0, 10), (3, 66)]).1.Out = some sink ∧ sink <+: [65, 10, 66] :=
  have h := C17_uart_sink true [(0, 65), (0, 10), (3, 66)] (by decide)
  ⟨h.1, by decide, h.2.imp (fun _ hs => ⟨hs.1, hs.2.1⟩)⟩

/-- C18 on the file of `TestLoadELF32_MinimalPTLOAD` (F = 4, M = 8, V = 0x200,
O = 0x100) and a 4096-byte RAM: the loader returns (0x200, nil), the bytes at
0x200 and 0x203 are the first and last file byte of the segment, the byte at
0x204 is 0, and the RAM keeps its 4096 bytes. -/
theorem C18_load_one_segment_witness :
    (LoadELF32 (some testImage) (NewRAM 4096)).2 = LoadResult.ret 0x200 none ∧
    (LoadELF32 (some testImage) (NewRAM 4096)).1.data[0x200]? = some 0xDE ∧
    (LoadELF32 (some testImage) (NewRAM 4096)).1.data[0x203]? = some 0xEF ∧
    (LoadELF32 (some testImage) (NewRAM 4096)).1.data[0x204]? = some 0 ∧
    (LoadELF32 (some testImage) (NewRAM 4096)).1.data.length = 4096 :=
  have h := C18_load_one_segment testImage (NewRAM 4096) testEhdr testPhdr (by decide)
    (by decide) (by decide) (by decide) (by decide) (by decide) (by decide) (by decide)
    (by decide) (by decide) (by decide) (by decide) (by decide)
    (by rw [NewRAM_Size 4096 (by decide)]; decide)
  ⟨h.1, (h.2.1 0 (by decide)).1.trans (by decide), (h.2.1 3 (by decide)).1.trans (by decide),
    h.2.2.1 4 (by decide) (by decide),
    h.2.2.2.2.trans (List.length_replicate 4096 0)⟩

/-- C20 on the test file with its class byte changed to 2 (ELF64): the magic
check passes and the class check fails, so the loader returns entry 0 with the
"not ELF32" error and the RAM is as before. -/
theorem C20_header_checks_witness :
    52 ≤ (testImage.set 4 2).length ∧
    LoadELF32 (some (testImage.set 4 2)) (NewRAM 16) =
      (NewRAM 16, LoadResult.ret 0 (some LoadError.notELF32)) :=
  ⟨by decide,
    ((C20_header_checks (testImage.set 4 2) (NewRAM 16) (by decide)).2.1 (by decide)).1
      (by decide)⟩

/-- C25 on a bus with 8 bytes of RAM: the word store at address 8 fails and
changes nothing. -/
theorem C25_word_store_atomic_witness :
    (NewBus (NewRAM 8) (NewUART none)).RAM.Size % 4 = 0 ∧
    ((NewBus (NewRAM 8) (NewUART none)).Write32 8 0x01020304).2 = false ∧
    ((NewBus (NewRAM 8) (NewUART none)).Write32 8 0x01020304).1 =
      NewBus (NewRAM 8) (NewUART none) :=
  ⟨by decide, by decide,
    ((C25_word_store_atomic (NewBus (NewRAM 8) (NewUART none)) 8 0x01020304
      (by decide)).1 (by decide)).1⟩

/-- C23 at a = -1, b = 1: the sum wraps to 0. -/
theorem C23_arith_scenario_witness :
    (-2048 ≤ (-1 : Int) ∧ (-1 : Int) ≤ 2047) ∧ (-2048 ≤ (1 : Int) ∧ (1 : Int) ≤ 2047) ∧
    (runToHalt 5 (arithCPU (-1) 1)).2 = false ∧
    (runToHalt 6 (arithCPU (-1) 1)).2 = true ∧
    readBack (runToHalt 6 (arithCPU (-1) 1)).1.Bus.RAM 0x300 = (0, true) :=
  ⟨by decide, by decide, (C23_arith_scenario (-1) 1 (by decide) (by decide)).2.1,
    (C23_arith_scenario (-1) 1 (by decide) (by decide)).2.2.1,
    (C23_arith_scenario (-1) 1 (by decide) (by decide)).2.2.2.2.1⟩

/-- C21 on the string of the test, "Hi!\n": 26 steps, the last one halting. -/
theorem C21_hello_string_witness :
    (∀ x ∈ [72, 105, 33, 10], 0 < x ∧ x < 256) ∧
    (runToHalt 25 (helloCPU [72, 105, 33, 10, 0])).2 = false ∧
    (runToHalt 26 (helloCPU [72, 105, 33, 10, 0])).2 = true ∧
    (runToHalt 26 (helloCPU [72, 105, 33, 10, 0])).1.Bus.UART.String = [72, 105, 33, 10] := by
  have h := C21_hello_string [72, 105, 33, 10] (by decide) (by simp)
  have e : [72, 105, 33, 10] ++ [0] = [72, 105, 33, 10, 0] := rfl
  have n5 : 5 * [72, 105, 33, 10].length + 5 = 25 := rfl
  have n6 : 5 * [72, 105, 33, 10].length + 6 = 26 := rfl
  rw [e, n5, n6] at h
  exact ⟨by decide, h.2.2.1, h.2.2.2.1, h.2.2.2.2.1⟩

/-- C22 (amended) on the string "Hi!". -/
theorem C22_hello_three_chars_witness :
    (0 < 72 ∧ 72 < 256) ∧ (0 < 105 ∧ 105 < 256) ∧ (0 < 33 ∧ 33 < 256) ∧
    (runToHalt 21 (helloCPU [72, 105, 33, 0])).2 = true ∧
    (runToHalt 21 (helloCPU [72, 105, 33, 0])).1.Bus.UART.String = [72, 105, 33] :=
  ⟨by decide, by decide, by decide,
    (C22_hello_three_chars 72 105 33 (by decide) (by decide) (by decide)).1,
    (C22_hello_three_chars 72 105 33 (by decide) (by decide) (by decide)).2.2⟩

/-- C24 on the word 0xFFFFFFFF, which has the fallback text and on which the
step warns, and on ECALL, which has a text of its own. -/
theorem C24_disasm_in_sync_witness :
    CPU.warns (fOp 0xFFFFFFFF) (fF3 0xFFFFFFFF) = true ∧
    Disasm 0 0xFFFFFFFF = ".word 0x" ++ fmt08X 0xFFFFFFFF ∧
    ".word 0x" ++ fmt08X 0xFFFFFFFF = ".word 0xffffffff" ∧
    CPU.warns (fOp 0x00000073) (fF3 0x00000073) = false ∧
    Disasm 0 0x00000073 ≠ ".word 0x" ++ fmt08X 0x00000073 :=
  ⟨by decide, (C24_disasm_in_sync 0 0xFFFFFFFF).1.mpr (by decide), by decide, by decide,
    (C24_disasm_in_sync 0 0x00000073).2.2.2 (by decide)⟩

/-- C26 on a bus with 16 bytes of RAM: the word 0x04030201 stored at
`UARTBase` sends the bytes 1, 2, 3, 4. -/
theorem C26_uart_every_offset_witness :
    (NewBus (NewRAM 16) (NewUART none)).RAM.Size ≤ 0x10000000 ∧
    ((NewBus (NewRAM 16) (NewUART none)).Write32 0x10000000 0x04030201).2 = true ∧
    ((NewBus (NewRAM 16) (NewUART none)).Write32 0x10000000 0x04030201).1.UART.String =
      (NewBus (NewRAM 16) (NewUART none)).UART.String ++
        [0x04030201 &&& 0xFF, (0x04030201 >>> 8) &&& 0xFF, (0x04030201 >>> 16) &&& 0xFF,
          (0x04030201 >>> 24) &&& 0xFF] ∧
    (NewBus (NewRAM 16) (NewUART none)).Read32 0x10000000 = (0, true) :=
  ⟨by decide,
    (C26_uart_every_offset.2 (NewBus (NewRAM 16) (NewUART none)) 0x04030201 (by decide)).1,
    (C26_uart_every_offset.2 (NewBus (NewRAM 16) (NewUART none)) 0x04030201 (by decide)).2.1,
    (C26_uart_every_offset.2 (NewBus (NewRAM 16) (NewUART none)) 0x04030201
      (by decide)).2.2.2.1⟩

end Sim
